import Mathlib

/-!
# WAV input source of the MAC library (`Source/MACLib/WAVInputSource.cpp`)

A shallow embedding of `CWAVInputSource`: the little-endian decoders, `AnalyzeSource`, the two
constructors, `CreateInputSource`, and the three data accessors, followed by the properties
established about them. The range-window behaviour of `CAPEDecompress`, of which only the
declaration (`Source/MACLib/APEDecompress.h`) is at hand, is modelled from the specification.

Conventions of the embedding.

* C++ integers are `Int`; every conversion to a fixed-width type is written out with
  `toUnsigned w` / `toSigned w`.  Sums and differences of `int64` values are left unwrapped:
  their operands are the size of the source or lie within `2 ^ 33` of zero, far inside 64 bits.
* `int` and `unsigned int` are 32 bits wide.  The widths of `unsigned long` and `size_t` differ
  between build targets and are read from `Target.dataModel`.
* A call either returns, or has undefined behaviour (a store past the end of `m_sFullHeader`, a
  division by zero, a NULL dereference), or the model runs out of loop fuel; see `Run`.
-/

namespace APE

/-! ## Build target -/

/-- One octet of the source. -/
abbrev Byte := Fin 256

/-- The C data models the library is built for. -/
inductive DataModel where
  | ILP32
  | LLP64
  | LP64
  deriving DecidableEq, Repr

/-- Width of `unsigned long`. -/
def DataModel.ulongBits : DataModel → Nat
  | .ILP32 => 32
  | .LLP64 => 32
  | .LP64 => 64

/-- Width of `size_t`, the type of `sizeof`. -/
def DataModel.sizeBits : DataModel → Nat
  | .ILP32 => 32
  | .LLP64 => 64
  | .LP64 => 64

/-! ## Status codes -/

/-- Modelled from the spec: the status macros are defined in `MACLib.h`, which is not among the
sources. The spec names the classes (success, IOFailure, InvalidStream, BadParameter,
Uninitialized); the numbers are those of the library's public header and only their being
pairwise distinct is used. -/
def ERROR_SUCCESS : Int := 0

/-- Modelled from the spec: IOFailure, the underlying source's read failed (`MACLib.h`). -/
def ERROR_IO_READ : Int := 1000

/-- Modelled from the spec: InvalidStream, a malformed or unsupported input (`MACLib.h`). -/
def ERROR_INVALID_INPUT_FILE : Int := 1002

/-- Modelled from the spec: BadParameter, invalid construction arguments (`MACLib.h`). -/
def ERROR_BAD_PARAMETER : Int := 5000

/-- Modelled from the spec: Uninitialized, an operation on an unusable instance (`MACLib.h`). -/
def ERROR_UNDEFINED : Int := -1

/-- What `WAVInputSource.cpp` takes from headers that are not part of it: the data model, the
number of elements of the array `m_sFullHeader` (declared in `WAVInputSource.h`), and the status
`ReadSafe` (declared in `GlobalFunctions.h`) gives when fewer bytes arrive than were asked for,
which is a failure status. -/
structure Target where
  dataModel : DataModel
  fullHeaderSize : Nat
  readSafeShort : Int
  readSafeShort_ne : readSafeShort ≠ ERROR_SUCCESS

/-! ## Fixed-width conversions -/

/-- Conversion to an unsigned type of `w` bits. -/
def toUnsigned (w : Nat) (x : Int) : Int := x % 2 ^ w

/-- Conversion to a signed two's-complement type of `w` bits. -/
def toSigned (w : Nat) (x : Int) : Int := (x + 2 ^ (w - 1)) % 2 ^ w - 2 ^ (w - 1)

/-- The expression `buf[i]`, an `unsigned char` promoted to `int`. -/
def byteAt (buf : List Byte) (i : Nat) : Int := ((buf.getD i 0).val : Int)

/-- The function `UCHAR_TO_ULONG_LE`: the four shifts and the three additions are `int`
operations, the cast to `unsigned long` comes last. -/
def UCHAR_TO_ULONG_LE (dm : DataModel) (buf : List Byte) : Int :=
  toUnsigned dm.ulongBits
    (toSigned 32
      (toSigned 32
        (toSigned 32 (toSigned 32 (byteAt buf 3 * 2 ^ 24) + toSigned 32 (byteAt buf 2 * 2 ^ 16))
          + toSigned 32 (byteAt buf 1 * 2 ^ 8))
        + byteAt buf 0))

/-- The function `UCHAR_TO_USHORT_LE`. -/
def UCHAR_TO_USHORT_LE (buf : List Byte) : Int :=
  toUnsigned 16 (toSigned 32 (toSigned 32 (byteAt buf 1 * 2 ^ 8) + byteAt buf 0))

/-- The macro `ape_max` (from `All.h`). -/
def ape_max (a b : Int) : Int := if a > b then a else b

/-! ## The byte source -/

/-- The seek origins. -/
def APE_FILE_BEGIN : Int := 0

/-- Seek relative to the current position. -/
def APE_FILE_CURRENT : Int := 1

/-- Seek relative to the end of the source. -/
def APE_FILE_END : Int := 2

/-- Modelled from the spec: the class `CIO` is declared outside the sources; the spec gives it as
a byte-addressable source with seek, read and size, whose reads and seeks may fail (IOFailure).
`bytes` is the content, `pos` the read position. `readFaults` and `seekFaults` schedule the
statuses of the coming `Read` and `PerformSeek` calls (`0` or an exhausted schedule: the call
works). A failed call moves nothing and delivers nothing. -/
structure CIO where
  bytes : List Byte
  pos : Nat
  seekMethod : Int
  seekPosition : Int
  readFaults : List Int
  seekFaults : List Int
  deriving DecidableEq, Repr

namespace CIO

/-- Modelled from the spec: `size() → totalBytes`. -/
def GetSize (io : CIO) : Int := (io.bytes.length : Int)

/-- Modelled from the spec: the current read position. -/
def GetPosition (io : CIO) : Int := (io.pos : Int)

/-- Modelled from the spec: stores the origin of the next seek. -/
def SetSeekMethod (io : CIO) (m : Int) : CIO := { io with seekMethod := m }

/-- Modelled from the spec: stores the offset of the next seek. -/
def SetSeekPosition (io : CIO) (p : Int) : CIO := { io with seekPosition := p }

/-- The absolute position the stored seek asks for. -/
def seekTarget (io : CIO) : Int :=
  if io.seekMethod = APE_FILE_END then io.GetSize + io.seekPosition
  else if io.seekMethod = APE_FILE_CURRENT then io.GetPosition + io.seekPosition
  else io.seekPosition

/-- Modelled from the spec: `seek(absolute|relative, offset)`. The call fails, leaving the
position alone, when a fault is scheduled or the target lies before the first byte. -/
def PerformSeek (io : CIO) : Int × CIO :=
  let fault := io.seekFaults.headD 0
  let io1 := { io with seekFaults := io.seekFaults.tail }
  if fault ≠ 0 then (fault, io1)
  else if io1.seekTarget < 0 then (ERROR_UNDEFINED, io1)
  else (ERROR_SUCCESS, { io1 with pos := io1.seekTarget.toNat })

/-- Modelled from the spec: `read(buffer, maxBytes) → bytesRead`. Delivers the bytes from the
read position on, at most `n` of them and fewer only at the end of the source, and advances the
position by what was delivered; result: status, bytes stored in the buffer, source. -/
def Read (io : CIO) (n : Nat) : Int × List Byte × CIO :=
  let fault := io.readFaults.headD 0
  let io1 := { io with readFaults := io.readFaults.tail }
  if fault ≠ 0 then (fault, [], io1)
  else
    let got := (io1.bytes.drop io1.pos).take n
    (ERROR_SUCCESS, got, { io1 with pos := io1.pos + got.length })

end CIO

/-- Modelled from the spec: `ReadSafe` is defined in `GlobalFunctions.cpp`, which is not among the
sources. It reads `n` bytes and fails when the read fails or delivers fewer than `n` bytes; the
status of the second case is `Target.readSafeShort`. -/
def ReadSafe (t : Target) (io : CIO) (n : Nat) : Int × List Byte × CIO :=
  let r := io.Read n
  if r.1 ≠ ERROR_SUCCESS then r
  else if r.2.1.length ≠ n then (t.readSafeShort, r.2.1, r.2.2)
  else r

/-! ## The object -/

/-- The structure `WAVEFORMATEX`. -/
structure WAVEFORMATEX where
  wFormatTag : Int
  nChannels : Int
  nSamplesPerSec : Int
  nAvgBytesPerSec : Int
  nBlockAlign : Int
  wBitsPerSample : Int
  cbSize : Int
  deriving DecidableEq, Repr

/-- Modelled from the spec: `FillWaveFormatEx` is defined in `GlobalFunctions.cpp`, which is not
among the sources. It takes `int` sample rate, bits per sample and channel count; the block
alignment is the bytes of one sample-block, `(bits / 8) * channels`, stored in 16 bits. -/
def FillWaveFormatEx (nSampleRate nBitsPerSample nChannels : Int) : WAVEFORMATEX :=
  let bits := toUnsigned 16 nBitsPerSample
  let channels := toUnsigned 16 nChannels
  let rate := toUnsigned 32 nSampleRate
  let align := toUnsigned 16 (toSigned 32 (bits.tdiv 8 * channels))
  { wFormatTag := 1
    nChannels := channels
    nSamplesPerSec := rate
    nAvgBytesPerSec := toUnsigned 32 (align * rate)
    nBlockAlign := align
    wBitsPerSample := bits
    cbSize := 0 }

/-- The data members of `CWAVInputSource`. `m_spIO` is `none` for a NULL smart pointer.
`m_sFullHeader` lists the bytes stored in the array so far, from its first element. -/
structure CWAVInputSource where
  m_spIO : Option CIO
  m_sFullHeader : List Byte
  m_wfeSource : WAVEFORMATEX
  m_nHeaderBytes : Int
  m_nDataBytes : Int
  m_nTerminatingBytes : Int
  m_nFileBytes : Int
  m_bIsValid : Bool
  deriving DecidableEq, Repr

/-- How a call ends. -/
inductive Run (α : Type) where
  | done (a : α)
  | undefined
  | outOfFuel
  deriving DecidableEq, Repr

/-- Control flow inside `AnalyzeSource`: fall through to the next statement with a value and the
object, or `return code`. -/
inductive Flow (α : Type) where
  | next (a : α) (s : CWAVInputSource)
  | ret (code : Int) (s : CWAVInputSource)
  | undefined
  | outOfFuel
  deriving DecidableEq, Repr

/-- Sequencing of statements. -/
def Flow.andThen {α β : Type} (x : Flow α) (f : α → CWAVInputSource → Flow β) : Flow β :=
  match x with
  | .next a s => f a s
  | .ret c s => .ret c s
  | .undefined => .undefined
  | .outOfFuel => .outOfFuel

/-- The status and object a finished flow leaves. -/
def Flow.toRun : Flow Int → Run (Int × CWAVInputSource)
  | .next c s => .done (c, s)
  | .ret c s => .done (c, s)
  | .undefined => .undefined
  | .outOfFuel => .outOfFuel

/-- The statement `RETURN_ON_ERROR(ReadSafe(m_spIO, p, n))`. The pointer `p` always stands right
after the bytes stored so far, so the bytes delivered are appended to `m_sFullHeader`; storing
past the end of the array is undefined. Falls through with the bytes now at `p`. -/
def readAtP (t : Target) (n : Nat) (s : CWAVInputSource) : Flow (List Byte) :=
  match s.m_spIO with
  | none => .undefined
  | some io =>
    let r := ReadSafe t io n
    if s.m_sFullHeader.length + r.2.1.length > t.fullHeaderSize then .undefined
    else
      let s1 := { s with m_spIO := some r.2.2, m_sFullHeader := s.m_sFullHeader ++ r.2.1 }
      if r.1 ≠ ERROR_SUCCESS then .ret r.1 s1 else .next r.2.1 s1

/-- The test `p[0] == a && p[1] == b && p[2] == c && p[3] == d`. -/
def hasLabel (p : List Byte) (a b c d : Char) : Bool :=
  byteAt p 0 == a.toNat && byteAt p 1 == b.toNat && byteAt p 2 == c.toNat && byteAt p 3 == d.toNat

/-- The two chunk-search loops `while (!(p[0] == a && ...)) { ... }`, entered with a chunk header
at `p`: skip the body of the chunk, read the next chunk header. -/
def findChunk (t : Target) (a b c d : Char) :
    Nat → List Byte → CWAVInputSource → Flow (List Byte)
  | 0, _, _ => .outOfFuel
  | fuel + 1, p, s =>
    if hasLabel p a b c d then .next p s
    else
      let nChunkBytes := toUnsigned 32 (UCHAR_TO_ULONG_LE t.dataModel (p.drop 4))
      (readAtP t nChunkBytes.toNat s).andThen fun _ s1 =>
      (readAtP t 8 s1).andThen fun q s2 =>
      findChunk t a b c d fuel q s2

/-- Loop fuel: one more than the number of whole chunk headers the source can hold. -/
def loopFuel (s : CWAVInputSource) : Nat :=
  match s.m_spIO with
  | none => 1
  | some io => io.bytes.length / 8 + 1

/-- Lines 132-134: `SetSeekMethod(APE_FILE_BEGIN); SetSeekPosition(0); PerformSeek();`. The
status of the seek is not looked at. -/
def seekToBegin (io : CIO) : CIO :=
  ((io.SetSeekMethod APE_FILE_BEGIN).SetSeekPosition 0).PerformSeek.2

/-- Line 147: `int64 nFileBytes = UCHAR_TO_ULONG_LE(p + 4) + sizeof(RIFF_HEADER)`, with `p` at the
RIFF header. The sum is formed in the wider of `unsigned long` and `size_t`. -/
def declaredFileBytes (t : Target) (p : List Byte) : Int :=
  toSigned 64
    (toUnsigned (max t.dataModel.ulongBits t.dataModel.sizeBits)
      (UCHAR_TO_ULONG_LE t.dataModel (p.drop 4) + 8))

/-- Lines 129-158: seek to the beginning, take the size, read and check `RIFF`, the declared
size and `WAVE`. -/
def readRiffWave (t : Target) (s : CWAVInputSource) : Flow Unit :=
  match s.m_spIO with
  | none => .undefined
  | some io =>
    let io1 := seekToBegin io
    let nRealFileBytes := io1.GetSize
    (readAtP t 8 { s with m_spIO := some io1, m_sFullHeader := [] }).andThen fun p s1 =>
    if !hasLabel p 'R' 'I' 'F' 'F' then .ret ERROR_INVALID_INPUT_FILE s1
    else
      let nFileBytes := declaredFileBytes t p
      (readAtP t 4 { s1 with m_nFileBytes := ape_max nFileBytes nRealFileBytes }).andThen
        fun q s2 =>
      if !hasLabel q 'W' 'A' 'V' 'E' then .ret ERROR_INVALID_INPUT_FILE s2
      else .next () s2

/-- Lines 160-179: find the `fmt ` chunk and read the 16 bytes of `WAV_FORMAT_HEADER`. Falls
through with `nFmtChunkBytes` and the format header now at `p`. -/
def readFormatHeader (t : Target) (s : CWAVInputSource) : Flow (Int × List Byte) :=
  (readRiffWave t s).andThen fun _ s1 =>
  (readAtP t 8 s1).andThen fun p s2 =>
  (findChunk t 'f' 'm' 't' ' ' (loopFuel s2) p s2).andThen fun q s3 =>
  let nFmtChunkBytes := toUnsigned 32 (UCHAR_TO_ULONG_LE t.dataModel (q.drop 4))
  (readAtP t 16 s3).andThen fun r s4 =>
  .next (nFmtChunkBytes, r) s4

/-- Lines 181-213: check the format tag, fill `m_wfeSource`, skip the rest of the `fmt ` chunk and
find the `data` chunk. Falls through with the `data` chunk header at `p`. -/
def findDataChunk (t : Target) (f : Int × List Byte) (s : CWAVInputSource) : Flow (List Byte) :=
  let nFmtChunkBytes := f.1
  let p := f.2
  let nFormatTag := UCHAR_TO_USHORT_LE p
  if nFormatTag ≠ 1 ∧ nFormatTag ≠ 65534 then .ret ERROR_INVALID_INPUT_FILE s
  else
    let wfe := FillWaveFormatEx (toSigned 32 (UCHAR_TO_ULONG_LE t.dataModel (p.drop 4)))
      (UCHAR_TO_USHORT_LE (p.drop 14)) (UCHAR_TO_USHORT_LE (p.drop 2))
    let s1 := { s with m_wfeSource := wfe }
    let nWAVFormatHeaderExtra := toSigned 32 (nFmtChunkBytes - 16)
    if nWAVFormatHeaderExtra < 0 then .ret ERROR_INVALID_INPUT_FILE s1
    else
      (readAtP t nWAVFormatHeaderExtra.toNat s1).andThen fun _ s2 =>
      (readAtP t 8 s2).andThen fun q s3 =>
      findChunk t 'd' 'a' 't' 'a' (loopFuel s3) q s3

/-- Lines 216-220: the size the `data` chunk header at `p` declares, cut down to what the file
size `nFileBytes` leaves after `nHeader` header bytes. -/
def dataBytes (t : Target) (p : List Byte) (nFileBytes nHeader : Int) : Int :=
  let nData := toSigned 64 (UCHAR_TO_ULONG_LE t.dataModel (p.drop 4))
  if nData > nFileBytes - nHeader then nFileBytes - nHeader else nData

/-- Lines 215-230: the byte counts. `p - m_sFullHeader` after `p += sizeof(RIFF_CHUNK_HEADER)` is
the number of bytes stored. A remainder by zero is undefined. -/
def computeSizes (t : Target) (p : List Byte) (s : CWAVInputSource) : Flow Int :=
  let nHeader : Int := (s.m_sFullHeader.length : Int)
  let s1 := { s with m_nDataBytes := dataBytes t p s.m_nFileBytes nHeader, m_nHeaderBytes := nHeader }
  if s1.m_wfeSource.nBlockAlign = 0 then .undefined
  else if s1.m_nDataBytes.tmod s1.m_wfeSource.nBlockAlign ≠ 0 then
    .ret ERROR_INVALID_INPUT_FILE s1
  else
    .next ERROR_SUCCESS
      { s1 with m_nTerminatingBytes := s1.m_nFileBytes - s1.m_nDataBytes - s1.m_nHeaderBytes }

/-- Lines 129-213, everything that reads: up to the `data` chunk header. -/
def readHeaders (t : Target) (s : CWAVInputSource) : Flow (List Byte) :=
  (readFormatHeader t s).andThen (findDataChunk t)

/-- The method `CWAVInputSource::AnalyzeSource`: status and object afterwards. -/
def AnalyzeSource (t : Target) (s : CWAVInputSource) : Run (Int × CWAVInputSource) :=
  ((readHeaders t s).andThen (computeSizes t)).toRun

/-! ## Construction -/

/-- The pointer arguments a constructor may store through: `none` is a NULL pointer, `some v` a
pointer to an object holding `v`. -/
structure OutParams where
  pwfeSource : Option WAVEFORMATEX
  pTotalBlocks : Option Int
  pHeaderBytes : Option Int
  pTerminatingBytes : Option Int
  pErrorCode : Option Int
  deriving DecidableEq, Repr

/-- The statement `if (p) *p = v;`. -/
def store {α : Type} (p : Option α) (v : α) : Option α := p.map fun _ => v

/-- Lines 74-86 and 108-120, shared by the two constructors: run `AnalyzeSource`, on success fill
in the parameters and mark the object valid, then report the status. -/
def analyzeAndReport (t : Target) (s : CWAVInputSource) (o : OutParams) :
    Run (CWAVInputSource × OutParams) :=
  match AnalyzeSource t s with
  | .undefined => .undefined
  | .outOfFuel => .outOfFuel
  | .done (nResult, s1) =>
    if nResult = ERROR_SUCCESS then
      if o.pTotalBlocks.isSome ∧ s1.m_wfeSource.nBlockAlign = 0 then .undefined
      else
        let o1 : OutParams :=
          { pwfeSource := store o.pwfeSource s1.m_wfeSource
            pTotalBlocks := store o.pTotalBlocks
              (toSigned 32 (s1.m_nDataBytes.tdiv s1.m_wfeSource.nBlockAlign))
            pHeaderBytes := store o.pHeaderBytes s1.m_nHeaderBytes
            pTerminatingBytes := store o.pTerminatingBytes s1.m_nTerminatingBytes
            pErrorCode := store o.pErrorCode nResult }
        .done ({ s1 with m_bIsValid := true }, o1)
    else .done (s1, { o with pErrorCode := store o.pErrorCode nResult })

/-- The constructor `CWAVInputSource(CIO * pIO, ...)`. `mem` is the storage the object is built
in (its plain members start out indeterminate; the smart pointer starts out NULL). -/
def CWAVInputSource.fromIO (t : Target) (mem : CWAVInputSource) ( pIO : Option CIO)
    (o : OutParams) : Run (CWAVInputSource × OutParams) :=
  let s0 := { mem with m_spIO := none, m_bIsValid := false }
  if pIO.isNone ∨ o.pwfeSource.isNone then
    .done (s0, { o with pErrorCode := store o.pErrorCode ERROR_BAD_PARAMETER })
  else analyzeAndReport t { s0 with m_spIO := pIO } o

/-- Modelled from the spec: `Open` of the I/O class named by `IO_CLASS_NAME`, which is not among
the sources. The files that can be opened are given by `fs`, which sends a name to the source it
opens as, or to `none`. -/
def openSource (fs : String → Option CIO) (name : String) : Option CIO := fs name

/-- The constructor `CWAVInputSource(const wchar_t * pSourceName, ...)`. -/
def CWAVInputSource.fromName (t : Target) (fs : String → Option CIO) (mem : CWAVInputSource)
    (pSourceName : Option String) (o : OutParams) : Run (CWAVInputSource × OutParams) :=
  let s0 := { mem with m_spIO := none, m_bIsValid := false }
  match pSourceName with
  | none => .done (s0, { o with pErrorCode := store o.pErrorCode ERROR_BAD_PARAMETER })
  | some name =>
    if o.pwfeSource.isNone then
      .done (s0, { o with pErrorCode := store o.pErrorCode ERROR_BAD_PARAMETER })
    else
      match openSource fs name with
      | none => .done (s0, { o with pErrorCode := store o.pErrorCode ERROR_INVALID_INPUT_FILE })
      | some io => analyzeAndReport t { s0 with m_spIO := some io } o

/-- The function `CreateInputSource`: the pointer returned (`none` is NULL) and the parameters
afterwards. -/
def CreateInputSource (t : Target) (fs : String → Option CIO) (mem : CWAVInputSource)
    (pSourceName : Option String) (o : OutParams) :
    Run (Option CWAVInputSource × OutParams) :=
  match pSourceName with
  | none => .done (none, { o with pErrorCode := store o.pErrorCode ERROR_BAD_PARAMETER })
  | some name =>
    if name.length = 0 then
      .done (none, { o with pErrorCode := store o.pErrorCode ERROR_BAD_PARAMETER })
    else
      match CWAVInputSource.fromName t fs mem (some name) o with
      | .done (inst, o1) => .done (some inst, o1)
      | .undefined => .undefined
      | .outOfFuel => .outOfFuel

/-! ## The data accessors -/

/-- What an accessor leaves behind: its status, the object, the bytes it stored at the start of
the caller's buffer, and the caller's block counter. -/
structure Access where
  status : Int
  object : CWAVInputSource
  stored : List Byte
  pBlocksRetrieved : Option Int
  deriving DecidableEq, Repr

/-- The method `CWAVInputSource::GetData`. -/
def GetData (s : CWAVInputSource) (nBlocks : Int) (pBlocksRetrieved : Option Int) : Run Access :=
  if !s.m_bIsValid then .done ⟨ERROR_UNDEFINED, s, [], pBlocksRetrieved⟩
  else
    match s.m_spIO with
    | none => .undefined
    | some io =>
      let nBytes := toSigned 32 (s.m_wfeSource.nBlockAlign * nBlocks)
      let r := io.Read (toUnsigned 32 nBytes).toNat
      let s1 := { s with m_spIO := some r.2.2 }
      if r.1 ≠ ERROR_SUCCESS then .done ⟨ERROR_IO_READ, s1, r.2.1, pBlocksRetrieved⟩
      else if pBlocksRetrieved.isSome ∧ s.m_wfeSource.nBlockAlign = 0 then .undefined
      else
        let nBytesRead : Int := (r.2.1.length : Int)
        .done ⟨ERROR_SUCCESS, s1, r.2.1,
          store pBlocksRetrieved (toSigned 32 (nBytesRead.tdiv s.m_wfeSource.nBlockAlign))⟩

/-- The method `CWAVInputSource::GetHeaderData`: `memcpy` of the first `m_nHeaderBytes` bytes of
`m_sFullHeader`. Copying bytes the array never received is undefined. -/
def GetHeaderData (s : CWAVInputSource) : Run Access :=
  if !s.m_bIsValid then .done ⟨ERROR_UNDEFINED, s, [], none⟩
  else if s.m_nHeaderBytes < 0 ∨ s.m_nHeaderBytes > (s.m_sFullHeader.length : Int) then .undefined
  else .done ⟨ERROR_SUCCESS, s, s.m_sFullHeader.take s.m_nHeaderBytes.toNat, none⟩

/-- The method `CWAVInputSource::GetTerminatingData`. -/
def GetTerminatingData (s : CWAVInputSource) : Run Access :=
  if !s.m_bIsValid then .done ⟨ERROR_UNDEFINED, s, [], none⟩
  else if s.m_nTerminatingBytes > 0 then
    match s.m_spIO with
    | none => .undefined
    | some io =>
      let nOriginalFileLocation := io.GetPosition
      let io1 := ((io.SetSeekMethod APE_FILE_END).SetSeekPosition (-s.m_nTerminatingBytes)).PerformSeek.2
      let r := io1.Read (toUnsigned 32 s.m_nTerminatingBytes).toNat
      let nBytesRead : Int := (r.2.1.length : Int)
      let nResult :=
        if r.1 ≠ ERROR_SUCCESS ∨ s.m_nTerminatingBytes ≠ toSigned 32 nBytesRead then ERROR_UNDEFINED
        else ERROR_SUCCESS
      let io2 := ((r.2.2.SetSeekMethod APE_FILE_BEGIN).SetSeekPosition nOriginalFileLocation).PerformSeek.2
      .done ⟨nResult, { s with m_spIO := some io2 }, r.2.1, none⟩
  else .done ⟨ERROR_SUCCESS, s, [], none⟩

/-! ## Predicates used in the statements -/

/-- The state of the object while `AnalyzeSource` reads a source holding `B` from offset `start`:
the source is unchanged and stands right after the bytes stored, `m_sFullHeader` is the stretch
of `B` read so far, the bytes `p` were stored last, and the array has not overflowed. -/
def Reading (t : Target) (B : List Byte) (start : Nat) (p : List Byte)
    (s : CWAVInputSource) : Prop :=
  (∃ io, s.m_spIO = some io ∧ io.bytes = B ∧ io.pos = start + s.m_sFullHeader.length) ∧
  s.m_sFullHeader = (B.drop start).take s.m_sFullHeader.length ∧
  (∃ pre, s.m_sFullHeader = pre ++ p) ∧
  s.m_sFullHeader.length ≤ t.fullHeaderSize

/-- The bytes of the source after the read position. -/
def unreadBytes (s : CWAVInputSource) : Nat :=
  match s.m_spIO with
  | none => 0
  | some io => io.bytes.length - io.pos

/-- The members the read statements leave alone. -/
def SameParse (s s1 : CWAVInputSource) : Prop :=
  s1.m_wfeSource = s.m_wfeSource ∧ s1.m_nFileBytes = s.m_nFileBytes ∧
  s1.m_bIsValid = s.m_bIsValid

/-- The object a flow hands on, if any, satisfies `P`. -/
@[irreducible]
def Flow.Holds {α : Type} (P : CWAVInputSource → Prop) : Flow α → Prop
  | .next _ s => P s
  | .ret _ s => P s
  | .undefined => True
  | .outOfFuel => True

/-- Two objects at the same point of `AnalyzeSource`, one on a source holding `B`, the other on
the same source holding only the first `k` bytes of `B`: the same statuses scheduled for the
coming reads, the same read position, at least `lo` and at most `k`, and the same bytes
stored. -/
def InSync (B : List Byte) (k lo : Nat) (s sT : CWAVInputSource) : Prop :=
  ∃ io ioT, s.m_spIO = some io ∧ sT.m_spIO = some ioT ∧ io.bytes = B ∧ ioT.bytes = B.take k ∧
    ioT.readFaults = io.readFaults ∧ ioT.pos = io.pos ∧ lo ≤ io.pos ∧ io.pos ≤ k ∧
    k ≤ B.length ∧ sT.m_sFullHeader = s.m_sFullHeader

/-- How a flow `xT` on the truncated source relates to the flow `x` on the whole source: `x`
does not return at all, or `xT` has returned the short-read status, or both have done the same
and the objects are in step. -/
def Truncation (short : Int) (B : List Byte) (k lo : Nat) {α : Type} (x xT : Flow α) : Prop :=
  x = .undefined ∨ x = .outOfFuel ∨ (∃ sT, xT = .ret short sT) ∨
    (∃ a s1 sT1, x = .next a s1 ∧ xT = .next a sT1 ∧ InSync B k lo s1 sT1) ∨
    (∃ c s1 sT1, x = .ret c s1 ∧ xT = .ret c sT1 ∧ InSync B k 0 s1 sT1)

/-! ## Sample inputs -/

/-- A target with an 8192-byte header array whose `ReadSafe` reports a short read as
`ERROR_IO_READ`. -/
def sampleTarget (dm : DataModel) : Target := ⟨dm, 8192, ERROR_IO_READ, by decide⟩

/-- A source without pending faults, holding `bytes`, positioned at their start. -/
def fileSource (bytes : List Byte) : CIO := ⟨bytes, 0, APE_FILE_BEGIN, 0, [], []⟩

/-- Storage for an object, zeroed. -/
def rawObject : CWAVInputSource := ⟨none, [], ⟨0, 0, 0, 0, 0, 0, 0⟩, 0, 0, 0, 0, false⟩

/-- An object about to analyse the source `io`. -/
def objectOn (io : CIO) : CWAVInputSource := { rawObject with m_spIO := some io }

/-- Five non-NULL pointer arguments. -/
def allOutputs : OutParams := ⟨some ⟨0, 0, 0, 0, 0, 0, 0⟩, some 0, some 0, some 0, some 0⟩

/-- The object a finished call leaves. -/
def Run.object (r : Run (Int × CWAVInputSource)) : CWAVInputSource :=
  match r with
  | .done (_, s) => s
  | .undefined => rawObject
  | .outOfFuel => rawObject

/-- Two bytes, little-endian. -/
def le16 (n : Nat) : List Byte := [Fin.ofNat n, Fin.ofNat (n / 256)]

/-- Four bytes, little-endian. -/
def le32 (n : Nat) : List Byte :=
  [Fin.ofNat n, Fin.ofNat (n / 256), Fin.ofNat (n / 65536), Fin.ofNat (n / 16777216)]

/-- The bytes of an ASCII string. -/
def ascii (s : String) : List Byte := s.toList.map fun c => Fin.ofNat c.toNat

/-- A WAV file with a 16-byte `fmt ` chunk directly followed by the `data` chunk: declared RIFF
size, format tag, channels, bits per sample, declared data size, and the bytes after the `data`
chunk header. -/
def sampleWav (riff tag channels bits dataDecl : Nat) (rest : List Byte) : List Byte :=
  ascii "RIFF" ++ le32 riff ++ ascii "WAVE" ++ ascii "fmt " ++ le32 16 ++ le16 tag ++
    le16 channels ++ le32 44100 ++ le32 (44100 * channels * (bits / 8)) ++
    le16 (channels * (bits / 8)) ++ le16 bits ++ ascii "data" ++ le32 dataDecl ++ rest

/-- A well-formed file: 16-bit mono, four bytes of data, nothing after them. -/
def monoWav : List Byte := sampleWav 40 1 1 16 4 (le32 7)

/-- A file whose RIFF header declares 1000 bytes although only 40 follow it: 16-bit mono, four
bytes of data. -/
def overDeclaredWav : List Byte := sampleWav 1000 1 1 16 4 (le32 7)

/-- A well-formed file with two bytes after the data: 16-bit mono, four bytes of data. -/
def trailerWav : List Byte := sampleWav 42 1 1 16 4 (le32 7 ++ le16 513)

/-- An 8-bit mono file whose RIFF header declares `0xFFFFFFF0` bytes and whose `data` chunk
declares `0x80000000` bytes, though only four bytes follow. -/
def hugeDeclaredWav : List Byte := sampleWav 4294967280 1 1 8 2147483648 (le32 7)

/-- The object a flow hands on. -/
def Flow.object {α : Type} (x : Flow α) : CWAVInputSource :=
  match x with
  | .next _ s => s
  | .ret _ s => s
  | .undefined => rawObject
  | .outOfFuel => rawObject

/-- The result of a finished constructor or accessor call, `d` if there is none. -/
def Run.get {α : Type} (d : α) (r : Run α) : α :=
  match r with
  | .done a => a
  | .undefined => d
  | .outOfFuel => d

/-- A file system without files. -/
def noFiles : String → Option CIO := fun _ => none

/-- The reads that took a fault schedule from `before` to `after` all reported success: the
entries they used up are zero. -/
def ReadsSucceeded (before after : List Int) : Prop :=
  ∃ used, before = used ++ after ∧ ∀ c ∈ used, c = 0

/-- The source `io` with the statuses `codes` scheduled for its coming seeks. -/
def withSeekFaults (io : CIO) (codes : List Int) : CIO := { io with seekFaults := codes }

/-- The source `io` with the statuses `codes` scheduled for its coming reads. -/
def withReadFaults (io : CIO) (codes : List Int) : CIO := { io with readFaults := codes }

/-- The object the constructor builds on the source `io` when every pointer argument is given. -/
def builtOn (dm : DataModel) (io : CIO) : CWAVInputSource :=
  (Run.get (rawObject, allOutputs)
    (CWAVInputSource.fromIO (sampleTarget dm) rawObject (some io) allOutputs)).1

/-- A file whose format header declares no channels: 16-bit, four bytes of data. -/
def zeroChannelWav : List Byte := sampleWav 40 1 0 16 4 (le32 7)

/-- A file whose format header declares four bits per sample: mono, four bytes of data. -/
def fourBitWav : List Byte := sampleWav 40 1 1 4 4 (le32 7)

/-- A file without a `data` chunk: after the `fmt ` chunk come two empty chunks labelled
`junk`. -/
def noDataWav : List Byte :=
  monoWav.take 36 ++ ascii "junk" ++ le32 0 ++ ascii "junk" ++ le32 0

/-- A 16-bit mono file of 48 bytes whose `data` chunk declares `0x80000000` bytes, though only
four follow; the RIFF header declares the true size. -/
def hugeDataWav : List Byte := sampleWav 40 1 1 16 2147483648 (le32 7)

/-- A 16-bit mono file of 48 bytes whose RIFF header declares `0xFFFFFFF8` bytes. -/
def wrappingRiffWav : List Byte := sampleWav 4294967288 1 1 16 4 (le32 7)

/-- The caller's parameters after the constructor has built an object on the source `io` with
every pointer argument given. -/
def reportedOn (dm : DataModel) (io : CIO) : OutParams :=
  (Run.get (rawObject, allOutputs)
    (CWAVInputSource.fromIO (sampleTarget dm) rawObject (some io) allOutputs)).2

/-! ## The decompressor (`Source/MACLib/APEDecompress.h`)

The header declares the class `CAPEDecompress`; the bodies of its methods are in
`APEDecompress.cpp`, which is not among the sources. -/

/-- Modelled from the spec: what the decode of one frame meets; the bit reader, predictors and
reconstructor behind it are missing. A frame decodes (`sound`), fails its checksum or entropy
decode so that its blocks become silence (`corrupt`, spec 4.5), or cannot be fetched because the
byte source fails (`unreadable`, the IOFailure of spec 7). -/
inductive FrameFate where
  | sound
  | corrupt
  | unreadable
  deriving DecidableEq, Repr

/-- Modelled from the spec: the `StreamDescriptor` of spec 3, which `CAPEInfo` (missing) holds. -/
structure StreamDescriptor where
  nChannels : Nat
  nSampleRate : Nat
  nBitsPerSample : Nat
  nBlockAlign : Nat
  nTotalBlocks : Nat
  nBlocksPerFrame : Nat
  deriving DecidableEq, Repr

/-- Modelled from the spec: the compressed stream as the decompressor meets it, its descriptor
and the fate of each frame by index (a frame not listed is sound). -/
structure CompressedStream where
  descriptor : StreamDescriptor
  frames : List FrameFate
  deriving DecidableEq, Repr

/-- The fate of frame `f`. -/
def CompressedStream.fate (st : CompressedStream) (f : Nat) : FrameFate :=
  st.frames.getD f .sound

/-- Modelled from the spec: a decoded block in the frame buffer, known by its index in the
stream; `silent` marks silence substituted for a block of a corrupt frame. -/
structure DecodedBlock where
  index : Nat
  silent : Bool
  deriving DecidableEq, Repr

/-- Modelled from the spec: the members of `CAPEDecompress` that the `GetData` and `Seek` of
spec 4.5 work on, under the names the header gives them: the range window
`[m_nStartBlock, m_nFinishBlock)`, the current-block cursor (an index in the stream), the frame
the source is positioned at, the unread blocks of the frame buffer, oldest first, and the error
flag of the frame last decoded. An instance exists only after a successful construction. -/
structure CAPEDecompress where
  m_spAPEInfo : CompressedStream
  m_nStartBlock : Nat
  m_nFinishBlock : Nat
  m_nCurrentBlock : Nat
  m_nCurrentFrame : Nat
  m_cbFrameBuffer : List DecodedBlock
  m_bErrorDecodingCurrentFrame : Bool
  deriving DecidableEq, Repr

/-- Modelled from the spec: `DecodeBlocksToFrameBuffer`, missing. The blocks of frame `f` from
stream index `first` to the end of the frame, which is the end of the stream for the last frame;
the blocks of the frame before `first` are decoded and discarded. The blocks of a corrupt frame
are silence. -/
def DecodeBlocksToFrameBuffer (st : CompressedStream) (f first : Nat) : List DecodedBlock :=
  let last := min ((f + 1) * st.descriptor.nBlocksPerFrame) st.descriptor.nTotalBlocks
  (List.range' first (last - first)).map fun i => ⟨i, st.fate f == .corrupt⟩

/-- Modelled from the spec: `FillFrameBuffer`, missing: "while buffered blocks insufficient and
more frames remain within RangeWindow, decode the next frame into the FrameBuffer". The buffer
has room for one frame (spec 4.4) and nothing may be overwritten before it is drained, so the
frame holding the current block is decoded when the buffer is empty. `none`: the byte source
failed. -/
def CAPEDecompress.FillFrameBuffer (d : CAPEDecompress) : Option CAPEDecompress :=
  if d.m_cbFrameBuffer.isEmpty ∧ d.m_nCurrentBlock < d.m_nFinishBlock then
    let f := d.m_nCurrentBlock / d.m_spAPEInfo.descriptor.nBlocksPerFrame
    match d.m_spAPEInfo.fate f with
    | .unreadable => none
    | .corrupt =>
      some { d with m_nCurrentFrame := f, m_bErrorDecodingCurrentFrame := true,
                    m_cbFrameBuffer := DecodeBlocksToFrameBuffer d.m_spAPEInfo f d.m_nCurrentBlock }
    | .sound =>
      some { d with m_nCurrentFrame := f, m_bErrorDecodingCurrentFrame := false,
                    m_cbFrameBuffer := DecodeBlocksToFrameBuffer d.m_spAPEInfo f d.m_nCurrentBlock }
  else some d

/-- Modelled from the spec: the loop of `GetData` (spec 2 and 4.5), with `left` blocks still to
hand out and `out` handed out so far: fill the frame buffer, drain from it what is asked for and
there, advance the current-block cursor; stop when nothing is left to hand out or nothing came.
`none`: the byte source failed. -/
def CAPEDecompress.drain : Nat → CAPEDecompress → Nat → List DecodedBlock →
    Run (Option (CAPEDecompress × List DecodedBlock))
  | 0, _, _, _ => .outOfFuel
  | fuel + 1, d, left, out =>
    if left = 0 then .done (some (d, out))
    else
      match d.FillFrameBuffer with
      | none => .done none
      | some d1 =>
        let nBlocksThisPass := min left d1.m_cbFrameBuffer.length
        if nBlocksThisPass = 0 then .done (some (d1, out))
        else
          CAPEDecompress.drain fuel
            { d1 with m_cbFrameBuffer := d1.m_cbFrameBuffer.drop nBlocksThisPass,
                      m_nCurrentBlock := d1.m_nCurrentBlock + nBlocksThisPass }
            (left - nBlocksThisPass) (out ++ d1.m_cbFrameBuffer.take nBlocksThisPass)

/-- Modelled from the spec: `CAPEDecompress::GetData`, declared in the header, body missing.
Hands out `min(N, available-before-end)` blocks (spec 2), never past `m_nFinishBlock`; fewer
blocks than asked for is not an error (spec 6, 8). When the byte source fails the call is
aborted with the I/O failure status and the instance is left as it was (spec 7). Result: status,
instance, the blocks written to the caller's buffer; `*pBlocksRetrieved` is their number. -/
def CAPEDecompress.GetData (d : CAPEDecompress) (nBlocks : Int) :
    Run (Int × CAPEDecompress × List DecodedBlock) :=
  let nBlocksUntilFinish := d.m_nFinishBlock - d.m_nCurrentBlock
  let nBlocksToRetrieve := min nBlocks.toNat nBlocksUntilFinish
  match d.drain (nBlocksToRetrieve + 1) nBlocksToRetrieve [] with
  | .done none => .done (ERROR_IO_READ, d, [])
  | .done (some (d1, out)) => .done (ERROR_SUCCESS, d1, out)
  | .undefined => .undefined
  | .outOfFuel => .outOfFuel

/-- Modelled from the spec: `CAPEDecompress::Seek`, declared in the header, body missing. Block
offsets are relative to `m_nStartBlock` (spec 3). An offset outside the range window fails with
the bad-parameter status; otherwise the source is positioned at the frame owning the block, the
frame buffer is reset, and the frame is decoded up to the block (spec 4.5). When the byte source
fails the call is aborted with the I/O failure status and the instance is left as it was. -/
def CAPEDecompress.Seek (d : CAPEDecompress) (nBlockOffset : Int) : Int × CAPEDecompress :=
  if nBlockOffset < 0 ∨ (d.m_nStartBlock : Int) + nBlockOffset ≥ (d.m_nFinishBlock : Int) then
    (ERROR_BAD_PARAMETER, d)
  else
    let target := d.m_nStartBlock + nBlockOffset.toNat
    match CAPEDecompress.FillFrameBuffer
        { d with m_nCurrentBlock := target, m_cbFrameBuffer := [] } with
    | none => (ERROR_IO_READ, d)
    | some d1 => (ERROR_SUCCESS, d1)

/-- Modelled from the spec: the constructor of `CAPEDecompress`, declared in the header, body
missing (`Construct`, spec 4.5). A start or finish block that is not given (`-1` in the header)
stands for the start or the end of the stream. The range is validated: bad parameter when the
start lies after the finish or the window outside the stream, and then there is no instance.
Otherwise the instance stands at the start block, positioned at the frame owning it. -/
def CAPEDecompress.create (st : CompressedStream) (nStartBlock nFinishBlock : Int) :
    Int × Option CAPEDecompress :=
  let start : Int := if nStartBlock < 0 then 0 else nStartBlock
  let finish : Int := if nFinishBlock < 0 then st.descriptor.nTotalBlocks else nFinishBlock
  if start > finish ∨ finish > st.descriptor.nTotalBlocks then (ERROR_BAD_PARAMETER, none)
  else
    (ERROR_SUCCESS,
      some ⟨st, start.toNat, finish.toNat, start.toNat,
        start.toNat / st.descriptor.nBlocksPerFrame, [], false⟩)

/-- Successive `GetData` calls asking for the block counts `ns`: the status and the blocks of
each call, and the instance after the last. -/
def CAPEDecompress.getAll (d : CAPEDecompress) :
    List Int → Run (List (Int × List DecodedBlock) × CAPEDecompress)
  | [] => .done ([], d)
  | n :: ns =>
    match d.GetData n with
    | .done (c, d1, out) =>
      match CAPEDecompress.getAll d1 ns with
      | .done (rs, d2) => .done ((c, out) :: rs, d2)
      | .undefined => .undefined
      | .outOfFuel => .outOfFuel
    | .undefined => .undefined
    | .outOfFuel => .outOfFuel

/-- A mono 16-bit stream of `total` blocks in frames of `perFrame` blocks, the fates of its
frames as listed. -/
def monoStream (total perFrame : Nat) (frames : List FrameFate) : CompressedStream :=
  ⟨⟨1, 44100, 16, 2, total, perFrame⟩, frames⟩

/-- The standing of an instance between calls: the descriptor gives frames of at least one
block, the current block lies in the range window, the window lies in the stream, and the frame
buffer holds consecutive blocks of the stream starting with the current block. -/
def CAPEDecompress.InWindow (d : CAPEDecompress) : Prop :=
  0 < d.m_spAPEInfo.descriptor.nBlocksPerFrame ∧
  d.m_nStartBlock ≤ d.m_nCurrentBlock ∧ d.m_nCurrentBlock ≤ d.m_nFinishBlock ∧
  d.m_nFinishBlock ≤ d.m_spAPEInfo.descriptor.nTotalBlocks ∧
  d.m_cbFrameBuffer.map (fun b => b.index) =
    List.range' d.m_nCurrentBlock d.m_cbFrameBuffer.length

/-- The well-formed mono file behind four other bytes, as a caller hands it to the constructor:
the source stands at offset 4 and a failure is scheduled for its next seek. -/
def shiftedSource : CIO :=
  { withSeekFaults (fileSource (ascii "XXXX" ++ monoWav)) [ERROR_UNDEFINED] with pos := 4 }

/-- The header of an empty chunk labelled `junk`. -/
def junkHeader : List Byte := ascii "junk" ++ le32 0

/-- The headers of `n` empty chunks labelled `junk`, one after the other. -/
def junkChunks : Nat → List Byte
  | 0 => []
  | n + 1 => junkHeader ++ junkChunks n

/-- A file of `12 + 8 * n` bytes without a `fmt ` and without a `data` chunk: `RIFF`, a declared
size of 0, `WAVE`, and `n` empty chunks labelled `junk`. -/
def junkWav (n : Nat) : List Byte := ascii "RIFF" ++ le32 0 ++ ascii "WAVE" ++ junkChunks n

/-- A file of `36 + 8 * n` bytes with a `fmt ` chunk and without a `data` chunk: the first 36
bytes of the well-formed mono file, up to the end of its `fmt ` chunk, and `n` empty chunks
labelled `junk`. -/
def fmtJunkWav (n : Nat) : List Byte := monoWav.take 36 ++ junkChunks n

/-- The object `s` reads from a source without scheduled read failures whose bytes from the read
position on are `R`, and has stored `L` bytes. -/
def Remaining (s : CWAVInputSource) (R : List Byte) (L : Nat) : Prop :=
  ∃ io, s.m_spIO = some io ∧ io.readFaults = [] ∧ io.bytes.drop io.pos = R ∧
    s.m_sFullHeader.length = L

/-! # Properties -/

/-! ## Basic facts about flows and reads -/

theorem Flow.andThen_eq_next {α β : Type} {x : Flow α} {f : α → CWAVInputSource → Flow β}
    {b : β} {s : CWAVInputSource} (h : x.andThen f = .next b s) :
    ∃ a s1, x = .next a s1 ∧ f a s1 = .next b s := by
  cases x <;> simp [Flow.andThen] at h
  exact ⟨_, _, rfl, h⟩

theorem Flow.andThen_eq_ret {α β : Type} {x : Flow α} {f : α → CWAVInputSource → Flow β}
    {c : Int} {s : CWAVInputSource} (h : x.andThen f = .ret c s) :
    x = .ret c s ∨ ∃ a s1, x = .next a s1 ∧ f a s1 = .ret c s := by
  cases x <;> simp [Flow.andThen] at h
  · exact Or.inr ⟨_, _, rfl, h⟩
  · exact Or.inl (by rw [h.1, h.2])

theorem Flow.andThen_next {α β : Type} (a : α) (s : CWAVInputSource)
    (f : α → CWAVInputSource → Flow β) : (Flow.next a s).andThen f = f a s := rfl

theorem CIO.Read_of_fault {io : CIO} (n : Nat) (hf : io.readFaults.headD 0 ≠ 0) :
    io.Read n = (io.readFaults.headD 0, [], { io with readFaults := io.readFaults.tail }) := by
  unfold CIO.Read
  dsimp only
  rw [if_pos hf]

theorem CIO.Read_of_no_fault {io : CIO} (n : Nat) (hf : io.readFaults.headD 0 = 0) :
    io.Read n = (ERROR_SUCCESS, (io.bytes.drop io.pos).take n,
      { io with readFaults := io.readFaults.tail,
                pos := io.pos + ((io.bytes.drop io.pos).take n).length }) := by
  unfold CIO.Read
  dsimp only
  rw [if_neg (not_not.mpr hf)]

theorem CIO.Read_ok {io : CIO} {n : Nat} (h : (io.Read n).1 = ERROR_SUCCESS) :
    io.Read n = (ERROR_SUCCESS, (io.bytes.drop io.pos).take n,
      { io with readFaults := io.readFaults.tail,
                pos := io.pos + ((io.bytes.drop io.pos).take n).length }) := by
  by_cases hf : io.readFaults.headD 0 = 0
  · exact CIO.Read_of_no_fault n hf
  · rw [ CIO.Read_of_fault n hf] at h
    exact absurd h hf

/-- A successful `ReadSafe` delivered exactly the `n` bytes at the read position. -/
theorem ReadSafe_ok {t : Target} {io : CIO} {n : Nat} (h : (ReadSafe t io n).1 = ERROR_SUCCESS) :
    ((io.bytes.drop io.pos).take n).length = n ∧
    ReadSafe t io n = (ERROR_SUCCESS, (io.bytes.drop io.pos).take n,
      { io with readFaults := io.readFaults.tail, pos := io.pos + n }) := by
  unfold ReadSafe at h ⊢
  dsimp only at h ⊢
  by_cases hr : (io.Read n).1 = ERROR_SUCCESS
  · have hR := CIO.Read_ok hr
    rw [hR] at h ⊢
    dsimp only at h ⊢
    rw [if_neg (not_not.mpr rfl)] at h ⊢
    by_cases hl : ((io.bytes.drop io.pos).take n).length = n
    · rw [if_neg (not_not.mpr hl)]
      refine ⟨hl, ?_⟩
      rw [hl]
    · rw [if_pos hl] at h
      exact absurd h t.readSafeShort_ne
  · rw [if_pos hr] at h
    exact absurd h hr

/-- The bytes `ReadSafe` leaves in the source are the bytes it found. -/
theorem ReadSafe_bytes (t : Target) (io : CIO) (n : Nat) :
    (ReadSafe t io n).2.2.bytes = io.bytes := by
  unfold ReadSafe
  dsimp only
  by_cases hf : io.readFaults.headD 0 = 0
  · rw [ CIO.Read_of_no_fault n hf]
    dsimp only
    split_ifs <;> rfl
  · rw [ CIO.Read_of_fault n hf]
    dsimp only
    split_ifs <;> rfl

/-- What `readAtP` did when it fell through. -/
theorem readAtP_next {t : Target} {n : Nat} {s s1 : CWAVInputSource} {p : List Byte}
    (h : readAtP t n s = .next p s1) :
    ∃ io, s.m_spIO = some io ∧ p = (io.bytes.drop io.pos).take n ∧ p.length = n ∧
      s.m_sFullHeader.length + n ≤ t.fullHeaderSize ∧
      s1 = { s with
        m_spIO := some { io with readFaults := io.readFaults.tail, pos := io.pos + n }
        m_sFullHeader := s.m_sFullHeader ++ p } := by
  unfold readAtP at h
  cases hio : s.m_spIO with
  | none => simp [hio] at h
  | some io =>
    simp only [hio] at h
    split_ifs at h with h1 h2
    simp only [Flow.next.injEq] at h
    have h3 : (ReadSafe t io n).1 = ERROR_SUCCESS := not_not.mp h2
    obtain ⟨hl, hR⟩ := ReadSafe_ok h3
    rw [hR] at h h1
    dsimp only at h h1
    refine ⟨io, rfl, h.1.symm, ?_, ?_, ?_⟩
    · rw [← h.1]; exact hl
    · rw [hl] at h1; omega
    · rw [← h.2, ← h.1]

/-- When `readAtP` returns, it returns a failure status. -/
theorem readAtP_ret {t : Target} {n : Nat} {s s1 : CWAVInputSource} {c : Int}
    (h : readAtP t n s = .ret c s1) : c ≠ ERROR_SUCCESS := by
  unfold readAtP at h
  cases hio : s.m_spIO with
  | none => simp [hio] at h
  | some io =>
    simp only [hio] at h
    split_ifs at h with h1 h2
    simp only [Flow.ret.injEq] at h
    rw [← h.1]
    exact h2

/-- The read statement never runs out of fuel. -/
theorem readAtP_ne_outOfFuel (t : Target) (n : Nat) (s : CWAVInputSource) :
    readAtP t n s ≠ .outOfFuel := by
  unfold readAtP
  cases s.m_spIO with
  | none => simp
  | some io =>
    dsimp only
    split_ifs <;> simp

/-! ## The reading invariant -/

theorem SameParse.refl (s : CWAVInputSource) : SameParse s s := ⟨rfl, rfl, rfl⟩

theorem SameParse.trans {s s1 s2 : CWAVInputSource} (h1 : SameParse s s1)
    (h2 : SameParse s1 s2) : SameParse s s2 :=
  ⟨h2.1.trans h1.1, h2.2.1.trans h1.2.1, h2.2.2.trans h1.2.2⟩

/-- A read that falls through keeps the invariant and delivers `n` bytes. -/
theorem readAtP_reading {t : Target} {B : List Byte} {start n : Nat} {p0 p : List Byte}
    {s s1 : CWAVInputSource} (hinv : Reading t B start p0 s)
    (h : readAtP t n s = .next p s1) :
    Reading t B start p s1 ∧ p.length = n ∧ SameParse s s1 ∧
      s1.m_sFullHeader = s.m_sFullHeader ++ p := by
  obtain ⟨io, hio, hp, hlen, hcap, hs1⟩ := readAtP_next h
  obtain ⟨⟨io0, hio0, hB, hpos⟩, hhdr, -, -⟩ := hinv
  rw [hio] at hio0
  cases hio0
  subst hs1
  refine ⟨⟨⟨_, rfl, hB, ?_⟩, ?_, ⟨_, rfl⟩, ?_⟩, hlen, ⟨rfl, rfl, rfl⟩, rfl⟩
  · simp only [List.length_append, hlen, hpos]; omega
  · simp only [List.length_append, hlen]
    rw [List.take_add, ← hhdr, hp, hB, hpos, List.drop_drop]
  · simp only [List.length_append, hlen]; exact hcap

/-- A chunk search that falls through keeps the invariant and stands on a chunk header with the
label looked for. -/
theorem findChunk_reading {t : Target} {B : List Byte} {start : Nat} (a b c d : Char) :
    ∀ (fuel : Nat) (p q : List Byte) (s s1 : CWAVInputSource),
      Reading t B start p s → p.length = 8 →
      findChunk t a b c d fuel p s = .next q s1 →
      Reading t B start q s1 ∧ q.length = 8 ∧ hasLabel q a b c d = true ∧ SameParse s s1
  | 0, p, q, s, s1, _, _, h => by simp [findChunk] at h
  | fuel + 1, p, q, s, s1, hinv, hp, h => by
    unfold findChunk at h
    split_ifs at h with hl
    · simp only [Flow.next.injEq] at h
      obtain ⟨rfl, rfl⟩ := h
      exact ⟨hinv, hp, hl, SameParse.refl _⟩
    · obtain ⟨x, sx, hx, h⟩ := Flow.andThen_eq_next h
      obtain ⟨y, sy, hy, h⟩ := Flow.andThen_eq_next h
      obtain ⟨ix, -, fx, -⟩ := readAtP_reading hinv hx
      obtain ⟨iy, ly, fy, -⟩ := readAtP_reading ix hy
      obtain ⟨r1, r2, r3, r4⟩ := findChunk_reading a b c d fuel y q sy s1 iy ly h
      exact ⟨r1, r2, r3, (fx.trans fy).trans r4⟩

/-- A chunk search only ever returns failure statuses. -/
theorem findChunk_ret {t : Target} (a b c d : Char) :
    ∀ (fuel : Nat) (p : List Byte) (s s1 : CWAVInputSource) (e : Int),
      findChunk t a b c d fuel p s = .ret e s1 → e ≠ ERROR_SUCCESS
  | 0, p, s, s1, e, h => by simp [findChunk] at h
  | fuel + 1, p, s, s1, e, h => by
    unfold findChunk at h
    split_ifs at h with hl
    rcases Flow.andThen_eq_ret h with h | ⟨x, sx, -, h⟩
    · exact readAtP_ret h
    · rcases Flow.andThen_eq_ret h with h | ⟨y, sy, -, h⟩
      · exact readAtP_ret h
      · exact findChunk_ret a b c d fuel y sy s1 e h

/-! ## The stages of `AnalyzeSource` -/

theorem byteAt_append_left {p : List Byte} {i : Nat} (q : List Byte) (h : i < p.length) :
    byteAt (p ++ q) i = byteAt p i := by
  unfold byteAt
  rw [List.getD_append _ _ _ _ h]

theorem byteAt_take {l : List Byte} {n i : Nat} (h : i < n) :
    byteAt (l.take n) i = byteAt l i := by
  unfold byteAt
  simp [List.getD_eq_getElem?_getD, List.getElem?_take, h]

theorem byteAt_drop (l : List Byte) (k i : Nat) :
    byteAt (l.drop k) i = byteAt l (k + i) := by
  unfold byteAt
  simp [List.getD_eq_getElem?_getD, List.getElem?_drop]

theorem hasLabel_congr {p q : List Byte} (a b c d : Char)
    (h : ∀ i, i < 4 → byteAt p i = byteAt q i) : hasLabel p a b c d = hasLabel q a b c d := by
  unfold hasLabel
  rw [h 0 (by omega), h 1 (by omega), h 2 (by omega), h 3 (by omega)]

theorem UCHAR_TO_ULONG_LE_congr {p q : List Byte} (dm : DataModel)
    (h : ∀ i, i < 4 → byteAt p i = byteAt q i) :
    UCHAR_TO_ULONG_LE dm p = UCHAR_TO_ULONG_LE dm q := by
  unfold UCHAR_TO_ULONG_LE
  rw [h 0 (by omega), h 1 (by omega), h 2 (by omega), h 3 (by omega)]

/-- The invariant looks at the source and the stored bytes only. -/
theorem Reading.congr_reading {t : Target} {B : List Byte} {start : Nat} {p : List Byte}
    {s s1 : CWAVInputSource} (h : Reading t B start p s) (hio : s1.m_spIO = s.m_spIO)
    (hh : s1.m_sFullHeader = s.m_sFullHeader) :
    Reading t B start p s1 := by
  unfold Reading at h ⊢
  rw [hio, hh]
  exact h

/-- Under the invariant the bytes stored last are the source bytes just before the read
position. -/
theorem Reading.last_eq {t : Target} {B : List Byte} {start : Nat} {p : List Byte}
    {s : CWAVInputSource} (h : Reading t B start p s) :
    p.length ≤ s.m_sFullHeader.length ∧
      p = ((B.drop start).drop (s.m_sFullHeader.length - p.length)).take p.length := by
  obtain ⟨-, hh, ⟨pre, hpre⟩, -⟩ := h
  have hl : s.m_sFullHeader.length = pre.length + p.length := by rw [hpre, List.length_append]
  refine ⟨by omega, ?_⟩
  have h2 : s.m_sFullHeader.length - p.length = pre.length := by omega
  have h3 : s.m_sFullHeader.length - pre.length = p.length := by omega
  calc p = (pre ++ p).drop pre.length := (List.drop_left _ _).symm
    _ = s.m_sFullHeader.drop pre.length := by rw [hpre]
    _ = (((B.drop start).take s.m_sFullHeader.length)).drop pre.length := by rw [← hh]
    _ = ((B.drop start).drop (s.m_sFullHeader.length - p.length)).take p.length := by
        rw [List.drop_take, h2, h3]

theorem declaredFileBytes_congr {p q : List Byte} (t : Target)
    (h : ∀ i, i < 8 → byteAt p i = byteAt q i) :
    declaredFileBytes t p = declaredFileBytes t q := by
  unfold declaredFileBytes
  rw [UCHAR_TO_ULONG_LE_congr t.dataModel (p := p.drop 4) (q := q.drop 4) fun i hi => by
    rw [byteAt_drop, byteAt_drop]; exact h _ (by omega)]

theorem seekToBegin_bytes (io : CIO) : (seekToBegin io).bytes = io.bytes := by
  unfold seekToBegin CIO.PerformSeek
  dsimp only
  split_ifs <;> rfl

/-- What lines 129-158 leave when they fall through: twelve bytes stored, with both magics, and
the file size. -/
theorem readRiffWave_next {t : Target} {s s1 : CWAVInputSource} {io : CIO}
    (hio : s.m_spIO = some io) (h : readRiffWave t s = .next () s1) :
    (∃ q, Reading t io.bytes (seekToBegin io).pos q s1) ∧
      s1.m_sFullHeader.length = 12 ∧
      hasLabel (io.bytes.drop (seekToBegin io).pos) 'R' 'I' 'F' 'F' = true ∧
      hasLabel ((io.bytes.drop (seekToBegin io).pos).drop 8) 'W' 'A' 'V' 'E' = true ∧
      s1.m_nFileBytes =
        ape_max (declaredFileBytes t (io.bytes.drop (seekToBegin io).pos))
          (io.bytes.length : Int) ∧
      s1.m_wfeSource = s.m_wfeSource ∧ s1.m_bIsValid = s.m_bIsValid := by
  unfold readRiffWave at h
  simp only [hio] at h
  obtain ⟨p, sp, hp, h⟩ := Flow.andThen_eq_next h
  split_ifs at h with hR
  obtain ⟨q, sq, hq, h⟩ := Flow.andThen_eq_next h
  split_ifs at h with hW
  simp only [Flow.next.injEq, true_and] at h
  subst h
  have hinv0 : Reading t io.bytes (seekToBegin io).pos []
      { s with m_spIO := some (seekToBegin io), m_sFullHeader := [] } :=
    ⟨⟨_, rfl, seekToBegin_bytes io, rfl⟩, rfl, ⟨[], rfl⟩, Nat.zero_le _⟩
  obtain ⟨ip, lp, fp, ap⟩ := readAtP_reading hinv0 hp
  have hinv1 : Reading t io.bytes (seekToBegin io).pos p
      { sp with m_nFileBytes := ape_max (declaredFileBytes t p) (seekToBegin io).GetSize } :=
    Reading.congr_reading ip rfl rfl
  obtain ⟨iq, lq, fq, aq⟩ := readAtP_reading hinv1 hq
  simp only [List.nil_append] at ap
  dsimp only at aq
  have hp8 := ip.last_eq
  have hq4 := iq.last_eq
  rw [ap, lp] at hp8
  rw [aq, ap, List.length_append, lp, lq] at hq4
  simp only [Nat.sub_self, List.drop_zero, Nat.add_sub_cancel] at hp8 hq4
  have hR1 : hasLabel p 'R' 'I' 'F' 'F' = true := by simpa using hR
  have hW1 : hasLabel q 'W' 'A' 'V' 'E' = true := by simpa using hW
  refine ⟨⟨q, iq⟩, ?_, ?_, ?_, ?_, ?_, ?_⟩
  · rw [aq, ap, List.length_append, lp, lq]
  · rw [← hR1, hp8.2]
    exact (hasLabel_congr _ _ _ _ fun i hi => byteAt_take (by omega)).symm
  · rw [← hW1, hq4.2]
    exact (hasLabel_congr _ _ _ _ fun i hi => byteAt_take (by omega)).symm
  · have hF := fq.2.1
    dsimp only at hF
    have hD : declaredFileBytes t p =
        declaredFileBytes t (io.bytes.drop (seekToBegin io).pos) := by
      conv_lhs => rw [hp8.2]
      exact declaredFileBytes_congr t fun i hi => byteAt_take hi
    rw [hF, CIO.GetSize, seekToBegin_bytes, hD]
  · rw [fq.1]; exact fp.1
  · rw [fq.2.2]; exact fp.2.2

/-- What lines 129-179 leave when they fall through: the format header is the last thing stored,
the source starts with the RIFF and WAVE magics, and the file size is set. -/
theorem readFormatHeader_next {t : Target} {s s4 : CWAVInputSource} {io : CIO}
    {n : Int} {r : List Byte} (hio : s.m_spIO = some io)
    (h : readFormatHeader t s = .next (n, r) s4) :
    Reading t io.bytes (seekToBegin io).pos r s4 ∧ r.length = 16 ∧
      hasLabel (io.bytes.drop (seekToBegin io).pos) 'R' 'I' 'F' 'F' = true ∧
      hasLabel ((io.bytes.drop (seekToBegin io).pos).drop 8) 'W' 'A' 'V' 'E' = true ∧
      s4.m_nFileBytes =
        ape_max (declaredFileBytes t (io.bytes.drop (seekToBegin io).pos))
          (io.bytes.length : Int) ∧
      s4.m_wfeSource = s.m_wfeSource ∧ s4.m_bIsValid = s.m_bIsValid := by
  unfold readFormatHeader at h
  obtain ⟨u, s1, h1, h⟩ := Flow.andThen_eq_next h
  obtain ⟨p, s2, h2, h⟩ := Flow.andThen_eq_next h
  obtain ⟨q, s3, h3, h⟩ := Flow.andThen_eq_next h
  obtain ⟨r', s4', h4, h⟩ := Flow.andThen_eq_next h
  simp only [Flow.next.injEq, Prod.mk.injEq] at h
  obtain ⟨⟨-, rfl⟩, rfl⟩ := h
  obtain ⟨⟨q0, i1⟩, l1, hR, hW, hF, w1, v1⟩ := readRiffWave_next hio h1
  obtain ⟨i2, l2, f2, a2⟩ := readAtP_reading i1 h2
  obtain ⟨i3, l3, -, f3⟩ := findChunk_reading _ _ _ _ _ _ _ _ _ i2 l2 h3
  obtain ⟨i4, l4, f4, a4⟩ := readAtP_reading i3 h4
  refine ⟨i4, l4, hR, hW, ?_, ?_, ?_⟩
  · rw [f4.2.1, f3.2.1, f2.2.1, hF]
  · rw [f4.1, f3.1, f2.1, w1]
  · rw [f4.2.2, f3.2.2, f2.2.2, v1]

/-- What lines 181-213 leave when they fall through: a supported format tag, the wave format
filled in from the format header, and the `data` chunk header as the last thing stored. -/
theorem findDataChunk_next {t : Target} {B : List Byte} {start : Nat} {s s3 : CWAVInputSource}
    {n : Int} {r q : List Byte} (hinv : Reading t B start r s)
    (h : findDataChunk t (n, r) s = .next q s3) :
    Reading t B start q s3 ∧ q.length = 8 ∧ hasLabel q 'd' 'a' 't' 'a' = true ∧
      (UCHAR_TO_USHORT_LE r = 1 ∨ UCHAR_TO_USHORT_LE r = 65534) ∧
      0 ≤ toSigned 32 (n - 16) ∧
      s3.m_wfeSource =
        FillWaveFormatEx (toSigned 32 (UCHAR_TO_ULONG_LE t.dataModel (r.drop 4)))
          (UCHAR_TO_USHORT_LE (r.drop 14)) (UCHAR_TO_USHORT_LE (r.drop 2)) ∧
      s3.m_nFileBytes = s.m_nFileBytes ∧ s3.m_bIsValid = s.m_bIsValid := by
  unfold findDataChunk at h
  dsimp only at h
  split_ifs at h with htag hneg
  obtain ⟨x, s1, h1, h⟩ := Flow.andThen_eq_next h
  obtain ⟨y, s2, h2, h⟩ := Flow.andThen_eq_next h
  have key := fun hi => @readAtP_reading t B start _ r x _ s1 hi h1
  obtain ⟨i1, -, f1, -⟩ := key (Reading.congr_reading hinv rfl rfl)
  obtain ⟨i2, l2, f2, -⟩ := readAtP_reading i1 h2
  obtain ⟨i3, l3, hl, f3⟩ := findChunk_reading _ _ _ _ _ _ _ _ _ i2 l2 h
  refine ⟨i3, l3, hl, ?_, by omega, ?_, ?_, ?_⟩
  · by_contra hc
    exact htag ⟨fun e => hc (Or.inl e), fun e => hc (Or.inr e)⟩
  · rw [f3.1, f2.1, f1.1]
  · rw [f3.2.1, f2.2.1, f1.2.1]
  · rw [f3.2.2, f2.2.2, f1.2.2]

/-- Stages that return hand back a failure status. -/
theorem readRiffWave_ret {t : Target} {s s1 : CWAVInputSource} {e : Int}
    (h : readRiffWave t s = .ret e s1) : e ≠ ERROR_SUCCESS := by
  unfold readRiffWave at h
  cases hio : s.m_spIO with
  | none => simp [hio] at h
  | some io =>
    simp only [hio] at h
    rcases Flow.andThen_eq_ret h with h | ⟨p, sp, -, h⟩
    · exact readAtP_ret h
    · split_ifs at h
      · simp only [Flow.ret.injEq] at h
        rw [← h.1]; decide
      · rcases Flow.andThen_eq_ret h with h | ⟨q, sq, -, h⟩
        · exact readAtP_ret h
        · split_ifs at h
          simp only [Flow.ret.injEq] at h
          rw [← h.1]; decide

theorem readFormatHeader_ret {t : Target} {s s1 : CWAVInputSource} {e : Int}
    (h : readFormatHeader t s = .ret e s1) : e ≠ ERROR_SUCCESS := by
  unfold readFormatHeader at h
  rcases Flow.andThen_eq_ret h with h | ⟨_, _, -, h⟩
  · exact readRiffWave_ret h
  · rcases Flow.andThen_eq_ret h with h | ⟨_, _, -, h⟩
    · exact readAtP_ret h
    · rcases Flow.andThen_eq_ret h with h | ⟨_, _, -, h⟩
      · exact findChunk_ret _ _ _ _ _ _ _ _ _ h
      · rcases Flow.andThen_eq_ret h with h | ⟨_, _, -, h⟩
        · exact readAtP_ret h
        · simp at h

theorem findDataChunk_ret {t : Target} {f : Int × List Byte} {s s1 : CWAVInputSource} {e : Int}
    (h : findDataChunk t f s = .ret e s1) : e ≠ ERROR_SUCCESS := by
  unfold findDataChunk at h
  dsimp only at h
  split_ifs at h
  · simp only [Flow.ret.injEq] at h
    rw [← h.1]; decide
  · simp only [Flow.ret.injEq] at h
    rw [← h.1]; decide
  · rcases Flow.andThen_eq_ret h with h | ⟨_, _, -, h⟩
    · exact readAtP_ret h
    · rcases Flow.andThen_eq_ret h with h | ⟨_, _, -, h⟩
      · exact readAtP_ret h
      · exact findChunk_ret _ _ _ _ _ _ _ _ _ h

theorem readHeaders_ret {t : Target} {s s1 : CWAVInputSource} {e : Int}
    (h : readHeaders t s = .ret e s1) : e ≠ ERROR_SUCCESS := by
  unfold readHeaders at h
  rcases Flow.andThen_eq_ret h with h | ⟨_, _, -, h⟩
  · exact readFormatHeader_ret h
  · exact findDataChunk_ret h

/-- What the byte counts are when `computeSizes` falls through. -/
theorem computeSizes_next {t : Target} {q : List Byte} {s s1 : CWAVInputSource} {c : Int}
    (h : computeSizes t q s = .next c s1) :
    c = ERROR_SUCCESS ∧
      s1.m_spIO = s.m_spIO ∧ s1.m_sFullHeader = s.m_sFullHeader ∧
      s1.m_wfeSource = s.m_wfeSource ∧ s1.m_nFileBytes = s.m_nFileBytes ∧
      s1.m_bIsValid = s.m_bIsValid ∧
      s1.m_nHeaderBytes = (s.m_sFullHeader.length : Int) ∧
      s1.m_nDataBytes = dataBytes t q s.m_nFileBytes (s.m_sFullHeader.length : Int) ∧
      s1.m_wfeSource.nBlockAlign ≠ 0 ∧
      s1.m_nDataBytes.tmod s1.m_wfeSource.nBlockAlign = 0 ∧
      s1.m_nTerminatingBytes = s1.m_nFileBytes - s1.m_nDataBytes - s1.m_nHeaderBytes := by
  unfold computeSizes at h
  dsimp only at h
  split_ifs at h with h0 hm
  simp only [Flow.next.injEq] at h
  obtain ⟨rfl, rfl⟩ := h
  refine ⟨Eq.refl _, ?_, ?_, ?_, ?_, ?_, ?_, ?_, ?_, ?_, ?_⟩ <;> dsimp only
  · exact h0
  · exact not_not.mp hm

theorem computeSizes_ret {t : Target} {q : List Byte} {s s1 : CWAVInputSource} {e : Int}
    (h : computeSizes t q s = .ret e s1) : e ≠ ERROR_SUCCESS := by
  unfold computeSizes at h
  dsimp only at h
  split_ifs at h
  simp only [Flow.ret.injEq] at h
  rw [← h.1]; decide

/-- Everything a successful `AnalyzeSource` establishes. With `X` the source bytes from the
offset the opening seek left the source at: `X` starts with the RIFF and WAVE magics, the bytes
stored in `m_sFullHeader` are the first `m_nHeaderBytes` bytes of `X`, they end with the `data`
chunk header `q`, the source stands right after them, and the byte counts are those of lines
147-227. -/
theorem AnalyzeSource_success {t : Target} {s s1 : CWAVInputSource} {io : CIO}
    (hio : s.m_spIO = some io) (h : AnalyzeSource t s = .done (ERROR_SUCCESS, s1)) :
    ∃ q, Reading t io.bytes (seekToBegin io).pos q s1 ∧ q.length = 8 ∧
      hasLabel q 'd' 'a' 't' 'a' = true ∧
      hasLabel (io.bytes.drop (seekToBegin io).pos) 'R' 'I' 'F' 'F' = true ∧
      hasLabel ((io.bytes.drop (seekToBegin io).pos).drop 8) 'W' 'A' 'V' 'E' = true ∧
      s1.m_nFileBytes =
        ape_max (declaredFileBytes t (io.bytes.drop (seekToBegin io).pos))
          (io.bytes.length : Int) ∧
      s1.m_nHeaderBytes = (s1.m_sFullHeader.length : Int) ∧
      s1.m_nDataBytes = dataBytes t q s1.m_nFileBytes s1.m_nHeaderBytes ∧
      s1.m_wfeSource.nBlockAlign ≠ 0 ∧
      s1.m_nDataBytes.tmod s1.m_wfeSource.nBlockAlign = 0 ∧
      s1.m_nTerminatingBytes = s1.m_nFileBytes - s1.m_nDataBytes - s1.m_nHeaderBytes ∧
      s1.m_bIsValid = s.m_bIsValid := by
  unfold AnalyzeSource at h
  cases hflow : (readHeaders t s).andThen (computeSizes t) with
  | undefined => rw [hflow] at h; simp [Flow.toRun] at h
  | outOfFuel => rw [hflow] at h; simp [Flow.toRun] at h
  | ret e s2 =>
    rw [hflow] at h
    simp only [Flow.toRun, Run.done.injEq, Prod.mk.injEq] at h
    exfalso
    rcases Flow.andThen_eq_ret hflow with h1 | ⟨_, _, -, h1⟩
    · exact readHeaders_ret h1 h.1
    · exact computeSizes_ret h1 h.1
  | next c s2 =>
    rw [hflow] at h
    simp only [Flow.toRun, Run.done.injEq, Prod.mk.injEq] at h
    obtain ⟨-, rfl⟩ := h
    obtain ⟨q, sq, hq, hc⟩ := Flow.andThen_eq_next hflow
    unfold readHeaders at hq
    obtain ⟨f, sf, hf, hd⟩ := Flow.andThen_eq_next hq
    obtain ⟨i4, -, hR, hW, hF, -, v4⟩ := readFormatHeader_next hio hf
    obtain ⟨i5, l5, hl, -, -, -, hF5, v5⟩ := findDataChunk_next i4 hd
    obtain ⟨-, c1, c2, c3, c4, c5, c6, c7, c8, c9, c10⟩ := computeSizes_next hc
    refine ⟨q, Reading.congr_reading i5 c1 c2, l5, hl, hR, hW, ?_, ?_, ?_, c8, c9, c10, ?_⟩
    · rw [c4, hF5, hF]
    · rw [c6, c2]
    · rw [c7, c4, c6]
    · rw [c5, v5, v4]

/-! ## `AnalyzeSource` leaves the validity flag alone -/

theorem Flow.holds_undefined {α : Type} (P : CWAVInputSource → Prop) :
    (Flow.undefined : Flow α).Holds P := by
  unfold Flow.Holds; trivial

theorem Flow.holds_outOfFuel {α : Type} (P : CWAVInputSource → Prop) :
    (Flow.outOfFuel : Flow α).Holds P := by
  unfold Flow.Holds; trivial

theorem Flow.holds_ret {α : Type} {P : CWAVInputSource → Prop} {c : Int} {s : CWAVInputSource}
    (h : P s) : (Flow.ret c s : Flow α).Holds P := by
  unfold Flow.Holds; exact h

theorem Flow.holds_next {α : Type} {P : CWAVInputSource → Prop} {a : α} {s : CWAVInputSource}
    (h : P s) : (Flow.next a s).Holds P := by
  unfold Flow.Holds; exact h

theorem Flow.of_holds_ret {α : Type} {P : CWAVInputSource → Prop} {c : Int}
    {s : CWAVInputSource} (h : (Flow.ret c s : Flow α).Holds P) : P s := by
  unfold Flow.Holds at h; exact h

theorem Flow.of_holds_next {α : Type} {P : CWAVInputSource → Prop} {a : α}
    {s : CWAVInputSource} (h : (Flow.next a s).Holds P) : P s := by
  unfold Flow.Holds at h; exact h

theorem Flow.Holds.andThen_holds {α β : Type} {P : CWAVInputSource → Prop} {x : Flow α}
    {f : α → CWAVInputSource → Flow β} (hx : x.Holds P)
    (hf : ∀ a s, P s → (f a s).Holds P) : (x.andThen f).Holds P := by
  cases x with
  | next a s => exact hf a s (Flow.of_holds_next hx)
  | ret c s => exact Flow.holds_ret (Flow.of_holds_ret hx)
  | undefined => exact Flow.holds_undefined P
  | outOfFuel => exact Flow.holds_outOfFuel P

theorem Flow.holds_ite {α : Type} {P : CWAVInputSource → Prop} {c : Prop} [Decidable c]
    {x y : Flow α} (hx : c → x.Holds P) (hy : ¬c → y.Holds P) :
    (if c then x else y).Holds P := by
  by_cases h : c
  · rw [if_pos h]; exact hx h
  · rw [if_neg h]; exact hy h

theorem readAtP_valid (t : Target) (n : Nat) (s : CWAVInputSource) (b : Bool)
    (h : s.m_bIsValid = b) : (readAtP t n s).Holds fun s1 => s1.m_bIsValid = b := by
  unfold readAtP
  cases s.m_spIO with
  | none => exact Flow.holds_undefined _
  | some io =>
    dsimp only
    refine Flow.holds_ite (fun _ => Flow.holds_undefined _) fun _ => ?_
    exact Flow.holds_ite (fun _ => Flow.holds_ret h) fun _ => Flow.holds_next h

theorem findChunk_valid (t : Target) (a b c d : Char) (v : Bool) :
    ∀ (fuel : Nat) (p : List Byte) (s : CWAVInputSource), s.m_bIsValid = v →
      (findChunk t a b c d fuel p s).Holds fun s1 => s1.m_bIsValid = v
  | 0, _, _, _ => Flow.holds_outOfFuel _
  | fuel + 1, p, s, h => by
    unfold findChunk
    refine Flow.holds_ite (fun _ => Flow.holds_next h) fun _ => ?_
    exact (readAtP_valid t _ s v h).andThen_holds fun _ s1 h1 =>
        (readAtP_valid t 8 s1 v h1).andThen_holds fun q s2 h2 => findChunk_valid t a b c d v fuel q s2 h2

theorem readRiffWave_valid (t : Target) (s : CWAVInputSource) (v : Bool)
    (h : s.m_bIsValid = v) : (readRiffWave t s).Holds fun s1 => s1.m_bIsValid = v := by
  unfold readRiffWave
  cases s.m_spIO with
  | none => exact Flow.holds_undefined _
  | some io =>
    dsimp only
    refine Flow.Holds.andThen_holds (readAtP_valid t 8 _ v ?_) fun p s1 h1 => ?_
    · exact h
    · refine Flow.holds_ite (fun _ => Flow.holds_ret h1) fun _ => ?_
      refine Flow.Holds.andThen_holds (readAtP_valid t 4 _ v ?_) fun q s2 h2 => ?_
      · exact h1
      · exact Flow.holds_ite (fun _ => Flow.holds_ret h2) fun _ => Flow.holds_next h2

theorem readHeaders_valid (t : Target) (s : CWAVInputSource) (v : Bool)
    (h : s.m_bIsValid = v) : (readHeaders t s).Holds fun s1 => s1.m_bIsValid = v := by
  unfold readHeaders
  refine Flow.Holds.andThen_holds ?_ ?_
  · unfold readFormatHeader
    refine Flow.Holds.andThen_holds (readRiffWave_valid t s v h) ?_
    intro _ s1 h1
    refine (readAtP_valid t 8 s1 v h1).andThen_holds fun p s2 h2 => ?_
    refine (findChunk_valid t _ _ _ _ v _ p s2 h2).andThen_holds fun q s3 h3 => ?_
    exact (readAtP_valid t 16 s3 v h3).andThen_holds fun r s4 h4 => Flow.holds_next h4
  · intro f s1 h1
    unfold findDataChunk
    dsimp only
    refine Flow.holds_ite (fun _ => Flow.holds_ret h1) fun _ => ?_
    refine Flow.holds_ite (fun _ => Flow.holds_ret h1) fun _ => ?_
    refine Flow.Holds.andThen_holds (readAtP_valid t _ _ v ?_) fun _ s2 h2 => ?_
    · exact h1
    · exact (readAtP_valid t 8 s2 v h2).andThen_holds fun q s3 h3 =>
        findChunk_valid t _ _ _ _ v _ q s3 h3

/-- Whatever status `AnalyzeSource` returns, the object has the validity flag it had. -/
theorem AnalyzeSource_valid {t : Target} {s s1 : CWAVInputSource} {c : Int}
    (h : AnalyzeSource t s = .done (c, s1)) : s1.m_bIsValid = s.m_bIsValid := by
  have key : ((readHeaders t s).andThen (computeSizes t)).Holds
      fun s2 => s2.m_bIsValid = s.m_bIsValid := by
    refine (readHeaders_valid t s _ rfl).andThen_holds fun q s2 h2 => ?_
    unfold computeSizes
    dsimp only
    refine Flow.holds_ite (fun _ => Flow.holds_undefined _) fun _ => ?_
    exact Flow.holds_ite (fun _ => Flow.holds_ret h2) fun _ => Flow.holds_next h2
  unfold AnalyzeSource at h
  cases hflow : (readHeaders t s).andThen (computeSizes t) with
  | undefined => rw [hflow] at h; simp [Flow.toRun] at h
  | outOfFuel => rw [hflow] at h; simp [Flow.toRun] at h
  | ret e s2 =>
    rw [hflow] at h key
    simp only [Flow.toRun, Run.done.injEq, Prod.mk.injEq] at h
    rw [← h.2]; exact Flow.of_holds_ret key
  | next e s2 =>
    rw [hflow] at h key
    simp only [Flow.toRun, Run.done.injEq, Prod.mk.injEq] at h
    rw [← h.2]; exact Flow.of_holds_next key

/-! ## The search loops end -/

theorem Flow.andThen_eq_outOfFuel {α β : Type} {x : Flow α}
    {f : α → CWAVInputSource → Flow β} (h : x.andThen f = .outOfFuel) :
    x = .outOfFuel ∨ ∃ a s1, x = .next a s1 ∧ f a s1 = .outOfFuel := by
  cases x <;> simp [Flow.andThen] at h
  · exact Or.inr ⟨_, _, rfl, h⟩
  · exact Or.inl rfl

/-- A read that falls through leaves the content of the source alone and moves `n` bytes closer
to its end. -/
theorem readAtP_unread {t : Target} {n : Nat} {s s1 : CWAVInputSource} {p : List Byte}
    (h : readAtP t n s = .next p s1) :
    loopFuel s1 = loopFuel s ∧ unreadBytes s1 + n = unreadBytes s := by
  obtain ⟨io, hio, hp, hlen, -, hs1⟩ := readAtP_next h
  have hn : n ≤ io.bytes.length - io.pos := by
    rw [hp, List.length_take, List.length_drop] at hlen
    omega
  subst hs1
  unfold loopFuel unreadBytes
  rw [hio]
  dsimp only
  omega

/-- With fuel for every chunk header the rest of the source can hold, a chunk search does not
run out of fuel. -/
theorem findChunk_ne_outOfFuel {t : Target} (a b c d : Char) :
    ∀ (fuel : Nat) (p : List Byte) (s : CWAVInputSource), unreadBytes s / 8 < fuel →
      findChunk t a b c d fuel p s ≠ .outOfFuel
  | 0, _, _, h => absurd h (Nat.not_lt_zero _)
  | fuel + 1, p, s, h => by
    unfold findChunk
    split_ifs
    · exact fun hc => Flow.noConfusion hc
    · intro hc
      rcases Flow.andThen_eq_outOfFuel hc with h1 | ⟨_, s1, h1, hc⟩
      · exact readAtP_ne_outOfFuel _ _ _ h1
      · rcases Flow.andThen_eq_outOfFuel hc with h2 | ⟨q, s2, h2, hc⟩
        · exact readAtP_ne_outOfFuel _ _ _ h2
        · have u1 := (readAtP_unread h1).2
          have u2 := (readAtP_unread h2).2
          exact findChunk_ne_outOfFuel a b c d fuel q s2 (by omega) hc

theorem unreadBytes_lt_loopFuel (s : CWAVInputSource) : unreadBytes s / 8 < loopFuel s := by
  unfold unreadBytes loopFuel
  cases s.m_spIO with
  | none => decide
  | some io =>
    dsimp only
    omega

/-- The fuel `AnalyzeSource` gives its two search loops is enough on every source: the call
returns or has undefined behaviour, it never stops for lack of fuel. -/
theorem AnalyzeSource_ne_outOfFuel (t : Target) (s : CWAVInputSource) :
    AnalyzeSource t s ≠ .outOfFuel := by
  have hread : readHeaders t s ≠ .outOfFuel := by
    unfold readHeaders
    intro hc
    rcases Flow.andThen_eq_outOfFuel hc with h1 | ⟨f, s4, -, hc⟩
    · unfold readFormatHeader at h1
      rcases Flow.andThen_eq_outOfFuel h1 with h2 | ⟨_, s1, -, h1⟩
      · unfold readRiffWave at h2
        cases hio : s.m_spIO with
        | none => rw [hio] at h2; exact Flow.noConfusion h2
        | some io =>
          rw [hio] at h2
          dsimp only at h2
          rcases Flow.andThen_eq_outOfFuel h2 with h3 | ⟨p, sp, -, h2⟩
          · exact readAtP_ne_outOfFuel _ _ _ h3
          · split_ifs at h2
            rcases Flow.andThen_eq_outOfFuel h2 with h3 | ⟨q, sq, -, h2⟩
            · exact readAtP_ne_outOfFuel _ _ _ h3
            · split_ifs at h2
      · rcases Flow.andThen_eq_outOfFuel h1 with h2 | ⟨p, s2, -, h1⟩
        · exact readAtP_ne_outOfFuel _ _ _ h2
        · rcases Flow.andThen_eq_outOfFuel h1 with h2 | ⟨q, s3, -, h1⟩
          · exact findChunk_ne_outOfFuel _ _ _ _ _ _ _ (unreadBytes_lt_loopFuel s2) h2
          · rcases Flow.andThen_eq_outOfFuel h1 with h2 | ⟨r, s5, -, h1⟩
            · exact readAtP_ne_outOfFuel _ _ _ h2
            · exact Flow.noConfusion h1
    · unfold findDataChunk at hc
      dsimp only at hc
      split_ifs at hc
      rcases Flow.andThen_eq_outOfFuel hc with h2 | ⟨_, s2, -, hc⟩
      · exact readAtP_ne_outOfFuel _ _ _ h2
      · rcases Flow.andThen_eq_outOfFuel hc with h2 | ⟨q, s3, -, hc⟩
        · exact readAtP_ne_outOfFuel _ _ _ h2
        · exact findChunk_ne_outOfFuel _ _ _ _ _ _ _ (unreadBytes_lt_loopFuel s3) hc
  unfold AnalyzeSource
  intro hc
  cases hx : (readHeaders t s).andThen (computeSizes t) with
  | next a s1 => rw [hx] at hc; simp [Flow.toRun] at hc
  | ret a s1 => rw [hx] at hc; simp [Flow.toRun] at hc
  | undefined => rw [hx] at hc; simp [Flow.toRun] at hc
  | outOfFuel =>
    rcases Flow.andThen_eq_outOfFuel hx with h1 | ⟨q, sq, -, h1⟩
    · exact hread h1
    · unfold computeSizes at h1
      dsimp only at h1
      split_ifs at h1

/-! ## The little-endian decoders -/

theorem byteAt_nonneg (buf : List Byte) (i : Nat) : 0 ≤ byteAt buf i := by
  unfold byteAt; exact Int.ofNat_nonneg _

theorem byteAt_lt (buf : List Byte) (i : Nat) : byteAt buf i < 256 := by
  unfold byteAt; exact_mod_cast (buf.getD i 0).isLt

/-- An `int` value converts to `int` unchanged. -/
theorem toSigned_32_of_range {x : Int} (h1 : -2147483648 ≤ x) (h2 : x < 2147483648) :
    toSigned 32 x = x := by
  unfold toSigned
  norm_num
  omega

/-- The shift `buf[3] << 24` as an `int`: it wraps for a top byte of 128 or more. -/
theorem toSigned_32_top {b : Int} (h1 : 0 ≤ b) (h2 : b < 256) :
    toSigned 32 (b * 2 ^ 24) = if 128 ≤ b then b * 16777216 - 4294967296 else b * 16777216 := by
  unfold toSigned
  norm_num
  split_ifs <;> omega

/-- The `int` sum inside `UCHAR_TO_ULONG_LE`, before the cast. -/
theorem UCHAR_TO_ULONG_LE_sum (buf : List Byte) :
    toSigned 32
      (toSigned 32
        (toSigned 32 (toSigned 32 (byteAt buf 3 * 2 ^ 24) + toSigned 32 (byteAt buf 2 * 2 ^ 16))
          + toSigned 32 (byteAt buf 1 * 2 ^ 8))
        + byteAt buf 0) =
      byteAt buf 0 + 256 * byteAt buf 1 + 65536 * byteAt buf 2 + 16777216 * byteAt buf 3
        - (if 128 ≤ byteAt buf 3 then 4294967296 else 0) := by
  have h0 := byteAt_nonneg buf 0
  have h1 := byteAt_nonneg buf 1
  have h2 := byteAt_nonneg buf 2
  have h3 := byteAt_nonneg buf 3
  have l0 := byteAt_lt buf 0
  have l1 := byteAt_lt buf 1
  have l2 := byteAt_lt buf 2
  have l3 := byteAt_lt buf 3
  rw [toSigned_32_top h3 l3,
    toSigned_32_of_range (x := byteAt buf 2 * 2 ^ 16) (by omega) (by omega),
    toSigned_32_of_range (x := byteAt buf 1 * 2 ^ 8) (by omega) (by omega)]
  split_ifs with hb
  · have e1 : toSigned 32 (byteAt buf 3 * 16777216 - 4294967296 + byteAt buf 2 * 2 ^ 16) =
        byteAt buf 3 * 16777216 - 4294967296 + byteAt buf 2 * 2 ^ 16 :=
      toSigned_32_of_range (by omega) (by omega)
    rw [e1]
    have e2 : toSigned 32 (byteAt buf 3 * 16777216 - 4294967296 + byteAt buf 2 * 2 ^ 16 +
        byteAt buf 1 * 2 ^ 8) =
        byteAt buf 3 * 16777216 - 4294967296 + byteAt buf 2 * 2 ^ 16 + byteAt buf 1 * 2 ^ 8 :=
      toSigned_32_of_range (by omega) (by omega)
    rw [e2]
    rw [toSigned_32_of_range (by omega) (by omega)]
    omega
  · have e1 : toSigned 32 (byteAt buf 3 * 16777216 + byteAt buf 2 * 2 ^ 16) =
        byteAt buf 3 * 16777216 + byteAt buf 2 * 2 ^ 16 :=
      toSigned_32_of_range (by omega) (by omega)
    rw [e1]
    have e2 : toSigned 32 (byteAt buf 3 * 16777216 + byteAt buf 2 * 2 ^ 16 +
        byteAt buf 1 * 2 ^ 8) =
        byteAt buf 3 * 16777216 + byteAt buf 2 * 2 ^ 16 + byteAt buf 1 * 2 ^ 8 :=
      toSigned_32_of_range (by omega) (by omega)
    rw [e2]
    rw [toSigned_32_of_range (by omega) (by omega)]
    omega

/-- The value `UCHAR_TO_ULONG_LE` computes: the little-endian value of the four bytes, except
that with a 64-bit `unsigned long` a top byte of 128 or more makes the `int` sum negative and
the cast adds `2 ^ 64 - 2 ^ 32`. -/
theorem UCHAR_TO_ULONG_LE_value (dm : DataModel) (buf : List Byte) :
    UCHAR_TO_ULONG_LE dm buf =
      if dm = .LP64 ∧ 128 ≤ byteAt buf 3 then
        byteAt buf 0 + 256 * byteAt buf 1 + 65536 * byteAt buf 2 + 16777216 * byteAt buf 3
          + (18446744073709551616 - 4294967296)
      else byteAt buf 0 + 256 * byteAt buf 1 + 65536 * byteAt buf 2 + 16777216 * byteAt buf 3 := by
  have h0 := byteAt_nonneg buf 0
  have h1 := byteAt_nonneg buf 1
  have h2 := byteAt_nonneg buf 2
  have h3 := byteAt_nonneg buf 3
  have l0 := byteAt_lt buf 0
  have l1 := byteAt_lt buf 1
  have l2 := byteAt_lt buf 2
  have l3 := byteAt_lt buf 3
  unfold UCHAR_TO_ULONG_LE
  rw [UCHAR_TO_ULONG_LE_sum]
  unfold toUnsigned
  cases dm <;> simp only [DataModel.ulongBits, reduceCtorEq, false_and, true_and, if_false] <;>
    norm_num <;> split_ifs <;> omega

/-- Where `unsigned long` has 32 bits the decoder is exact for every four bytes. -/
theorem UCHAR_TO_ULONG_LE_exact_32 (dm : DataModel) (h : dm.ulongBits = 32) (buf : List Byte) :
    UCHAR_TO_ULONG_LE dm buf =
      byteAt buf 0 + 256 * byteAt buf 1 + 65536 * byteAt buf 2 + 16777216 * byteAt buf 3 := by
  rw [UCHAR_TO_ULONG_LE_value]
  cases dm
  · rw [if_neg (by simp)]
  · rw [if_neg (by simp)]
  · exact absurd h (by decide)

/-- Narrowed to `uint32` the decoder is exact on every target. -/
theorem UCHAR_TO_ULONG_LE_uint32 (dm : DataModel) (buf : List Byte) :
    toUnsigned 32 (UCHAR_TO_ULONG_LE dm buf) =
      byteAt buf 0 + 256 * byteAt buf 1 + 65536 * byteAt buf 2 + 16777216 * byteAt buf 3 := by
  have h0 := byteAt_nonneg buf 0
  have h1 := byteAt_nonneg buf 1
  have h2 := byteAt_nonneg buf 2
  have h3 := byteAt_nonneg buf 3
  have l0 := byteAt_lt buf 0
  have l1 := byteAt_lt buf 1
  have l2 := byteAt_lt buf 2
  have l3 := byteAt_lt buf 3
  rw [UCHAR_TO_ULONG_LE_value]
  unfold toUnsigned
  norm_num
  split_ifs <;> omega

/-- C1, evaluated on an LP64 target at the bytes `00 00 00 80`: `buf[3] << 24` is the `int`
`-2 ^ 31`, and the cast to a 64-bit `unsigned long` sign-extends it, so `UCHAR_TO_ULONG_LE`
returns `2 ^ 64 - 2 ^ 31`, which is neither `b0 + 2^8*b1 + 2^16*b2 + 2^24*b3 = 2 ^ 31` nor below
`2 ^ 32`. On the same bytes a 32-bit `unsigned long` gives `2 ^ 31`. -/
theorem UCHAR_TO_ULONG_LE_sign_extends :
    UCHAR_TO_ULONG_LE .LP64 [0, 0, 0, 128] = 2 ^ 64 - 2 ^ 31 ∧
      UCHAR_TO_ULONG_LE .LP64 [0, 0, 0, 128] ≠ 0 + 2 ^ 8 * 0 + 2 ^ 16 * 0 + 2 ^ 24 * 128 ∧
      ¬ UCHAR_TO_ULONG_LE .LP64 [0, 0, 0, 128] < 2 ^ 32 ∧
      UCHAR_TO_ULONG_LE .LLP64 [0, 0, 0, 128] = 2 ^ 31 := by
  decide

/-! ## Rejected headers -/

theorem seekToBegin_of_no_fault {io : CIO} (h : io.seekFaults.headD 0 = 0) :
    seekToBegin io =
      { io with seekMethod := APE_FILE_BEGIN, seekPosition := 0,
                seekFaults := io.seekFaults.tail, pos := 0 } := by
  unfold seekToBegin CIO.PerformSeek CIO.SetSeekPosition CIO.SetSeekMethod
  dsimp only
  rw [if_neg (not_not.mpr h)]
  have : ¬ CIO.seekTarget
      { bytes := io.bytes, pos := io.pos, seekMethod := APE_FILE_BEGIN, seekPosition := 0,
        readFaults := io.readFaults, seekFaults := io.seekFaults.tail } < 0 := by
    unfold CIO.seekTarget
    simp [APE_FILE_BEGIN, APE_FILE_END, APE_FILE_CURRENT]
  rw [if_neg this]
  unfold CIO.seekTarget
  simp [APE_FILE_BEGIN, APE_FILE_END, APE_FILE_CURRENT]

/-- A read of `n` bytes falls through when no fault is pending, the source has `n` more bytes
and the array has room for them. -/
theorem readAtP_of_ok {t : Target} {n : Nat} {s : CWAVInputSource} {io : CIO}
    (hio : s.m_spIO = some io) (hf : io.readFaults.headD 0 = 0)
    (hlen : io.pos + n ≤ io.bytes.length)
    (hcap : s.m_sFullHeader.length + n ≤ t.fullHeaderSize) :
    readAtP t n s = .next ((io.bytes.drop io.pos).take n)
      { s with
        m_spIO := some { io with readFaults := io.readFaults.tail, pos := io.pos + n }
        m_sFullHeader := s.m_sFullHeader ++ (io.bytes.drop io.pos).take n } := by
  have hl : ((io.bytes.drop io.pos).take n).length = n := by
    rw [List.length_take, List.length_drop]; omega
  unfold readAtP
  rw [hio]
  dsimp only
  unfold ReadSafe
  rw [ CIO.Read_of_no_fault n hf]
  dsimp only
  rw [if_neg (not_not.mpr rfl), if_neg (not_not.mpr hl)]
  dsimp only
  rw [hl, if_neg (by omega), if_neg (not_not.mpr rfl)]

/-- The same, for an object given member by member. -/
theorem readAtP_mk (t : Target) (n : Nat) (io : CIO) (hdr : List Byte) (w : WAVEFORMATEX)
    (a b c d : Int) (v : Bool) (hf : io.readFaults.headD 0 = 0)
    (hlen : io.pos + n ≤ io.bytes.length) (hcap : hdr.length + n ≤ t.fullHeaderSize) :
    readAtP t n ⟨some io, hdr, w, a, b, c, d, v⟩ =
      .next ((io.bytes.drop io.pos).take n)
        ⟨some { io with readFaults := io.readFaults.tail, pos := io.pos + n },
          hdr ++ (io.bytes.drop io.pos).take n, w, a, b, c, d, v⟩ :=
  readAtP_of_ok rfl hf hlen hcap

/-- With twelve readable bytes that do not carry both magics, lines 129-158 return
`ERROR_INVALID_INPUT_FILE`. -/
theorem readRiffWave_bad_magic {t : Target} {s : CWAVInputSource} {io : CIO}
    (hio : s.m_spIO = some io) (hseek : io.seekFaults.headD 0 = 0)
    (hr1 : io.readFaults.headD 0 = 0) (hr2 : io.readFaults.tail.headD 0 = 0)
    (hlen : 12 ≤ io.bytes.length) (hcap : 12 ≤ t.fullHeaderSize)
    (hbad : hasLabel io.bytes 'R' 'I' 'F' 'F' = false ∨
      hasLabel (io.bytes.drop 8) 'W' 'A' 'V' 'E' = false) :
    ∃ s1, readRiffWave t s = .ret ERROR_INVALID_INPUT_FILE s1 := by
  unfold readRiffWave
  rw [hio]
  dsimp only
  rw [seekToBegin_of_no_fault hseek]
  rw [readAtP_mk t 8 _ _ _ _ _ _ _ _ (by exact hr1) (by dsimp only; omega)
    (by rw [List.length_nil]; omega)]
  rw [Flow.andThen_next]
  dsimp only [List.drop_zero, List.nil_append]
  by_cases hR : hasLabel (io.bytes.take 8) 'R' 'I' 'F' 'F' = true
  · rw [if_neg (by simp [hR])]
    rw [readAtP_mk t 4 _ _ _ _ _ _ _ _ (by exact hr2) (by dsimp only; omega)
      (by rw [List.length_take]; omega)]
    rw [Flow.andThen_next]
    have hW : hasLabel (io.bytes.drop 8) 'W' 'A' 'V' 'E' = false := by
      rcases hbad with h | h
      · rw [hasLabel_congr _ _ _ _ fun i hi => byteAt_take (by omega)] at hR
        rw [hR] at h; exact absurd h (by decide)
      · exact h
    have hW1 : hasLabel ((io.bytes.drop (0 + 8)).take 4) 'W' 'A' 'V' 'E' = false := by
      rw [← hW]
      exact hasLabel_congr _ _ _ _ fun i hi => by rw [Nat.zero_add, byteAt_take (by omega)]
    dsimp only
    rw [if_pos (by simp [hW1])]
    exact ⟨_, rfl⟩
  · rw [if_pos (by simpa using hR)]
    exact ⟨_, rfl⟩

/-- With twelve readable bytes that do not carry both magics, `AnalyzeSource` returns
`ERROR_INVALID_INPUT_FILE` and leaves the validity flag as it was. -/
theorem AnalyzeSource_bad_magic {t : Target} {s : CWAVInputSource} {io : CIO}
    (hio : s.m_spIO = some io) (hseek : io.seekFaults.headD 0 = 0)
    (hr1 : io.readFaults.headD 0 = 0) (hr2 : io.readFaults.tail.headD 0 = 0)
    (hlen : 12 ≤ io.bytes.length) (hcap : 12 ≤ t.fullHeaderSize)
    (hbad : hasLabel io.bytes 'R' 'I' 'F' 'F' = false ∨
      hasLabel (io.bytes.drop 8) 'W' 'A' 'V' 'E' = false) :
    ∃ s1, AnalyzeSource t s = .done (ERROR_INVALID_INPUT_FILE, s1) ∧
      s1.m_bIsValid = s.m_bIsValid := by
  obtain ⟨s1, h1⟩ := readRiffWave_bad_magic hio hseek hr1 hr2 hlen hcap hbad
  have h2 : AnalyzeSource t s = .done (ERROR_INVALID_INPUT_FILE, s1) := by
    unfold AnalyzeSource readHeaders readFormatHeader
    rw [h1]
    rfl
  exact ⟨s1, h2, AnalyzeSource_valid h2⟩

theorem not_isNone_of_isSome {α : Type} {o : Option α} (h : o.isSome = true) :
    ¬ o.isNone = true := by
  cases o <;> simp_all

/-- C2: on a source with twelve readable bytes (the opening seek and the first two reads report
no failure, the array holds twelve bytes) whose bytes 0..3 are not `RIFF` or whose bytes 8..11
are not `WAVE`, `AnalyzeSource` returns `ERROR_INVALID_INPUT_FILE`; both constructors, given
that source and a non-NULL `pwfeSource`, report that status and leave the object invalid. -/
theorem bad_magic_is_invalid_input (t : Target) (io : CIO)
    (hseek : io.seekFaults.headD 0 = 0)
    (hr1 : io.readFaults.headD 0 = 0) (hr2 : io.readFaults.tail.headD 0 = 0)
    (hlen : 12 ≤ io.bytes.length) (hcap : 12 ≤ t.fullHeaderSize)
    (hbad : hasLabel io.bytes 'R' 'I' 'F' 'F' = false ∨
      hasLabel (io.bytes.drop 8) 'W' 'A' 'V' 'E' = false) :
    (∀ s, s.m_spIO = some io →
      ∃ s1, AnalyzeSource t s = .done (ERROR_INVALID_INPUT_FILE, s1)) ∧
    (∀ mem o, o.pwfeSource.isSome = true →
      ∃ inst, CWAVInputSource.fromIO t mem (some io) o =
          .done (inst, { o with pErrorCode := store o.pErrorCode ERROR_INVALID_INPUT_FILE }) ∧
        inst.m_bIsValid = false) ∧
    (∀ fs mem name o, fs name = some io → o.pwfeSource.isSome = true →
      ∃ inst, CWAVInputSource.fromName t fs mem (some name) o =
          .done (inst, { o with pErrorCode := store o.pErrorCode ERROR_INVALID_INPUT_FILE }) ∧
        inst.m_bIsValid = false) := by
  have key : ∀ (mem : CWAVInputSource) (o : OutParams),
      ∃ inst, analyzeAndReport t { mem with m_spIO := some io, m_bIsValid := false } o =
          .done (inst, { o with pErrorCode := store o.pErrorCode ERROR_INVALID_INPUT_FILE }) ∧
        inst.m_bIsValid = false := by
    intro mem o
    obtain ⟨s1, h1, v1⟩ := @AnalyzeSource_bad_magic t
      { mem with m_spIO := some io, m_bIsValid := false } io rfl hseek hr1 hr2 hlen hcap hbad
    refine ⟨s1, ?_, v1⟩
    unfold analyzeAndReport
    rw [h1]
    dsimp only
    rw [if_neg (by decide)]
  refine ⟨fun s hs => ?_, fun mem o ho => ?_, fun fs mem name o hfs ho => ?_⟩
  · obtain ⟨s1, h1, -⟩ := AnalyzeSource_bad_magic hs hseek hr1 hr2 hlen hcap hbad
    exact ⟨s1, h1⟩
  · unfold CWAVInputSource.fromIO
    dsimp only
    rw [if_neg (by
      rintro (h | h)
      · exact absurd h (by simp)
      · exact not_isNone_of_isSome ho h)]
    exact key mem o
  · unfold CWAVInputSource.fromName openSource
    dsimp only
    rw [if_neg (not_isNone_of_isSome ho), hfs]
    exact key mem o

set_option maxRecDepth 100000 in
/-- C2 at a twelve-byte source reading `RIFX....WAVE`. -/
theorem bad_magic_is_invalid_input_witness :
    12 ≤ (fileSource (ascii "RIFX" ++ le32 4 ++ ascii "WAVE")).bytes.length ∧
      hasLabel (fileSource (ascii "RIFX" ++ le32 4 ++ ascii "WAVE")).bytes 'R' 'I' 'F' 'F' = false ∧
      ∃ s1, AnalyzeSource (sampleTarget .LP64)
          (objectOn (fileSource (ascii "RIFX" ++ le32 4 ++ ascii "WAVE"))) =
        .done (ERROR_INVALID_INPUT_FILE, s1) :=
  ⟨by decide, by decide,
    (bad_magic_is_invalid_input (sampleTarget .LP64)
      (fileSource (ascii "RIFX" ++ le32 4 ++ ascii "WAVE")) (by decide) (by decide) (by decide)
      (by decide) (by decide) (Or.inl (by decide))).1 _ rfl⟩

/-! ## Unsupported formats -/

/-- C3: when lines 129-179 fall through (both magics valid, the `fmt ` chunk found, its 16-byte
format header read to `r`) and the 16-bit little-endian format tag at the start of `r` is neither
1 nor 65534, `AnalyzeSource` returns `ERROR_INVALID_INPUT_FILE`, so it does not succeed. -/
theorem unsupported_format_tag (t : Target) (s s1 : CWAVInputSource) (n : Int) (r : List Byte)
    (h : readFormatHeader t s = .next (n, r) s1)
    (htag : UCHAR_TO_USHORT_LE r ≠ 1 ∧ UCHAR_TO_USHORT_LE r ≠ 65534) :
    AnalyzeSource t s = .done (ERROR_INVALID_INPUT_FILE, s1) ∧
      ∀ s2, AnalyzeSource t s ≠ .done (ERROR_SUCCESS, s2) := by
  have h1 : AnalyzeSource t s = .done (ERROR_INVALID_INPUT_FILE, s1) := by
    unfold AnalyzeSource readHeaders
    rw [h, Flow.andThen_next]
    unfold findDataChunk
    dsimp only
    rw [if_pos htag]
    rfl
  refine ⟨h1, fun s2 h2 => ?_⟩
  rw [h1] at h2
  simp only [Run.done.injEq, Prod.mk.injEq] at h2
  exact absurd h2.1 (by decide)

set_option maxRecDepth 100000 in
/-- C3 at a 32-bit float WAV file (format tag 3). -/
theorem unsupported_format_tag_witness :
    readFormatHeader (sampleTarget .LP64) (objectOn (fileSource (sampleWav 40 3 1 32 4 (le32 7)))) =
        .next (16, ((sampleWav 40 3 1 32 4 (le32 7)).drop 20).take 16)
          (readFormatHeader (sampleTarget .LP64)
            (objectOn (fileSource (sampleWav 40 3 1 32 4 (le32 7))))).object ∧
      UCHAR_TO_USHORT_LE (((sampleWav 40 3 1 32 4 (le32 7)).drop 20).take 16) = 3 ∧
      AnalyzeSource (sampleTarget .LP64) (objectOn (fileSource (sampleWav 40 3 1 32 4 (le32 7)))) =
        .done (ERROR_INVALID_INPUT_FILE,
          (readFormatHeader (sampleTarget .LP64)
            (objectOn (fileSource (sampleWav 40 3 1 32 4 (le32 7))))).object) :=
  ⟨by decide, by decide,
    (unsupported_format_tag (sampleTarget .LP64)
      (objectOn (fileSource (sampleWav 40 3 1 32 4 (le32 7)))) _ 16
      (((sampleWav 40 3 1 32 4 (le32 7)).drop 20).take 16) (by decide) (by decide)).1⟩

/-! ## Construction -/

/-- C5: `CreateInputSource` given a NULL or empty source name returns NULL, builds no object and
stores `ERROR_BAD_PARAMETER` through `pErrorCode` when that is not NULL; each constructor given a
NULL source (`pIO`, `pSourceName`) or a NULL `pwfeSource` stores `ERROR_BAD_PARAMETER` the same
way and leaves the object invalid, its smart pointer still NULL: the source was never handed to
the object, let alone read or moved. -/
theorem bad_parameter (t : Target) (fs : String → Option CIO) (mem : CWAVInputSource)
    (o : OutParams) ( pIO : Option CIO) (pSourceName : Option String) :
    CreateInputSource t fs mem none o =
        .done (none, { o with pErrorCode := store o.pErrorCode ERROR_BAD_PARAMETER }) ∧
      CreateInputSource t fs mem (some "") o =
        .done (none, { o with pErrorCode := store o.pErrorCode ERROR_BAD_PARAMETER }) ∧
      CWAVInputSource.fromIO t mem none o =
        .done ({ mem with m_spIO := none, m_bIsValid := false },
          { o with pErrorCode := store o.pErrorCode ERROR_BAD_PARAMETER }) ∧
      CWAVInputSource.fromIO t mem pIO { o with pwfeSource := none } =
        .done ({ mem with m_spIO := none, m_bIsValid := false },
          { o with pwfeSource := none, pErrorCode := store o.pErrorCode ERROR_BAD_PARAMETER }) ∧
      CWAVInputSource.fromName t fs mem none o =
        .done ({ mem with m_spIO := none, m_bIsValid := false },
          { o with pErrorCode := store o.pErrorCode ERROR_BAD_PARAMETER }) ∧
      CWAVInputSource.fromName t fs mem pSourceName { o with pwfeSource := none } =
        .done ({ mem with m_spIO := none, m_bIsValid := false },
          { o with pwfeSource := none, pErrorCode := store o.pErrorCode ERROR_BAD_PARAMETER }) ∧
      store (some (0 : Int)) ERROR_BAD_PARAMETER = some ERROR_BAD_PARAMETER ∧
      store (none : Option Int) ERROR_BAD_PARAMETER = none := by
  refine ⟨rfl, rfl, rfl, ?_, rfl, ?_, rfl, rfl⟩
  · unfold CWAVInputSource.fromIO
    dsimp only
    exact if_pos (Or.inr rfl)
  · unfold CWAVInputSource.fromName
    cases pSourceName with
    | none => rfl
    | some name =>
      dsimp only
      exact if_pos rfl

/-- What the shared tail of the constructors reports: the status of `AnalyzeSource`; the object
is valid exactly when that status is `ERROR_SUCCESS`. -/
theorem analyzeAndReport_done {t : Target} {s inst : CWAVInputSource} {o o1 : OutParams}
    (hv : s.m_bIsValid = false) (h : analyzeAndReport t s o = .done (inst, o1)) :
    ∃ c s1, AnalyzeSource t s = .done (c, s1) ∧ o1.pErrorCode = store o.pErrorCode c ∧
      (inst.m_bIsValid = true ↔ c = ERROR_SUCCESS) ∧
      (c = ERROR_SUCCESS → inst = { s1 with m_bIsValid := true }) := by
  unfold analyzeAndReport at h
  cases hA : AnalyzeSource t s with
  | undefined => rw [hA] at h; simp at h
  | outOfFuel => rw [hA] at h; simp at h
  | done r =>
    obtain ⟨c, s1⟩ := r
    rw [hA] at h
    dsimp only at h
    have hv1 : s1.m_bIsValid = false := (AnalyzeSource_valid hA).trans hv
    split_ifs at h with hc hz
    · simp only [Run.done.injEq, Prod.mk.injEq] at h
      obtain ⟨rfl, rfl⟩ := h
      exact ⟨c, s1, rfl, rfl, ⟨fun _ => hc, fun _ => rfl⟩, fun _ => rfl⟩
    · simp only [Run.done.injEq, Prod.mk.injEq] at h
      obtain ⟨rfl, rfl⟩ := h
      refine ⟨c, _, rfl, rfl, ⟨fun hh => ?_, fun hh => absurd hh hc⟩, fun hh => absurd hh hc⟩
      rw [hv1] at hh
      exact absurd hh (by decide)

/-- Both constructors: the status stored through `pErrorCode` is `ERROR_SUCCESS` exactly when
the object is valid. -/
theorem fromIO_valid_iff {t : Target} {mem inst : CWAVInputSource} { pIO : Option CIO}
    {o o1 : OutParams} (h : CWAVInputSource.fromIO t mem pIO o = .done (inst, o1)) :
    ∃ c, o1.pErrorCode = store o.pErrorCode c ∧ (inst.m_bIsValid = true ↔ c = ERROR_SUCCESS) := by
  unfold CWAVInputSource.fromIO at h
  dsimp only at h
  split_ifs at h with hp
  · simp only [Run.done.injEq, Prod.mk.injEq] at h
    obtain ⟨rfl, rfl⟩ := h
    exact ⟨ERROR_BAD_PARAMETER, rfl, fun hh => absurd hh Bool.false_ne_true,
      fun hh => absurd hh (by decide)⟩
  · obtain ⟨c, s1, -, h1, h2, -⟩ := analyzeAndReport_done rfl h
    exact ⟨c, h1, h2⟩

theorem fromName_valid_iff {t : Target} {fs : String → Option CIO} {mem inst : CWAVInputSource}
    {pSourceName : Option String} {o o1 : OutParams}
    (h : CWAVInputSource.fromName t fs mem pSourceName o = .done (inst, o1)) :
    ∃ c, o1.pErrorCode = store o.pErrorCode c ∧ (inst.m_bIsValid = true ↔ c = ERROR_SUCCESS) := by
  unfold CWAVInputSource.fromName at h
  cases pSourceName with
  | none =>
    simp only [Run.done.injEq, Prod.mk.injEq] at h
    obtain ⟨rfl, rfl⟩ := h
    exact ⟨ERROR_BAD_PARAMETER, rfl, fun hh => absurd hh Bool.false_ne_true,
      fun hh => absurd hh (by decide)⟩
  | some name =>
    dsimp only at h
    split_ifs at h with hp
    · simp only [Run.done.injEq, Prod.mk.injEq] at h
      obtain ⟨rfl, rfl⟩ := h
      exact ⟨ERROR_BAD_PARAMETER, rfl, fun hh => absurd hh Bool.false_ne_true,
      fun hh => absurd hh (by decide)⟩
    · cases hO : openSource fs name with
      | none =>
        rw [hO] at h
        simp only [Run.done.injEq, Prod.mk.injEq] at h
        obtain ⟨rfl, rfl⟩ := h
        exact ⟨ERROR_INVALID_INPUT_FILE, rfl, fun hh => absurd hh Bool.false_ne_true,
          fun hh => absurd hh (by decide)⟩
      | some io =>
        rw [hO] at h
        obtain ⟨c, s1, -, h1, h2, -⟩ := analyzeAndReport_done rfl h
        exact ⟨c, h1, h2⟩

/-- On an invalid object the three accessors return `ERROR_UNDEFINED` and do nothing else. -/
theorem access_invalid {s : CWAVInputSource} (h : s.m_bIsValid = false) (nBlocks : Int)
    (pBlocksRetrieved : Option Int) :
    GetData s nBlocks pBlocksRetrieved = .done ⟨ERROR_UNDEFINED, s, [], pBlocksRetrieved⟩ ∧
      GetHeaderData s = .done ⟨ERROR_UNDEFINED, s, [], none⟩ ∧
      GetTerminatingData s = .done ⟨ERROR_UNDEFINED, s, [], none⟩ := by
  unfold GetData GetHeaderData GetTerminatingData
  rw [h]
  exact ⟨rfl, rfl, rfl⟩

/-- C6 fails as stated: asked for a file that cannot be opened, with every pointer argument
non-NULL, `CreateInputSource` stores `ERROR_INVALID_INPUT_FILE`, which is not `ERROR_SUCCESS`,
and still returns a pointer to an object. -/
theorem CreateInputSource_returns_object_on_error :
    CreateInputSource (sampleTarget .LP64) noFiles rawObject (some "a.wav") allOutputs =
        .done (some rawObject, { allOutputs with pErrorCode := some ERROR_INVALID_INPUT_FILE }) ∧
      ERROR_INVALID_INPUT_FILE ≠ ERROR_SUCCESS ∧
      (some rawObject : Option CWAVInputSource) ≠ none := by
  decide

/-- C6, amended: when `CreateInputSource` stores a status other than `ERROR_SUCCESS`, either the
source name was NULL or empty and the pointer returned is NULL, or the pointer returned is to an
object that is invalid, on which `GetData`, `GetHeaderData` and `GetTerminatingData` return
`ERROR_UNDEFINED` and do nothing else. -/
theorem CreateInputSource_error_gives_no_usable_object (t : Target)
    (fs : String → Option CIO) (mem : CWAVInputSource) (pSourceName : Option String)
    (o o1 : OutParams) (r : Option CWAVInputSource) (c : Int)
    (h : CreateInputSource t fs mem pSourceName o = .done (r, o1))
    (hc : o1.pErrorCode = some c) (hne : c ≠ ERROR_SUCCESS) :
    (r = none ∧ (pSourceName = none ∨ pSourceName = some "")) ∨
      ∃ inst, r = some inst ∧ inst.m_bIsValid = false ∧
        (∀ n p, GetData inst n p = .done ⟨ERROR_UNDEFINED, inst, [], p⟩) ∧
        GetHeaderData inst = .done ⟨ERROR_UNDEFINED, inst, [], none⟩ ∧
        GetTerminatingData inst = .done ⟨ERROR_UNDEFINED, inst, [], none⟩ := by
  unfold CreateInputSource at h
  cases pSourceName with
  | none =>
    simp only [Run.done.injEq, Prod.mk.injEq] at h
    exact Or.inl ⟨h.1.symm, Or.inl rfl⟩
  | some name =>
    dsimp only at h
    split_ifs at h with hl
    · simp only [Run.done.injEq, Prod.mk.injEq] at h
      refine Or.inl ⟨h.1.symm, Or.inr ?_⟩
      have hn : name = "" := by
        cases name with
        | mk data =>
          simp only [String.length] at hl
          rw [List.length_eq_zero] at hl
          subst hl
          rfl
      rw [hn]
    · cases hN : CWAVInputSource.fromName t fs mem (some name) o with
      | undefined => rw [hN] at h; simp at h
      | outOfFuel => rw [hN] at h; simp at h
      | done x =>
        obtain ⟨inst, o2⟩ := x
        rw [hN] at h
        simp only [Run.done.injEq, Prod.mk.injEq] at h
        obtain ⟨rfl, rfl⟩ := h
        obtain ⟨c1, hs, hiff⟩ := fromName_valid_iff hN
        have hv : inst.m_bIsValid = false := by
          cases hb : inst.m_bIsValid with
          | false => rfl
          | true =>
            exfalso
            have hc1 := hiff.mp hb
            rw [hs, hc1] at hc
            cases hp : o.pErrorCode with
            | none => rw [hp] at hc; simp [store] at hc
            | some e =>
              rw [hp] at hc
              simp only [store, Option.map_some', Option.some.injEq] at hc
              exact hne hc.symm
        exact Or.inr ⟨inst, rfl, hv, fun n p => (access_invalid hv n p).1,
          (access_invalid hv 0 none).2.1, (access_invalid hv 0 none).2.2⟩

/-- C6, amended, at the file that cannot be opened. -/
theorem CreateInputSource_error_gives_no_usable_object_witness :
    CreateInputSource (sampleTarget .LP64) noFiles rawObject (some "a.wav") allOutputs =
        .done (some rawObject, { allOutputs with pErrorCode := some ERROR_INVALID_INPUT_FILE }) ∧
      ((some rawObject = none ∧ (some "a.wav" = none ∨ some "a.wav" = some "")) ∨
        ∃ inst, some rawObject = some inst ∧ inst.m_bIsValid = false ∧
          (∀ n p, GetData inst n p = .done ⟨ERROR_UNDEFINED, inst, [], p⟩) ∧
          GetHeaderData inst = .done ⟨ERROR_UNDEFINED, inst, [], none⟩ ∧
          GetTerminatingData inst = .done ⟨ERROR_UNDEFINED, inst, [], none⟩) :=
  ⟨by decide,
    CreateInputSource_error_gives_no_usable_object (sampleTarget .LP64) noFiles rawObject
      (some "a.wav") allOutputs { allOutputs with pErrorCode := some ERROR_INVALID_INPUT_FILE }
      (some rawObject) ERROR_INVALID_INPUT_FILE (by decide) rfl (by decide)⟩

/-- C7: for both constructors the status reported through `pErrorCode` is `ERROR_SUCCESS`
exactly when the object is valid; and on an invalid object `GetData`, `GetHeaderData` and
`GetTerminatingData` return `ERROR_UNDEFINED`, leave the object and with it the source as they
were, store nothing in the caller's buffer and leave `pBlocksRetrieved` alone. -/
theorem validity_matches_status (t : Target) (fs : String → Option CIO) :
    (∀ mem pIO o inst o1, CWAVInputSource.fromIO t mem pIO o = .done (inst, o1) →
      ∃ c, o1.pErrorCode = store o.pErrorCode c ∧
        (inst.m_bIsValid = true ↔ c = ERROR_SUCCESS)) ∧
    (∀ mem pSourceName o inst o1,
      CWAVInputSource.fromName t fs mem pSourceName o = .done (inst, o1) →
      ∃ c, o1.pErrorCode = store o.pErrorCode c ∧
        (inst.m_bIsValid = true ↔ c = ERROR_SUCCESS)) ∧
    (∀ s nBlocks pBlocksRetrieved, s.m_bIsValid = false →
      GetData s nBlocks pBlocksRetrieved = .done ⟨ERROR_UNDEFINED, s, [], pBlocksRetrieved⟩ ∧
      GetHeaderData s = .done ⟨ERROR_UNDEFINED, s, [], none⟩ ∧
      GetTerminatingData s = .done ⟨ERROR_UNDEFINED, s, [], none⟩) :=
  ⟨fun _ _ _ _ _ h => fromIO_valid_iff h, fun _ _ _ _ _ h => fromName_valid_iff h,
    fun _ n p h => access_invalid h n p⟩

set_option maxRecDepth 100000 in
/-- C7 at a well-formed 16-bit mono file with four data bytes, and at zeroed storage. -/
theorem validity_matches_status_witness :
    (CWAVInputSource.fromIO (sampleTarget .LP64) rawObject (some (fileSource monoWav))
        allOutputs =
      .done ((Run.get (rawObject, allOutputs) (CWAVInputSource.fromIO (sampleTarget .LP64)
          rawObject (some (fileSource monoWav)) allOutputs)).1,
        (Run.get (rawObject, allOutputs) (CWAVInputSource.fromIO (sampleTarget .LP64)
          rawObject (some (fileSource monoWav)) allOutputs)).2) ∧
      (Run.get (rawObject, allOutputs) (CWAVInputSource.fromIO (sampleTarget .LP64)
          rawObject (some (fileSource monoWav)) allOutputs)).1.m_bIsValid = true ∧
      ∃ c, (Run.get (rawObject, allOutputs) (CWAVInputSource.fromIO (sampleTarget .LP64)
          rawObject (some (fileSource monoWav)) allOutputs)).2.pErrorCode =
            store allOutputs.pErrorCode c ∧
        ((Run.get (rawObject, allOutputs) (CWAVInputSource.fromIO (sampleTarget .LP64)
          rawObject (some (fileSource monoWav)) allOutputs)).1.m_bIsValid = true ↔
          c = ERROR_SUCCESS)) ∧
    (rawObject.m_bIsValid = false ∧
      GetData rawObject 1 (some 5) = .done ⟨ERROR_UNDEFINED, rawObject, [], some 5⟩) :=
  ⟨⟨by decide, by decide,
      (validity_matches_status (sampleTarget .LP64) noFiles).1 rawObject
        (some (fileSource monoWav)) allOutputs
        (Run.get (rawObject, allOutputs) (CWAVInputSource.fromIO (sampleTarget .LP64)
          rawObject (some (fileSource monoWav)) allOutputs)).1
        (Run.get (rawObject, allOutputs) (CWAVInputSource.fromIO (sampleTarget .LP64)
          rawObject (some (fileSource monoWav)) allOutputs)).2 (by decide)⟩,
    by decide,
    ((validity_matches_status (sampleTarget .LP64) noFiles).2.2 rawObject 1 (some 5)
      (by decide)).1⟩

/-! ## The header blob -/

/-- After a successful `AnalyzeSource` on a source whose opening seek took effect: the stored
bytes are the first `m_nHeaderBytes` bytes of the source, the source stands right after them, and
the last eight are a chunk header labelled `data`. -/
theorem AnalyzeSource_header {t : Target} {s s1 : CWAVInputSource} {io : CIO}
    (hio : s.m_spIO = some io) (hseek : io.seekFaults.headD 0 = 0)
    (h : AnalyzeSource t s = .done (ERROR_SUCCESS, s1)) :
    s1.m_nHeaderBytes = (s1.m_sFullHeader.length : Int) ∧
      s1.m_sFullHeader = io.bytes.take s1.m_sFullHeader.length ∧
      s1.m_sFullHeader.length ≤ io.bytes.length ∧
      8 ≤ s1.m_sFullHeader.length ∧
      hasLabel (io.bytes.drop (s1.m_sFullHeader.length - 8)) 'd' 'a' 't' 'a' = true ∧
      ∃ io1, s1.m_spIO = some io1 ∧ io1.bytes = io.bytes ∧ io1.pos = s1.m_sFullHeader.length := by
  obtain ⟨q, hR, lq, hl, -, -, -, hH, -⟩ := AnalyzeSource_success hio h
  have h0 : (seekToBegin io).pos = 0 := by rw [seekToBegin_of_no_fault hseek]
  rw [h0] at hR
  have hlast := hR.last_eq
  obtain ⟨⟨io1, hio1, hB, hpos⟩, hhdr, -, -⟩ := hR
  rw [List.drop_zero] at hhdr
  rw [lq, List.drop_zero] at hlast
  have hlen : s1.m_sFullHeader.length ≤ io.bytes.length := by
    have := congrArg List.length hhdr
    rw [List.length_take] at this
    omega
  refine ⟨hH, hhdr, hlen, hlast.1, ?_, io1, hio1, hB, by omega⟩
  rw [← hl]
  conv_rhs => rw [hlast.2]
  exact (hasLabel_congr _ _ _ _ fun i hi => byteAt_take (by omega)).symm

/-- The header blob when the opening seek reports no failure: after a successful
`AnalyzeSource`, what `GetHeaderData` copies out of the object, once the constructor has marked
it valid, is exactly the first `m_nHeaderBytes` bytes of the source, all of them present; they
number at least eight and the last eight are a chunk header labelled `data`; and the source
stands at offset `m_nHeaderBytes`, where the data payload starts. -/
theorem header_data_verbatim (t : Target) (s s1 : CWAVInputSource) (io : CIO)
    (hio : s.m_spIO = some io) (hseek : io.seekFaults.headD 0 = 0)
    (h : AnalyzeSource t s = .done (ERROR_SUCCESS, s1)) :
    GetHeaderData { s1 with m_bIsValid := true } =
        .done ⟨ERROR_SUCCESS, { s1 with m_bIsValid := true },
          io.bytes.take s1.m_nHeaderBytes.toNat, none⟩ ∧
      ((io.bytes.take s1.m_nHeaderBytes.toNat).length : Int) = s1.m_nHeaderBytes ∧
      8 ≤ s1.m_nHeaderBytes ∧
      hasLabel (io.bytes.drop (s1.m_nHeaderBytes.toNat - 8)) 'd' 'a' 't' 'a' = true ∧
      ∃ io1, s1.m_spIO = some io1 ∧ io1.bytes = io.bytes ∧
        (io1.pos : Int) = s1.m_nHeaderBytes := by
  obtain ⟨hH, hhdr, hlen, h8, hl, io1, hio1, hB, hpos⟩ := AnalyzeSource_header hio hseek h
  have hN : s1.m_nHeaderBytes.toNat = s1.m_sFullHeader.length := by rw [hH]; rfl
  refine ⟨?_, ?_, by omega, ?_, io1, hio1, hB, by omega⟩
  · unfold GetHeaderData
    dsimp only
    rw [if_neg (by decide), if_neg (by omega), hN, ← hhdr, List.take_length]
  · rw [hN, List.length_take]; omega
  · rw [hN]; exact hl

set_option maxRecDepth 100000 in
/-- The header blob of the well-formed mono file, read from offset 0: its first 44 bytes. -/
theorem header_data_verbatim_witness :
    AnalyzeSource (sampleTarget .LP64) (objectOn (fileSource monoWav)) =
        .done (ERROR_SUCCESS,
          (AnalyzeSource (sampleTarget .LP64) (objectOn (fileSource monoWav))).object) ∧
      (AnalyzeSource (sampleTarget .LP64) (objectOn (fileSource monoWav))).object.m_nHeaderBytes
        = 44 ∧
      GetHeaderData { (AnalyzeSource (sampleTarget .LP64)
          (objectOn (fileSource monoWav))).object with m_bIsValid := true } =
        .done ⟨ERROR_SUCCESS, { (AnalyzeSource (sampleTarget .LP64)
            (objectOn (fileSource monoWav))).object with m_bIsValid := true },
          (fileSource monoWav).bytes.take (AnalyzeSource (sampleTarget .LP64)
            (objectOn (fileSource monoWav))).object.m_nHeaderBytes.toNat, none⟩ :=
  ⟨by decide, by decide,
    (header_data_verbatim (sampleTarget .LP64) (objectOn (fileSource monoWav))
      (AnalyzeSource (sampleTarget .LP64) (objectOn (fileSource monoWav))).object
      (fileSource monoWav) rfl (by decide) (by decide)).1⟩

set_option maxRecDepth 100000 in
/-- C9, evaluated on each data model at a 52-byte source, four bytes `XXXX` followed by the
well-formed mono file, that stands at offset 4 when the constructor receives it and whose next
seek fails. The opening `PerformSeek` of line 134 reports `ERROR_UNDEFINED`; its status is
discarded, reading starts at offset 4, and `AnalyzeSource` and the constructor succeed with
`m_nHeaderBytes = 44`. `GetHeaderData` then copies out bytes 4 to 47 of the source, which are not
its first 44 bytes; the source has no `data` chunk header at offsets 36 to 43, and the data
payload starts at offset 48, not at offset `m_nHeaderBytes`. -/
theorem header_data_after_failed_seek (dm : DataModel) :
    ((shiftedSource.SetSeekMethod APE_FILE_BEGIN).SetSeekPosition 0).PerformSeek.1 =
        ERROR_UNDEFINED ∧
      AnalyzeSource (sampleTarget dm) (objectOn shiftedSource) =
        .done (ERROR_SUCCESS, (AnalyzeSource (sampleTarget dm) (objectOn shiftedSource)).object) ∧
      CWAVInputSource.fromIO (sampleTarget dm) rawObject (some shiftedSource) allOutputs =
        .done (builtOn dm shiftedSource, reportedOn dm shiftedSource) ∧
      (reportedOn dm shiftedSource).pErrorCode = some ERROR_SUCCESS ∧
      (builtOn dm shiftedSource).m_bIsValid = true ∧
      (builtOn dm shiftedSource).m_nHeaderBytes = 44 ∧
      GetHeaderData (builtOn dm shiftedSource) =
        .done ⟨ERROR_SUCCESS, builtOn dm shiftedSource,
          (shiftedSource.bytes.drop 4).take 44, none⟩ ∧
      (shiftedSource.bytes.drop 4).take 44 ≠ shiftedSource.bytes.take 44 ∧
      hasLabel (shiftedSource.bytes.drop (44 - 8)) 'd' 'a' 't' 'a' = false ∧
      hasLabel (shiftedSource.bytes.drop (48 - 8)) 'd' 'a' 't' 'a' = true ∧
      CWAVInputSource.m_spIO (builtOn dm shiftedSource) =
        some { shiftedSource with seekMethod := APE_FILE_BEGIN, seekPosition := 0,
                                  seekFaults := [], pos := 48 } := by
  cases dm <;> decide

/-! ## The byte ranges -/

/-- A `uint32` or `int` conversion leaves a count below `2 ^ 31` alone. -/
theorem toUnsigned_32_of_range {x : Int} (h1 : 0 ≤ x) (h2 : x < 2147483648) :
    toUnsigned 32 x = x := by
  unfold toUnsigned
  norm_num
  omega

/-- With a valid object, working seek and read, and a trailer of `T` bytes that the source
holds, `GetTerminatingData` succeeds and reads the last `T` bytes of the source. -/
theorem GetTerminatingData_ok {s : CWAVInputSource} {io1 : CIO} (hv : s.m_bIsValid = true)
    (hio : s.m_spIO = some io1) (hsk : io1.seekFaults.headD 0 = 0)
    (hrd : io1.readFaults.headD 0 = 0) (hT0 : 0 ≤ s.m_nTerminatingBytes)
    (hT : s.m_nTerminatingBytes ≤ io1.bytes.length) (hsize : io1.bytes.length < 2147483648) :
    ∃ obj, GetTerminatingData s =
      .done ⟨ERROR_SUCCESS, obj,
        io1.bytes.drop (io1.bytes.length - s.m_nTerminatingBytes.toNat), none⟩ := by
  unfold GetTerminatingData
  rw [hv]
  dsimp only
  rw [if_neg (by decide)]
  by_cases hz : s.m_nTerminatingBytes > 0
  · rw [if_pos hz, hio]
    dsimp only
    have hseek : (((io1.SetSeekMethod APE_FILE_END).SetSeekPosition
        (-s.m_nTerminatingBytes)).PerformSeek).2 =
        { io1 with seekMethod := APE_FILE_END, seekPosition := -s.m_nTerminatingBytes,
                   seekFaults := io1.seekFaults.tail,
                   pos := io1.bytes.length - s.m_nTerminatingBytes.toNat } := by
      unfold CIO.PerformSeek CIO.SetSeekPosition CIO.SetSeekMethod
      dsimp only
      rw [if_neg (not_not.mpr hsk)]
      have ht : CIO.seekTarget
          { bytes := io1.bytes, pos := io1.pos, seekMethod := APE_FILE_END,
            seekPosition := -s.m_nTerminatingBytes, readFaults := io1.readFaults,
            seekFaults := io1.seekFaults.tail } =
          (io1.bytes.length : Int) - s.m_nTerminatingBytes := by
        unfold CIO.seekTarget CIO.GetSize
        dsimp only
        rw [if_pos rfl]
        omega
      rw [ht, if_neg (by omega)]
      have e : ((io1.bytes.length : Int) - s.m_nTerminatingBytes).toNat =
          io1.bytes.length - s.m_nTerminatingBytes.toNat := by omega
      dsimp only
      rw [e]
    rw [hseek]
    have hn : (toUnsigned 32 s.m_nTerminatingBytes).toNat = s.m_nTerminatingBytes.toNat := by
      rw [toUnsigned_32_of_range hT0 (by omega)]
    rw [hn, CIO.Read_of_no_fault _ (by exact hrd)]
    dsimp only
    have hgot : (io1.bytes.drop (io1.bytes.length - s.m_nTerminatingBytes.toNat)).take
        s.m_nTerminatingBytes.toNat =
        io1.bytes.drop (io1.bytes.length - s.m_nTerminatingBytes.toNat) := by
      apply List.take_of_length_le
      rw [List.length_drop]
      omega
    have hlen : ((io1.bytes.drop (io1.bytes.length - s.m_nTerminatingBytes.toNat)).length : Int)
        = s.m_nTerminatingBytes := by
      rw [List.length_drop]
      omega
    rw [hgot]
    have hres : (if ERROR_SUCCESS ≠ ERROR_SUCCESS ∨ s.m_nTerminatingBytes ≠
        toSigned 32 ((io1.bytes.drop
          (io1.bytes.length - s.m_nTerminatingBytes.toNat)).length : Int)
        then ERROR_UNDEFINED else ERROR_SUCCESS) = ERROR_SUCCESS := by
      rw [hlen, toSigned_32_of_range (by omega) (by omega)]
      rw [if_neg (by simp)]
    rw [hres]
    exact ⟨_, rfl⟩
  · rw [if_neg hz]
    have hz0 : s.m_nTerminatingBytes = 0 := by omega
    refine ⟨s, ?_⟩
    rw [hz0]
    simp

/-- The clamp of lines 219-220: the data never reaches past the file size. -/
theorem dataBytes_le (t : Target) (q : List Byte) (nFileBytes nHeader : Int) :
    dataBytes t q nFileBytes nHeader ≤ nFileBytes - nHeader := by
  unfold dataBytes
  dsimp only
  split_ifs with hc
  · exact le_refl _
  · omega

set_option maxRecDepth 100000 in
/-- C8 fails as stated: on a 48-byte file whose RIFF header declares 1000 bytes, `AnalyzeSource`
succeeds with 44 header bytes, 4 data bytes and 960 terminating bytes, 1008 in all; and
`GetTerminatingData`, unable to seek 960 bytes back from the end, returns `ERROR_UNDEFINED`
after reading the four data bytes themselves. -/
theorem byte_ranges_exceed_source :
    AnalyzeSource (sampleTarget .LP64) (objectOn (fileSource overDeclaredWav)) =
        .done (ERROR_SUCCESS,
          (AnalyzeSource (sampleTarget .LP64) (objectOn (fileSource overDeclaredWav))).object) ∧
      (AnalyzeSource (sampleTarget .LP64)
        (objectOn (fileSource overDeclaredWav))).object.m_nHeaderBytes = 44 ∧
      (AnalyzeSource (sampleTarget .LP64)
        (objectOn (fileSource overDeclaredWav))).object.m_nDataBytes = 4 ∧
      (AnalyzeSource (sampleTarget .LP64)
        (objectOn (fileSource overDeclaredWav))).object.m_nTerminatingBytes = 960 ∧
      (fileSource overDeclaredWav).GetSize = 48 ∧
      (Run.get ⟨0, rawObject, [], none⟩ (GetTerminatingData
        { (AnalyzeSource (sampleTarget .LP64) (objectOn (fileSource overDeclaredWav))).object with
          m_bIsValid := true })).status = ERROR_UNDEFINED ∧
      (Run.get ⟨0, rawObject, [], none⟩ (GetTerminatingData
        { (AnalyzeSource (sampleTarget .LP64) (objectOn (fileSource overDeclaredWav))).object with
          m_bIsValid := true })).stored = le32 7 := by
  decide

/-- C8, amended: after a successful `AnalyzeSource`, `m_nHeaderBytes + m_nDataBytes +
m_nTerminatingBytes` equals `m_nFileBytes`, the larger of the RIFF-declared size plus 8 and the
real size of the source. When the opening seek took effect, the RIFF header declares no more
than the source holds and `m_nDataBytes` is not negative, the sum is the real size, the data
payload lies inside the source, and `GetTerminatingData` on the valid object, with a source below
`2 ^ 31` bytes whose seek and read report no failure, succeeds and reads exactly the bytes that
follow the data payload. -/
theorem byte_ranges_partition_file_bytes (t : Target) (s s1 : CWAVInputSource) (io : CIO)
    (hio : s.m_spIO = some io) (h : AnalyzeSource t s = .done (ERROR_SUCCESS, s1)) :
    s1.m_nHeaderBytes + s1.m_nDataBytes + s1.m_nTerminatingBytes = s1.m_nFileBytes ∧
      s1.m_nFileBytes =
        ape_max (declaredFileBytes t (io.bytes.drop (seekToBegin io).pos)) io.GetSize ∧
      (io.seekFaults.headD 0 = 0 → declaredFileBytes t io.bytes ≤ io.GetSize →
        0 ≤ s1.m_nDataBytes →
        s1.m_nHeaderBytes + s1.m_nDataBytes + s1.m_nTerminatingBytes = io.GetSize ∧
        0 ≤ s1.m_nHeaderBytes ∧ s1.m_nHeaderBytes + s1.m_nDataBytes ≤ io.GetSize ∧
        0 ≤ s1.m_nTerminatingBytes ∧
        ∀ io1, s1.m_spIO = some io1 → io1.seekFaults.headD 0 = 0 →
          io1.readFaults.headD 0 = 0 → io.bytes.length < 2147483648 →
          ∃ obj, GetTerminatingData { s1 with m_bIsValid := true } =
            .done ⟨ERROR_SUCCESS, obj,
              io.bytes.drop (s1.m_nHeaderBytes + s1.m_nDataBytes).toNat, none⟩) := by
  obtain ⟨q, hR, -, -, -, -, hF, hH, hD, -, -, hT, -⟩ := AnalyzeSource_success hio h
  refine ⟨by rw [hT]; ring, hF, fun hseek hdecl hD0 => ?_⟩
  have h0 : (seekToBegin io).pos = 0 := by rw [seekToBegin_of_no_fault hseek]
  have hFs : s1.m_nFileBytes = io.GetSize := by
    rw [hF, h0, List.drop_zero]
    unfold ape_max
    rw [if_neg (by unfold CIO.GetSize at hdecl; omega)]
    rfl
  have hDle := dataBytes_le t q s1.m_nFileBytes s1.m_nHeaderBytes
  rw [← hD] at hDle
  have hH0 : 0 ≤ s1.m_nHeaderBytes := by rw [hH]; exact Int.ofNat_nonneg _
  refine ⟨by rw [hT, hFs]; ring, hH0, by omega, by omega, fun io1 hio1 hsk hrd hsize => ?_⟩
  obtain ⟨⟨io2, hio2, hB, -⟩, -⟩ := hR
  rw [hio1] at hio2
  cases hio2
  have hsz : io.GetSize = (io1.bytes.length : Int) := by rw [hB]; rfl
  obtain ⟨obj, hG⟩ := @GetTerminatingData_ok { s1 with m_bIsValid := true } io1 rfl hio1 hsk hrd
    (by dsimp only; omega) (by dsimp only; omega) (by rw [hB]; exact hsize)
  refine ⟨obj, ?_⟩
  rw [hG]
  dsimp only
  have e : io1.bytes.length - s1.m_nTerminatingBytes.toNat =
      (s1.m_nHeaderBytes + s1.m_nDataBytes).toNat := by omega
  rw [e, hB]

set_option maxRecDepth 100000 in
/-- C8, amended, at the well-formed file with a two-byte trailer: 44 + 4 + 2 = 50 bytes, and the
trailer read back is the last two bytes. -/
theorem byte_ranges_partition_file_bytes_witness :
    AnalyzeSource (sampleTarget .LP64) (objectOn (fileSource trailerWav)) =
        .done (ERROR_SUCCESS,
          (AnalyzeSource (sampleTarget .LP64) (objectOn (fileSource trailerWav))).object) ∧
      (AnalyzeSource (sampleTarget .LP64) (objectOn (fileSource trailerWav))).object.m_nFileBytes
        = 50 ∧
      (AnalyzeSource (sampleTarget .LP64)
          (objectOn (fileSource trailerWav))).object.m_nHeaderBytes +
        (AnalyzeSource (sampleTarget .LP64)
          (objectOn (fileSource trailerWav))).object.m_nDataBytes +
        (AnalyzeSource (sampleTarget .LP64)
          (objectOn (fileSource trailerWav))).object.m_nTerminatingBytes =
        (AnalyzeSource (sampleTarget .LP64)
          (objectOn (fileSource trailerWav))).object.m_nFileBytes ∧
      (declaredFileBytes (sampleTarget .LP64) (fileSource trailerWav).bytes ≤
          (fileSource trailerWav).GetSize ∧
        0 ≤ (AnalyzeSource (sampleTarget .LP64)
          (objectOn (fileSource trailerWav))).object.m_nDataBytes ∧
        (AnalyzeSource (sampleTarget .LP64)
          (objectOn (fileSource trailerWav))).object.m_nTerminatingBytes = 2 ∧
        (Run.get ⟨0, rawObject, [], none⟩ (GetTerminatingData
          { (AnalyzeSource (sampleTarget .LP64) (objectOn (fileSource trailerWav))).object with
            m_bIsValid := true })).status = ERROR_SUCCESS ∧
        (Run.get ⟨0, rawObject, [], none⟩ (GetTerminatingData
          { (AnalyzeSource (sampleTarget .LP64) (objectOn (fileSource trailerWav))).object with
            m_bIsValid := true })).stored = le16 513) :=
  ⟨by decide, by decide,
    (byte_ranges_partition_file_bytes (sampleTarget .LP64) (objectOn (fileSource trailerWav))
      (AnalyzeSource (sampleTarget .LP64) (objectOn (fileSource trailerWav))).object
      (fileSource trailerWav) rfl (by decide)).1, by decide⟩

/-! ## The block count -/

/-- After a successful `AnalyzeSource` the data is a whole number of blocks: the `int64`
quotient `m_nDataBytes / nBlockAlign`, before it is narrowed to `int`, times `nBlockAlign` is
`m_nDataBytes`. -/
theorem AnalyzeSource_whole_blocks {t : Target} {s s1 : CWAVInputSource} {io : CIO}
    (hio : s.m_spIO = some io) (h : AnalyzeSource t s = .done (ERROR_SUCCESS, s1)) :
    s1.m_wfeSource.nBlockAlign ≠ 0 ∧
      s1.m_nDataBytes.tdiv s1.m_wfeSource.nBlockAlign * s1.m_wfeSource.nBlockAlign =
        s1.m_nDataBytes := by
  obtain ⟨q, -, -, -, -, -, -, -, -, hA, hM, -, -⟩ := AnalyzeSource_success hio h
  refine ⟨hA, ?_⟩
  have := Int.tmod_add_tdiv s1.m_nDataBytes s1.m_wfeSource.nBlockAlign
  rw [hM] at this
  rw [mul_comm]
  omega

set_option maxRecDepth 100000 in
/-- C10, evaluated at an 8-bit mono file (block alignment 1) of 48 bytes whose RIFF header
declares `0xFFFFFFF0` bytes and whose `data` chunk declares `0x80000000` bytes: on each of the
three data models the constructor succeeds (`ERROR_SUCCESS`) and stores `-2147483648` through
`pTotalBlocks`, a negative block count. With a 32-bit `unsigned long` `m_nDataBytes` is
`2 ^ 31` and the quotient is lost in the conversion to `int`; on LP64 `m_nDataBytes` itself is
`-2 ^ 31`. -/
theorem total_blocks_negative :
    (∃ inst o1, CWAVInputSource.fromIO (sampleTarget .ILP32) rawObject
        (some (fileSource hugeDeclaredWav)) allOutputs = .done (inst, o1) ∧
      inst.m_bIsValid = true ∧ o1.pErrorCode = some ERROR_SUCCESS ∧
      o1.pTotalBlocks = some (-2147483648) ∧ inst.m_nDataBytes = 2147483648 ∧
      inst.m_wfeSource.nBlockAlign = 1) ∧
    (∃ inst o1, CWAVInputSource.fromIO (sampleTarget .LLP64) rawObject
        (some (fileSource hugeDeclaredWav)) allOutputs = .done (inst, o1) ∧
      inst.m_bIsValid = true ∧ o1.pErrorCode = some ERROR_SUCCESS ∧
      o1.pTotalBlocks = some (-2147483648) ∧ inst.m_nDataBytes = 2147483648 ∧
      inst.m_wfeSource.nBlockAlign = 1) ∧
    (∃ inst o1, CWAVInputSource.fromIO (sampleTarget .LP64) rawObject
        (some (fileSource hugeDeclaredWav)) allOutputs = .done (inst, o1) ∧
      inst.m_bIsValid = true ∧ o1.pErrorCode = some ERROR_SUCCESS ∧
      o1.pTotalBlocks = some (-2147483648) ∧ inst.m_nDataBytes = -2147483648 ∧
      inst.m_wfeSource.nBlockAlign = 1) :=
  ⟨⟨(Run.get (rawObject, allOutputs) (CWAVInputSource.fromIO (sampleTarget .ILP32) rawObject
        (some (fileSource hugeDeclaredWav)) allOutputs)).1,
      (Run.get (rawObject, allOutputs) (CWAVInputSource.fromIO (sampleTarget .ILP32) rawObject
        (some (fileSource hugeDeclaredWav)) allOutputs)).2, by decide⟩,
    ⟨(Run.get (rawObject, allOutputs) (CWAVInputSource.fromIO (sampleTarget .LLP64) rawObject
        (some (fileSource hugeDeclaredWav)) allOutputs)).1,
      (Run.get (rawObject, allOutputs) (CWAVInputSource.fromIO (sampleTarget .LLP64) rawObject
        (some (fileSource hugeDeclaredWav)) allOutputs)).2, by decide⟩,
    ⟨(Run.get (rawObject, allOutputs) (CWAVInputSource.fromIO (sampleTarget .LP64) rawObject
        (some (fileSource hugeDeclaredWav)) allOutputs)).1,
      (Run.get (rawObject, allOutputs) (CWAVInputSource.fromIO (sampleTarget .LP64) rawObject
        (some (fileSource hugeDeclaredWav)) allOutputs)).2, by decide⟩⟩

/-! ## Truncated sources -/

/-- The read statement on a source whose next read is not scheduled to fail, spelled out. -/
theorem readAtP_no_fault {t : Target} {n : Nat} {s : CWAVInputSource} {io : CIO}
    (hio : s.m_spIO = some io) (hf : io.readFaults.headD 0 = 0) :
    readAtP t n s =
      if s.m_sFullHeader.length + ((io.bytes.drop io.pos).take n).length > t.fullHeaderSize then
        .undefined
      else if ((io.bytes.drop io.pos).take n).length ≠ n then
        .ret t.readSafeShort
          { s with
            m_spIO := some { io with readFaults := io.readFaults.tail,
                                     pos := io.pos + ((io.bytes.drop io.pos).take n).length }
            m_sFullHeader := s.m_sFullHeader ++ (io.bytes.drop io.pos).take n }
      else
        .next ((io.bytes.drop io.pos).take n)
          { s with
            m_spIO := some { io with readFaults := io.readFaults.tail,
                                     pos := io.pos + ((io.bytes.drop io.pos).take n).length }
            m_sFullHeader := s.m_sFullHeader ++ (io.bytes.drop io.pos).take n } := by
  have hR : ReadSafe t io n =
      (if ((io.bytes.drop io.pos).take n).length ≠ n then t.readSafeShort else ERROR_SUCCESS,
        (io.bytes.drop io.pos).take n,
        { io with readFaults := io.readFaults.tail,
                  pos := io.pos + ((io.bytes.drop io.pos).take n).length }) := by
    unfold ReadSafe
    rw [ CIO.Read_of_no_fault n hf]
    dsimp only
    rw [if_neg (not_not.mpr rfl)]
    split_ifs <;> rfl
  unfold readAtP
  rw [hio]
  dsimp only
  rw [hR]
  dsimp only
  by_cases h1 : s.m_sFullHeader.length + ((io.bytes.drop io.pos).take n).length >
      t.fullHeaderSize
  · rw [if_pos h1, if_pos h1]
  · rw [if_neg h1, if_neg h1]
    by_cases h2 : ((io.bytes.drop io.pos).take n).length ≠ n
    · rw [if_pos h2, if_pos h2, if_pos t.readSafeShort_ne]
    · rw [if_neg h2, if_neg h2, if_neg (not_not.mpr rfl)]

theorem InSync.mono_sync {B : List Byte} {k lo lo1 : Nat} {s sT : CWAVInputSource}
    (h : InSync B k lo1 s sT) (hl : lo ≤ lo1) : InSync B k lo s sT := by
  obtain ⟨io, ioT, h1, h2, h3, h4, h5, h6, h7, h8⟩ := h
  exact ⟨io, ioT, h1, h2, h3, h4, h5, h6, le_trans hl h7, h8⟩

theorem Truncation.next {short : Int} {B : List Byte} {k lo : Nat} {α : Type} (a : α)
    {s sT : CWAVInputSource} (h : InSync B k lo s sT) :
    Truncation short B k lo (Flow.next a s) (Flow.next a sT) :=
  Or.inr (Or.inr (Or.inr (Or.inl ⟨a, s, sT, rfl, rfl, h⟩)))

theorem Truncation.ret {short : Int} {B : List Byte} {k lo lo1 : Nat} {α : Type} (c : Int)
    {s sT : CWAVInputSource} (h : InSync B k lo1 s sT) :
    Truncation short B k lo (Flow.ret c s : Flow α) (Flow.ret c sT) :=
  Or.inr (Or.inr (Or.inr (Or.inr ⟨c, s, sT, rfl, rfl, h.mono_sync (Nat.zero_le _)⟩)))

theorem InSync.fuel {B : List Byte} {k lo : Nat} {s sT : CWAVInputSource}
    (h : InSync B k lo s sT) : (k - lo) / 8 < loopFuel sT ∧ lo ≤ k := by
  obtain ⟨io, ioT, hio, hioT, hB, hBT, hrf, hpos, hlo, hk, hkB, hhdr⟩ := h
  unfold loopFuel
  rw [hioT]
  dsimp only
  rw [hBT, List.length_take, Nat.min_eq_left hkB]
  omega

/-- Lines 132-134 spelled out: the seek to the beginning moves the source to offset 0 unless it
is scheduled to fail, and then the source stays where it stands. -/
theorem seekToBegin_eq (io : CIO) :
    seekToBegin io =
      { io with seekMethod := APE_FILE_BEGIN, seekPosition := 0,
                seekFaults := io.seekFaults.tail,
                pos := if io.seekFaults.headD 0 = 0 then 0 else io.pos } := by
  by_cases h : io.seekFaults.headD 0 = 0
  · rw [seekToBegin_of_no_fault h, if_pos h]
  · rw [if_neg h]
    unfold seekToBegin CIO.PerformSeek CIO.SetSeekPosition CIO.SetSeekMethod
    dsimp only
    rw [if_pos h]

/-- The block alignment `FillWaveFormatEx` stores is a 16-bit value. -/
theorem FillWaveFormatEx_nBlockAlign_range (nSampleRate nBitsPerSample nChannels : Int) :
    0 ≤ (FillWaveFormatEx nSampleRate nBitsPerSample nChannels).nBlockAlign ∧
      (FillWaveFormatEx nSampleRate nBitsPerSample nChannels).nBlockAlign < 65536 := by
  unfold FillWaveFormatEx toUnsigned
  dsimp only
  exact ⟨Int.emod_nonneg _ (by norm_num), Int.emod_lt_of_pos _ (by norm_num)⟩

/-- After a successful `AnalyzeSource` the wave format is the one `FillWaveFormatEx` made of a
format header `r` with a supported tag, and the source is still attached with its content. -/
theorem AnalyzeSource_format {t : Target} {s s1 : CWAVInputSource} {io : CIO}
    (hio : s.m_spIO = some io) (h : AnalyzeSource t s = .done (ERROR_SUCCESS, s1)) :
    (∃ r, s1.m_wfeSource =
        FillWaveFormatEx (toSigned 32 (UCHAR_TO_ULONG_LE t.dataModel (r.drop 4)))
          (UCHAR_TO_USHORT_LE (r.drop 14)) (UCHAR_TO_USHORT_LE (r.drop 2)) ∧
      (UCHAR_TO_USHORT_LE r = 1 ∨ UCHAR_TO_USHORT_LE r = 65534)) ∧
    ∃ io1, s1.m_spIO = some io1 ∧ io1.bytes = io.bytes := by
  obtain ⟨q, ⟨⟨io1, e1, e2, -⟩, -⟩, -⟩ := AnalyzeSource_success hio h
  refine ⟨?_, io1, e1, e2⟩
  unfold AnalyzeSource at h
  cases hflow : (readHeaders t s).andThen (computeSizes t) with
  | undefined => rw [hflow] at h; simp [Flow.toRun] at h
  | outOfFuel => rw [hflow] at h; simp [Flow.toRun] at h
  | ret e s2 =>
    rw [hflow] at h
    simp only [Flow.toRun, Run.done.injEq, Prod.mk.injEq] at h
    exfalso
    rcases Flow.andThen_eq_ret hflow with h1 | ⟨_, _, -, h1⟩
    · exact readHeaders_ret h1 h.1
    · exact computeSizes_ret h1 h.1
  | next c s2 =>
    rw [hflow] at h
    simp only [Flow.toRun, Run.done.injEq, Prod.mk.injEq] at h
    obtain ⟨-, rfl⟩ := h
    obtain ⟨q, sq, hq, hc⟩ := Flow.andThen_eq_next hflow
    unfold readHeaders at hq
    obtain ⟨⟨n, r⟩, sf, hf, hd⟩ := Flow.andThen_eq_next hq
    obtain ⟨i4, -⟩ := readFormatHeader_next hio hf
    obtain ⟨-, -, -, htag, -, hw, -⟩ := findDataChunk_next i4 hd
    obtain ⟨-, -, -, c3, -⟩ := computeSizes_next hc
    exact ⟨r, by rw [c3, hw], htag⟩

/-- An object `AnalyzeSource` has accepted has a positive 16-bit block alignment. -/
theorem AnalyzeSource_nBlockAlign {t : Target} {s s1 : CWAVInputSource} {io : CIO}
    (hio : s.m_spIO = some io) (h : AnalyzeSource t s = .done (ERROR_SUCCESS, s1)) :
    0 < s1.m_wfeSource.nBlockAlign ∧ s1.m_wfeSource.nBlockAlign < 65536 := by
  obtain ⟨⟨r, hw, -⟩, -⟩ := AnalyzeSource_format hio h
  have hne := (AnalyzeSource_success hio h).choose_spec.2.2.2.2.2.2.2.2.1
  have hr := FillWaveFormatEx_nBlockAlign_range
    (toSigned 32 (UCHAR_TO_ULONG_LE t.dataModel (r.drop 4)))
    (UCHAR_TO_USHORT_LE (r.drop 14)) (UCHAR_TO_USHORT_LE (r.drop 2))
  rw [← hw] at hr
  exact ⟨lt_of_le_of_ne hr.1 (Ne.symm hne), hr.2⟩

/-- What a constructor call that ran `AnalyzeSource` on the source `io` leaves when the object
comes out valid: the source attached, its content untouched, and a positive 16-bit block
alignment. -/
theorem analyzeAndReport_valid {t : Target} {s inst : CWAVInputSource} {o o1 : OutParams}
    {io : CIO} (hv : s.m_bIsValid = false) (hio : s.m_spIO = some io)
    (h : analyzeAndReport t s o = .done (inst, o1)) (hval : inst.m_bIsValid = true) :
    (∃ io1, inst.m_spIO = some io1 ∧ io1.bytes = io.bytes) ∧
      0 < inst.m_wfeSource.nBlockAlign ∧ inst.m_wfeSource.nBlockAlign < 65536 := by
  obtain ⟨c, s1, hA, -, hiff, hinst⟩ := analyzeAndReport_done hv h
  have hc := hiff.mp hval
  subst hc
  rw [hinst rfl]
  exact ⟨(AnalyzeSource_format hio hA).2, (AnalyzeSource_nBlockAlign hio hA : _)⟩

/-- A valid object is one a constructor built on a source it could analyse: whichever
constructor made it, the source is attached and the block alignment is a positive 16-bit
value. -/
theorem constructed_valid (t : Target) (fs : String → Option CIO) (mem inst : CWAVInputSource)
    (o o1 : OutParams) (hval : inst.m_bIsValid = true) :
    (∀ pIO, CWAVInputSource.fromIO t mem pIO o = .done (inst, o1) →
      inst.m_spIO.isSome = true ∧ 0 < inst.m_wfeSource.nBlockAlign ∧
        inst.m_wfeSource.nBlockAlign < 65536) ∧
    (∀ pSourceName, CWAVInputSource.fromName t fs mem pSourceName o = .done (inst, o1) →
      inst.m_spIO.isSome = true ∧ 0 < inst.m_wfeSource.nBlockAlign ∧
        inst.m_wfeSource.nBlockAlign < 65536) := by
  constructor
  · intro pIO h
    unfold CWAVInputSource.fromIO at h
    dsimp only at h
    split_ifs at h with hp
    · simp only [Run.done.injEq, Prod.mk.injEq] at h
      rw [← h.1] at hval
      exact absurd hval Bool.false_ne_true
    · cases pIO with
      | none => exact absurd (Or.inl rfl) hp
      | some io =>
        obtain ⟨⟨io1, e1, -⟩, e2⟩ := @analyzeAndReport_valid t _ _ _ _ io rfl rfl h hval
        exact ⟨by rw [e1]; rfl, e2⟩
  · intro pSourceName h
    unfold CWAVInputSource.fromName at h
    cases pSourceName with
    | none =>
      simp only [Run.done.injEq, Prod.mk.injEq] at h
      rw [← h.1] at hval
      exact absurd hval Bool.false_ne_true
    | some name =>
      dsimp only at h
      split_ifs at h with hp
      · simp only [Run.done.injEq, Prod.mk.injEq] at h
        rw [← h.1] at hval
        exact absurd hval Bool.false_ne_true
      · cases hO : openSource fs name with
        | none =>
          rw [hO] at h
          simp only [Run.done.injEq, Prod.mk.injEq] at h
          rw [← h.1] at hval
          exact absurd hval Bool.false_ne_true
        | some io =>
          rw [hO] at h
          obtain ⟨⟨io1, e1, -⟩, e2⟩ := @analyzeAndReport_valid t _ _ _ _ io rfl rfl h hval
          exact ⟨by rw [e1]; rfl, e2⟩

/-! ## Reading data -/

/-- C11: on a valid object (marked valid, the source attached, the block alignment positive, as
`constructed_valid` shows the constructors leave it), for `nBlocks ≥ 0` with
`nBlockAlign * nBlocks` below `2 ^ 31`, `GetData` returns. Its status is `ERROR_IO_READ` exactly
when the `Read` of `nBlockAlign * nBlocks` bytes reports failure, and then `*pBlocksRetrieved`
is left alone. Otherwise the status is `ERROR_SUCCESS`, the buffer receives the bytes from the
read position on, and `*pBlocksRetrieved` is the floor of the bytes read over `nBlockAlign`,
which is at most `nBlocks`; when the source has fewer bytes left than were asked for, the call
delivers all of them and the count is below `nBlocks`, still with `ERROR_SUCCESS`. -/
theorem GetData_partial_fill (s : CWAVInputSource) (io : CIO) (nBlocks : Int)
    (pBlocksRetrieved : Option Int) (hv : s.m_bIsValid = true) (hio : s.m_spIO = some io)
    (ha : 0 < s.m_wfeSource.nBlockAlign) (hn : 0 ≤ nBlocks)
    (hrep : s.m_wfeSource.nBlockAlign * nBlocks < 2 ^ 31) :
    ∃ a, GetData s nBlocks pBlocksRetrieved = .done a ∧
      (a.status = ERROR_IO_READ ↔
        (io.Read (s.m_wfeSource.nBlockAlign * nBlocks).toNat).1 ≠ ERROR_SUCCESS) ∧
      ((io.Read (s.m_wfeSource.nBlockAlign * nBlocks).toNat).1 ≠ ERROR_SUCCESS →
        a.pBlocksRetrieved = pBlocksRetrieved) ∧
      ((io.Read (s.m_wfeSource.nBlockAlign * nBlocks).toNat).1 = ERROR_SUCCESS →
        a.status = ERROR_SUCCESS ∧
        a.stored = (io.bytes.drop io.pos).take (s.m_wfeSource.nBlockAlign * nBlocks).toNat ∧
        a.pBlocksRetrieved =
          store pBlocksRetrieved ((a.stored.length : Int) / s.m_wfeSource.nBlockAlign) ∧
        (a.stored.length : Int) / s.m_wfeSource.nBlockAlign ≤ nBlocks ∧
        (((io.bytes.length - io.pos : Nat) : Int) < s.m_wfeSource.nBlockAlign * nBlocks →
          a.stored = io.bytes.drop io.pos ∧
          (a.stored.length : Int) / s.m_wfeSource.nBlockAlign < nBlocks)) := by
  have hprod : 0 ≤ s.m_wfeSource.nBlockAlign * nBlocks := Int.mul_nonneg ha.le hn
  have h31 : (2 : Int) ^ 31 = 2147483648 := by norm_num
  rw [h31] at hrep
  have e1 : toSigned 32 (s.m_wfeSource.nBlockAlign * nBlocks) =
      s.m_wfeSource.nBlockAlign * nBlocks := toSigned_32_of_range (by omega) hrep
  have e2 : toUnsigned 32 (s.m_wfeSource.nBlockAlign * nBlocks) =
      s.m_wfeSource.nBlockAlign * nBlocks := toUnsigned_32_of_range hprod hrep
  have hne : s.m_wfeSource.nBlockAlign ≠ 0 := ne_of_gt ha
  unfold GetData
  rw [hv, hio]
  dsimp only
  rw [e1, e2]
  by_cases hr : (io.Read (s.m_wfeSource.nBlockAlign * nBlocks).toNat).1 = ERROR_SUCCESS
  · have hR := CIO.Read_ok hr
    rw [hR]
    simp only [Bool.not_true, Bool.false_eq_true, if_false, ne_eq, not_true_eq_false, hne, and_false]
    generalize hL : (List.take (s.m_wfeSource.nBlockAlign * nBlocks).toNat
      (List.drop io.pos io.bytes)) = got
    have hlen : got.length = min (s.m_wfeSource.nBlockAlign * nBlocks).toNat
        (io.bytes.length - io.pos) := by
      rw [← hL, List.length_take, List.length_drop]
    have hle : (got.length : Int) ≤ s.m_wfeSource.nBlockAlign * nBlocks := by omega
    have hq0 : 0 ≤ (got.length : Int) / s.m_wfeSource.nBlockAlign :=
      Int.ediv_nonneg (Int.ofNat_nonneg _) ha.le
    have hqN : (got.length : Int) / s.m_wfeSource.nBlockAlign ≤ nBlocks := by
      have := Int.ediv_le_ediv ha hle
      rwa [Int.mul_ediv_cancel_left _ hne] at this
    have hNle : nBlocks ≤ s.m_wfeSource.nBlockAlign * nBlocks := by nlinarith
    have hdiv : (got.length : Int).tdiv s.m_wfeSource.nBlockAlign =
        (got.length : Int) / s.m_wfeSource.nBlockAlign :=
      Int.tdiv_eq_ediv (Int.ofNat_nonneg _) ha.le
    rw [hdiv, toSigned_32_of_range (by omega) (by omega)]
    refine ⟨_, rfl, ⟨fun h => absurd (show ERROR_SUCCESS = ERROR_IO_READ from h) (by decide), False.elim⟩, False.elim, fun _ =>
      ⟨rfl, rfl, rfl, hqN, fun hshort => ⟨?_, ?_⟩⟩⟩
    · rw [← hL]
      exact List.take_of_length_le (by rw [List.length_drop]; omega)
    · exact Int.ediv_lt_of_lt_mul ha (by
        have : (got.length : Int) = ((io.bytes.length - io.pos : Nat) : Int) := by omega
        rw [this, Int.mul_comm]; exact hshort)
  · rw [if_neg (by simp), if_pos hr]
    exact ⟨_, rfl, ⟨fun _ => hr, fun _ => rfl⟩, fun _ => rfl, fun h => absurd h hr⟩

set_option maxRecDepth 100000 in
/-- C11 at the object built on the well-formed mono file (block alignment 2, four data bytes
left): five blocks are asked for, the four bytes left are delivered as two blocks. -/
theorem GetData_partial_fill_witness :
    (builtOn .LP64 (fileSource monoWav)).m_wfeSource.nBlockAlign = 2 ∧
      (Run.get ⟨0, rawObject, [], none⟩
        (GetData (builtOn .LP64 (fileSource monoWav)) 5 (some 0))).pBlocksRetrieved = some 2 ∧
      ∃ a, GetData (builtOn .LP64 (fileSource monoWav)) 5 (some 0) = .done a ∧
        (a.status = ERROR_IO_READ ↔
          ( CIO.Read { fileSource monoWav with pos := 44 }
            ((builtOn .LP64 (fileSource monoWav)).m_wfeSource.nBlockAlign * 5).toNat).1 ≠
              ERROR_SUCCESS) ∧
        (( CIO.Read { fileSource monoWav with pos := 44 }
            ((builtOn .LP64 (fileSource monoWav)).m_wfeSource.nBlockAlign * 5).toNat).1 ≠
              ERROR_SUCCESS →
          a.pBlocksRetrieved = some 0) ∧
        (( CIO.Read { fileSource monoWav with pos := 44 }
            ((builtOn .LP64 (fileSource monoWav)).m_wfeSource.nBlockAlign * 5).toNat).1 =
              ERROR_SUCCESS →
          a.status = ERROR_SUCCESS ∧
          a.stored = (({ fileSource monoWav with pos := 44 } : CIO).bytes.drop
              ({ fileSource monoWav with pos := 44 } : CIO).pos).take
            ((builtOn .LP64 (fileSource monoWav)).m_wfeSource.nBlockAlign * 5).toNat ∧
          a.pBlocksRetrieved = store (some 0)
            ((a.stored.length : Int) / (builtOn .LP64 (fileSource monoWav)).m_wfeSource.nBlockAlign) ∧
          (a.stored.length : Int) / (builtOn .LP64 (fileSource monoWav)).m_wfeSource.nBlockAlign
            ≤ 5 ∧
          ((((({ fileSource monoWav with pos := 44 } : CIO).bytes.length -
                ({ fileSource monoWav with pos := 44 } : CIO).pos : Nat) : Int) <
              (builtOn .LP64 (fileSource monoWav)).m_wfeSource.nBlockAlign * 5) →
            a.stored = ({ fileSource monoWav with pos := 44 } : CIO).bytes.drop
              ({ fileSource monoWav with pos := 44 } : CIO).pos ∧
            (a.stored.length : Int) /
              (builtOn .LP64 (fileSource monoWav)).m_wfeSource.nBlockAlign < 5)) :=
  ⟨by decide, by decide,
    GetData_partial_fill (builtOn .LP64 (fileSource monoWav)) { fileSource monoWav with pos := 44 }
      5 (some 0) (by decide) (by decide) (by decide) (by decide) (by decide)⟩

/-! ## The trailer -/

theorem CIO.PerformSeek_frame (io : CIO) :
    io.PerformSeek.2.bytes = io.bytes ∧ io.PerformSeek.2.seekFaults = io.seekFaults.tail ∧
      io.PerformSeek.2.readFaults = io.readFaults := by
  unfold CIO.PerformSeek
  dsimp only
  split_ifs <;> exact ⟨rfl, rfl, rfl⟩

theorem CIO.Read_frame (io : CIO) (n : Nat) :
    (io.Read n).2.2.bytes = io.bytes ∧ (io.Read n).2.2.seekFaults = io.seekFaults ∧
      (io.Read n).2.2.readFaults = io.readFaults.tail := by
  unfold CIO.Read
  dsimp only
  split_ifs <;> exact ⟨rfl, rfl, rfl⟩

/-- A seek from the beginning to a position taken from `GetPosition` that reports no failure
puts the source there. -/
theorem CIO.PerformSeek_begin (io : CIO) (p : Nat) (h : io.seekFaults.headD 0 = 0) :
    ((io.SetSeekMethod APE_FILE_BEGIN).SetSeekPosition (p : Int)).PerformSeek.2.pos = p := by
  unfold CIO.PerformSeek CIO.SetSeekPosition CIO.SetSeekMethod
  dsimp only
  rw [if_neg (not_not.mpr h)]
  have ht : CIO.seekTarget
      { bytes := io.bytes, pos := io.pos, seekMethod := APE_FILE_BEGIN, seekPosition := (p : Int),
        readFaults := io.readFaults, seekFaults := io.seekFaults.tail } = (p : Int) := by
    unfold CIO.seekTarget
    dsimp only
    rw [if_neg (by decide), if_neg (by decide)]
  rw [ht, if_neg (by omega)]
  exact Int.toNat_natCast p

/-- C12: when the seek back to the original position (the second `PerformSeek` of the call)
reports no failure, `GetTerminatingData` returns with `ERROR_SUCCESS` or `ERROR_UNDEFINED` and in
either case leaves the object as it was except for the source, whose read position and content
are those before the call. -/
theorem GetTerminatingData_restores_position (s : CWAVInputSource) (io : CIO)
    (hio : s.m_spIO = some io) (hseek : io.seekFaults.tail.headD 0 = 0) :
    ∃ a io2, GetTerminatingData s = .done a ∧
      (a.status = ERROR_SUCCESS ∨ a.status = ERROR_UNDEFINED) ∧
      a.object = { s with m_spIO := some io2 } ∧
      io2.GetPosition = io.GetPosition ∧ io2.bytes = io.bytes := by
  unfold GetTerminatingData
  by_cases hv : s.m_bIsValid = true
  swap
  · rw [Bool.not_eq_true] at hv
    rw [hv]
    exact ⟨_, io, rfl, Or.inr rfl, by rw [← hio, ← hv], rfl, rfl⟩
  rw [hv]
  simp only [Bool.not_true, Bool.false_eq_true, if_false]
  by_cases hT : s.m_nTerminatingBytes > 0
  swap
  · rw [if_neg hT]
    exact ⟨_, io, rfl, Or.inl rfl, by rw [← hio, ← hv], rfl, rfl⟩
  rw [if_pos hT, hio]
  dsimp only
  generalize hio1 : ((io.SetSeekMethod APE_FILE_END).SetSeekPosition
    (-s.m_nTerminatingBytes)).PerformSeek.2 = io1
  have f1 := CIO.PerformSeek_frame
    ((io.SetSeekMethod APE_FILE_END).SetSeekPosition (-s.m_nTerminatingBytes))
  rw [hio1] at f1
  have f2 := CIO.Read_frame io1 (toUnsigned 32 s.m_nTerminatingBytes).toNat
  generalize hr : io1.Read (toUnsigned 32 s.m_nTerminatingBytes).toNat = r at f2
  have hsf : r.2.2.seekFaults.headD 0 = 0 := by
    rw [f2.2.1, f1.2.1]
    exact hseek
  have hpos := CIO.PerformSeek_begin r.2.2 io.pos hsf
  have f3 := CIO.PerformSeek_frame
    ((r.2.2.SetSeekMethod APE_FILE_BEGIN).SetSeekPosition io.GetPosition)
  refine ⟨_, _, rfl, ?_, rfl, ?_, ?_⟩
  · dsimp only
    split_ifs
    · exact Or.inr rfl
    · exact Or.inl rfl
  · unfold CIO.GetPosition
    exact congrArg Nat.cast hpos
  · rw [f3.1]
    exact f2.1.trans f1.1

set_option maxRecDepth 100000 in
/-- C12 at the object built on the file with a two-byte trailer: the trailer is read and the
source is back at offset 44; and when the read of the trailer fails, the call returns
`ERROR_UNDEFINED` with the source at offset 44 all the same. -/
theorem GetTerminatingData_restores_position_witness :
    (Run.get ⟨0, rawObject, [], none⟩
        (GetTerminatingData (builtOn .LP64 (fileSource trailerWav)))).stored = le16 513 ∧
      (Run.get ⟨0, rawObject, [], none⟩ (GetTerminatingData
        (builtOn .LP64 (withReadFaults (fileSource trailerWav)
          [0, 0, 0, 0, 0, 0, ERROR_IO_READ])))).status = ERROR_UNDEFINED ∧
      (∃ a io2, GetTerminatingData (builtOn .LP64 (fileSource trailerWav)) = .done a ∧
        (a.status = ERROR_SUCCESS ∨ a.status = ERROR_UNDEFINED) ∧
        a.object = { builtOn .LP64 (fileSource trailerWav) with m_spIO := some io2 } ∧
        io2.GetPosition = ({ fileSource trailerWav with pos := 44 } : CIO).GetPosition ∧
        io2.bytes = ({ fileSource trailerWav with pos := 44 } : CIO).bytes) ∧
      ∃ a io2, GetTerminatingData (builtOn .LP64 (withReadFaults (fileSource trailerWav)
          [0, 0, 0, 0, 0, 0, ERROR_IO_READ])) = .done a ∧
        (a.status = ERROR_SUCCESS ∨ a.status = ERROR_UNDEFINED) ∧
        a.object = { builtOn .LP64 (withReadFaults (fileSource trailerWav)
          [0, 0, 0, 0, 0, 0, ERROR_IO_READ]) with m_spIO := some io2 } ∧
        io2.GetPosition =
          ({ withReadFaults (fileSource trailerWav) [ERROR_IO_READ] with pos := 44 } : CIO).GetPosition ∧
        io2.bytes =
          ({ withReadFaults (fileSource trailerWav) [ERROR_IO_READ] with pos := 44 } : CIO).bytes :=
  ⟨by decide, by decide,
    GetTerminatingData_restores_position (builtOn .LP64 (fileSource trailerWav))
      { fileSource trailerWav with pos := 44 } (by decide) (by decide),
    GetTerminatingData_restores_position
      (builtOn .LP64 (withReadFaults (fileSource trailerWav) [0, 0, 0, 0, 0, 0, ERROR_IO_READ]))
      { withReadFaults (fileSource trailerWav) [ERROR_IO_READ] with pos := 44 }
      (by decide) (by decide)⟩

/-! ## Failures of the source -/

theorem ReadsSucceeded.refl_reads (l : List Int) : ReadsSucceeded l l :=
  ⟨[], rfl, fun _ h => absurd h (List.not_mem_nil _)⟩

/-- One more read that reports success. -/
theorem ReadsSucceeded.step {l l1 : List Int} (h : ReadsSucceeded l l1)
    (h0 : l1.headD 0 = 0) : ReadsSucceeded l l1.tail := by
  obtain ⟨used, e, hz⟩ := h
  cases l1 with
  | nil => exact ⟨used, e, hz⟩
  | cons c rest =>
    refine ⟨used ++ [c], by rw [e]; simp, fun x hx => ?_⟩
    rcases List.mem_append.mp hx with hx | hx
    · exact hz x hx
    · rw [List.mem_singleton.mp hx]
      exact h0

/-- A read statement that falls through made a read that reported success. -/
theorem readAtP_reads {t : Target} {n : Nat} {s s1 : CWAVInputSource} {p : List Byte}
    {l : List Int} (h : readAtP t n s = .next p s1)
    (hs : ∃ io, s.m_spIO = some io ∧ ReadsSucceeded l io.readFaults) :
    ∃ io1, s1.m_spIO = some io1 ∧ ReadsSucceeded l io1.readFaults := by
  obtain ⟨io, hio, hl⟩ := hs
  have h0 : io.readFaults.headD 0 = 0 := by
    unfold readAtP at h
    simp only [hio] at h
    split_ifs at h with h1 h2
    have h3 : (ReadSafe t io n).1 = ERROR_SUCCESS := not_not.mp h2
    unfold ReadSafe at h3
    dsimp only at h3
    by_contra hf
    rw [ CIO.Read_of_fault n hf] at h3
    dsimp only at h3
    rw [if_pos (show io.readFaults.headD 0 ≠ ERROR_SUCCESS from hf)] at h3
    exact hf h3
  obtain ⟨io', hio', -, -, -, hs1⟩ := readAtP_next h
  rw [hio] at hio'
  cases hio'
  rw [hs1]
  exact ⟨_, rfl, hl.step h0⟩

theorem findChunk_reads {t : Target} {l : List Int} (a b c d : Char) :
    ∀ (fuel : Nat) (p q : List Byte) (s s1 : CWAVInputSource),
      (∃ io, s.m_spIO = some io ∧ ReadsSucceeded l io.readFaults) →
      findChunk t a b c d fuel p s = .next q s1 →
      ∃ io1, s1.m_spIO = some io1 ∧ ReadsSucceeded l io1.readFaults
  | 0, p, q, s, s1, _, h => by simp [findChunk] at h
  | fuel + 1, p, q, s, s1, hs, h => by
    unfold findChunk at h
    split_ifs at h with hl
    · simp only [Flow.next.injEq] at h
      rw [← h.2]
      exact hs
    · obtain ⟨x, sx, hx, h⟩ := Flow.andThen_eq_next h
      obtain ⟨y, sy, hy, h⟩ := Flow.andThen_eq_next h
      exact findChunk_reads a b c d fuel y q sy s1 (readAtP_reads hy (readAtP_reads hx hs)) h

theorem seekToBegin_readFaults (io : CIO) : (seekToBegin io).readFaults = io.readFaults := by
  unfold seekToBegin CIO.PerformSeek
  dsimp only
  split_ifs <;> rfl

/-- Every read of a run of `AnalyzeSource` that returns `ERROR_SUCCESS` reported success. -/
theorem AnalyzeSource_reads {t : Target} {s s1 : CWAVInputSource} {io : CIO}
    (hio : s.m_spIO = some io) (h : AnalyzeSource t s = .done (ERROR_SUCCESS, s1)) :
    ∃ io1, s1.m_spIO = some io1 ∧ ReadsSucceeded io.readFaults io1.readFaults := by
  unfold AnalyzeSource at h
  cases hflow : (readHeaders t s).andThen (computeSizes t) with
  | undefined => rw [hflow] at h; simp [Flow.toRun] at h
  | outOfFuel => rw [hflow] at h; simp [Flow.toRun] at h
  | ret e s2 =>
    rw [hflow] at h
    simp only [Flow.toRun, Run.done.injEq, Prod.mk.injEq] at h
    exfalso
    rcases Flow.andThen_eq_ret hflow with h1 | ⟨_, _, -, h1⟩
    · exact readHeaders_ret h1 h.1
    · exact computeSizes_ret h1 h.1
  | next c s2 =>
    rw [hflow] at h
    simp only [Flow.toRun, Run.done.injEq, Prod.mk.injEq] at h
    obtain ⟨-, rfl⟩ := h
    obtain ⟨q, sq, hq, hc⟩ := Flow.andThen_eq_next hflow
    obtain ⟨-, c1, -⟩ := computeSizes_next hc
    rw [c1]
    unfold readHeaders at hq
    obtain ⟨⟨n, r⟩, sf, hf, hd⟩ := Flow.andThen_eq_next hq
    -- lines 129-179
    unfold readFormatHeader at hf
    obtain ⟨u, sa, ha, hf⟩ := Flow.andThen_eq_next hf
    obtain ⟨p, sb, hb, hf⟩ := Flow.andThen_eq_next hf
    obtain ⟨q', sc, hcc, hf⟩ := Flow.andThen_eq_next hf
    obtain ⟨r', sd, hdd, hf⟩ := Flow.andThen_eq_next hf
    simp only [Flow.next.injEq, Prod.mk.injEq] at hf
    obtain ⟨-, rfl⟩ := hf
    unfold readRiffWave at ha
    simp only [hio] at ha
    obtain ⟨p1, s1', h1, ha⟩ := Flow.andThen_eq_next ha
    split_ifs at ha with hR
    obtain ⟨p2, s2', h2, ha⟩ := Flow.andThen_eq_next ha
    split_ifs at ha with hW
    simp only [Flow.next.injEq, true_and] at ha
    subst ha
    have r1 := readAtP_reads h1 ⟨_, rfl, by
      rw [seekToBegin_readFaults]; exact ReadsSucceeded.refl_reads _⟩
    have r2 := readAtP_reads h2 (by exact r1)
    have r3 := readAtP_reads hb r2
    have r4 := findChunk_reads _ _ _ _ _ _ _ _ _ r3 hcc
    have r5 := readAtP_reads hdd r4
    -- lines 181-213
    unfold findDataChunk at hd
    dsimp only at hd
    split_ifs at hd with htag hneg
    obtain ⟨x, sx, hx, hd⟩ := Flow.andThen_eq_next hd
    obtain ⟨y, sy, hy, hd⟩ := Flow.andThen_eq_next hd
    have r6 := readAtP_reads hx (by exact r5)
    have r7 := readAtP_reads hy r6
    exact findChunk_reads _ _ _ _ _ _ _ _ _ r7 hd

/-- A read statement whose read reports failure returns the status of the read. -/
theorem readAtP_of_fault {t : Target} {n : Nat} {s : CWAVInputSource} {io : CIO}
    (hio : s.m_spIO = some io) (hf : (io.Read n).1 ≠ ERROR_SUCCESS)
    (hcap : s.m_sFullHeader.length ≤ t.fullHeaderSize) :
    ∃ s1, readAtP t n s = .ret (io.Read n).1 s1 := by
  have h0 : io.readFaults.headD 0 ≠ 0 := by
    intro h0
    rw [ CIO.Read_of_no_fault n h0] at hf
    exact hf rfl
  have hR : ReadSafe t io n = io.Read n := by
    unfold ReadSafe
    dsimp only
    rw [if_pos hf]
  have hlen : (io.Read n).2.1.length = 0 := by rw [ CIO.Read_of_fault n h0]; rfl
  unfold readAtP
  rw [hio]
  dsimp only
  rw [hR, hlen, if_neg (by omega), if_pos hf]
  exact ⟨_, rfl⟩

set_option maxRecDepth 100000 in
/-- C13, evaluated: the status of `PerformSeek` is discarded at lines 134 and 269, unlike the
status of the read next to it, so a failed seek is dropped. On the well-formed mono file with a
failure scheduled for the next seek, the opening `PerformSeek` of `AnalyzeSource` reports
`ERROR_UNDEFINED` and `AnalyzeSource` returns `ERROR_SUCCESS`. On the file with a two-byte
trailer, built into a valid object with a failure scheduled for the seek after that, the seek to
the trailer in `GetTerminatingData` reports `ERROR_UNDEFINED`, the source stays at the start of
the data, and the call returns `ERROR_SUCCESS` with the first two data bytes `07 00` in place of
the trailer `01 02`. -/
theorem seek_failure_is_dropped :
    (((withSeekFaults (fileSource monoWav) [ERROR_UNDEFINED]).SetSeekMethod
        APE_FILE_BEGIN).SetSeekPosition 0).PerformSeek.1 = ERROR_UNDEFINED ∧
      ERROR_UNDEFINED ≠ ERROR_SUCCESS ∧
      (∃ s1, AnalyzeSource (sampleTarget .LP64)
          (objectOn (withSeekFaults (fileSource monoWav) [ERROR_UNDEFINED])) =
        .done (ERROR_SUCCESS, s1)) ∧
      (∃ inst o1 io, CWAVInputSource.fromIO (sampleTarget .LP64) rawObject
            (some (withSeekFaults (fileSource trailerWav) [0, ERROR_UNDEFINED])) allOutputs =
          .done (inst, o1) ∧
        inst.m_bIsValid = true ∧ inst.m_nTerminatingBytes = 2 ∧ inst.m_spIO = some io ∧
        ((io.SetSeekMethod APE_FILE_END).SetSeekPosition (-2)).PerformSeek.1 =
          ERROR_UNDEFINED ∧
        (∃ obj, GetTerminatingData inst = .done ⟨ERROR_SUCCESS, obj, le16 7, none⟩) ∧
        trailerWav.drop 48 = le16 513) :=
  ⟨by decide, by decide,
    ⟨(AnalyzeSource (sampleTarget .LP64)
      (objectOn (withSeekFaults (fileSource monoWav) [ERROR_UNDEFINED]))).object, by decide⟩,
    ⟨(Run.get (rawObject, allOutputs) (CWAVInputSource.fromIO (sampleTarget .LP64) rawObject
        (some (withSeekFaults (fileSource trailerWav) [0, ERROR_UNDEFINED])) allOutputs)).1,
      (Run.get (rawObject, allOutputs) (CWAVInputSource.fromIO (sampleTarget .LP64) rawObject
        (some (withSeekFaults (fileSource trailerWav) [0, ERROR_UNDEFINED])) allOutputs)).2,
      { withSeekFaults (fileSource trailerWav) [ERROR_UNDEFINED] with pos := 44 },
      by decide, by decide, by decide, by decide, by decide,
      ⟨(Run.get ⟨0, rawObject, [], none⟩ (GetTerminatingData
        (Run.get (rawObject, allOutputs) (CWAVInputSource.fromIO (sampleTarget .LP64) rawObject
          (some (withSeekFaults (fileSource trailerWav) [0, ERROR_UNDEFINED]))
          allOutputs)).1)).object, by decide⟩,
      by decide⟩⟩

/-- The sibling check that the seeks lack: no failure of a read is dropped. In a run of
`AnalyzeSource` that returns `ERROR_SUCCESS` every read made reported success; a read statement
whose read reports failure returns the status of that read; and `GetTerminatingData` on a valid
object with a trailer, when its read reports failure, returns `ERROR_UNDEFINED`. -/
theorem read_failure_is_reported (t : Target) :
    (∀ s io s1, s.m_spIO = some io → AnalyzeSource t s = .done (ERROR_SUCCESS, s1) →
      ∃ io1, s1.m_spIO = some io1 ∧ ReadsSucceeded io.readFaults io1.readFaults) ∧
    (∀ s io n, s.m_spIO = some io → (io.Read n).1 ≠ ERROR_SUCCESS →
      s.m_sFullHeader.length ≤ t.fullHeaderSize →
      ∃ s1, readAtP t n s = .ret (io.Read n).1 s1) ∧
    (∀ s io, s.m_bIsValid = true → s.m_spIO = some io → 0 < s.m_nTerminatingBytes →
      io.readFaults.headD 0 ≠ 0 →
      ∃ a, GetTerminatingData s = .done a ∧ a.status = ERROR_UNDEFINED) ∧
    ERROR_UNDEFINED ≠ ERROR_SUCCESS := by
  refine ⟨fun s io s1 hio h => AnalyzeSource_reads hio h,
    fun s io n hio hf hcap => readAtP_of_fault hio hf hcap, fun s io hv hio hT hf => ?_,
    by decide⟩
  unfold GetTerminatingData
  rw [hv]
  simp only [Bool.not_true, Bool.false_eq_true, if_false]
  rw [if_pos hT, hio]
  dsimp only
  have f1 := ( CIO.PerformSeek_frame
    ((io.SetSeekMethod APE_FILE_END).SetSeekPosition (-s.m_nTerminatingBytes))).2.2
  have hf1 : ((io.SetSeekMethod APE_FILE_END).SetSeekPosition
      (-s.m_nTerminatingBytes)).PerformSeek.2.readFaults.headD 0 ≠ 0 := by
    rw [f1]; exact hf
  rw [ CIO.Read_of_fault _ hf1]
  dsimp only
  exact ⟨_, rfl, if_pos (Or.inl hf1)⟩

set_option maxRecDepth 100000 in
/-- Read failures at the file with a two-byte trailer when the seventh read fails: the six
reads of `AnalyzeSource` succeed and it returns `ERROR_SUCCESS`; the read of the trailer fails
and `GetTerminatingData` returns `ERROR_UNDEFINED`. -/
theorem read_failure_is_reported_witness :
    (∃ io1, (AnalyzeSource (sampleTarget .LP64) (objectOn (withReadFaults (fileSource trailerWav)
          [0, 0, 0, 0, 0, 0, ERROR_IO_READ]))).object.m_spIO = some io1 ∧
        ReadsSucceeded [0, 0, 0, 0, 0, 0, ERROR_IO_READ] io1.readFaults) ∧
      ∃ a, GetTerminatingData
          { (AnalyzeSource (sampleTarget .LP64) (objectOn (withReadFaults (fileSource trailerWav)
              [0, 0, 0, 0, 0, 0, ERROR_IO_READ]))).object with m_bIsValid := true } = .done a ∧
        a.status = ERROR_UNDEFINED :=
  ⟨(read_failure_is_reported (sampleTarget .LP64)).1
      (objectOn (withReadFaults (fileSource trailerWav) [0, 0, 0, 0, 0, 0, ERROR_IO_READ]))
      (withReadFaults (fileSource trailerWav) [0, 0, 0, 0, 0, 0, ERROR_IO_READ])
      (AnalyzeSource (sampleTarget .LP64) (objectOn (withReadFaults (fileSource trailerWav)
        [0, 0, 0, 0, 0, 0, ERROR_IO_READ]))).object rfl (by decide),
    (read_failure_is_reported (sampleTarget .LP64)).2.2.1
      { (AnalyzeSource (sampleTarget .LP64) (objectOn (withReadFaults (fileSource trailerWav)
          [0, 0, 0, 0, 0, 0, ERROR_IO_READ]))).object with m_bIsValid := true }
      { withReadFaults (fileSource trailerWav) [ERROR_IO_READ] with pos := 44 }
      rfl (by decide) (by decide) (by decide)⟩

/-! ## The block alignment as a divisor -/

set_option maxRecDepth 100000 in
/-- C16, evaluated at a 48-byte WAV file whose format header declares no channels (16 bits per
sample), on each data model: lines 129-213 fall through with the `data` chunk header at `p`,
`FillWaveFormatEx` has made the block alignment `(16 / 8) * 0 = 0`, and line 223 evaluates
`m_nDataBytes % 0`, so `AnalyzeSource` and with it the constructor have undefined behaviour. The
same happens with one channel of four bits per sample, where the block alignment is
`(4 / 8) * 1 = 0`. -/
theorem modulus_by_zero_block_align (dm : DataModel) :
    ((readHeaders (sampleTarget dm) (objectOn (fileSource zeroChannelWav)) =
          .next ((zeroChannelWav.drop 36).take 8)
            (readHeaders (sampleTarget dm) (objectOn (fileSource zeroChannelWav))).object ∧
        hasLabel ((zeroChannelWav.drop 36).take 8) 'd' 'a' 't' 'a' = true ∧
        (readHeaders (sampleTarget dm)
          (objectOn (fileSource zeroChannelWav))).object.m_wfeSource.nChannels = 0 ∧
        (readHeaders (sampleTarget dm)
          (objectOn (fileSource zeroChannelWav))).object.m_wfeSource.nBlockAlign = 0) ∧
      AnalyzeSource (sampleTarget dm) (objectOn (fileSource zeroChannelWav)) = .undefined ∧
      CWAVInputSource.fromIO (sampleTarget dm) rawObject (some (fileSource zeroChannelWav))
        allOutputs = .undefined) ∧
    ((readHeaders (sampleTarget dm) (objectOn (fileSource fourBitWav))).object.m_wfeSource.wBitsPerSample
          = 4 ∧
      (readHeaders (sampleTarget dm)
        (objectOn (fileSource fourBitWav))).object.m_wfeSource.nBlockAlign = 0 ∧
      AnalyzeSource (sampleTarget dm) (objectOn (fileSource fourBitWav)) = .undefined) := by
  cases dm <;> decide

/-! ## Termination of the chunk searches -/

theorem Flow.andThen_eq_undefined {α β : Type} {x : Flow α}
    {f : α → CWAVInputSource → Flow β} (h : x.andThen f = .undefined) :
    x = .undefined ∨ ∃ a s1, x = .next a s1 ∧ f a s1 = .undefined := by
  cases x <;> simp [Flow.andThen] at h
  · exact Or.inr ⟨_, _, rfl, h⟩
  · exact Or.inl rfl

/-- What `ReadSafe` stores never reaches past the end of the source. -/
theorem ReadSafe_stored_le (t : Target) (io : CIO) (n : Nat) :
    (ReadSafe t io n).2.1.length ≤ io.bytes.length - io.pos := by
  have h1 : (ReadSafe t io n).2.1 = (io.Read n).2.1 := by
    unfold ReadSafe
    dsimp only
    split_ifs <;> rfl
  rw [h1]
  unfold CIO.Read
  dsimp only
  split_ifs
  · exact Nat.zero_le _
  · dsimp only
    rw [List.length_take, List.length_drop]
    exact Nat.min_le_right _ _

/-- When the array `m_sFullHeader` has room for the whole source, a read statement stores
inside it. -/
theorem readAtP_ne_undefined {t : Target} {B : List Byte} {start : Nat} {p : List Byte}
    {s : CWAVInputSource} (n : Nat) (hinv : Reading t B start p s)
    (hcap : B.length ≤ t.fullHeaderSize) : readAtP t n s ≠ .undefined := by
  obtain ⟨⟨io, hio, hb, hpos⟩, hh, -, -⟩ := hinv
  have hlen : s.m_sFullHeader.length ≤ B.length - start := by
    have := congrArg List.length hh
    rw [List.length_take, List.length_drop] at this
    omega
  have hst := ReadSafe_stored_le t io n
  rw [hb, hpos] at hst
  unfold readAtP
  rw [hio]
  dsimp only
  rw [if_neg (by omega)]
  split_ifs <;> exact fun hc => Flow.noConfusion hc

theorem findChunk_ne_undefined {t : Target} {B : List Byte} {start : Nat} (a b c d : Char)
    (hcap : B.length ≤ t.fullHeaderSize) :
    ∀ (fuel : Nat) (p : List Byte) (s : CWAVInputSource), Reading t B start p s →
      findChunk t a b c d fuel p s ≠ .undefined
  | 0, _, _, _ => fun hc => Flow.noConfusion hc
  | fuel + 1, p, s, hinv => by
    unfold findChunk
    split_ifs
    · exact fun hc => Flow.noConfusion hc
    · intro hc
      rcases Flow.andThen_eq_undefined hc with h1 | ⟨x, s1, h1, hc⟩
      · exact readAtP_ne_undefined _ hinv hcap h1
      · have i1 := (readAtP_reading hinv h1).1
        rcases Flow.andThen_eq_undefined hc with h2 | ⟨q, s2, h2, hc⟩
        · exact readAtP_ne_undefined _ i1 hcap h2
        · exact findChunk_ne_undefined a b c d hcap fuel q s2 (readAtP_reading i1 h2).1 hc

/-- When the array `m_sFullHeader` has room for the whole source, the reading part of
`AnalyzeSource` has no undefined behaviour. -/
theorem readHeaders_ne_undefined {t : Target} {s : CWAVInputSource} {io : CIO}
    (hio : s.m_spIO = some io) (hcap : io.bytes.length ≤ t.fullHeaderSize) :
    readHeaders t s ≠ .undefined := by
  unfold readHeaders
  intro hc
  rcases Flow.andThen_eq_undefined hc with hf | ⟨⟨n, r⟩, s4, hf, hc⟩
  · unfold readFormatHeader at hf
    rcases Flow.andThen_eq_undefined hf with h1 | ⟨_, s1, h1, hf⟩
    · unfold readRiffWave at h1
      simp only [hio] at h1
      have hinv0 : Reading t io.bytes (seekToBegin io).pos []
          { s with m_spIO := some (seekToBegin io), m_sFullHeader := [] } :=
        ⟨⟨_, rfl, seekToBegin_bytes io, rfl⟩, rfl, ⟨[], rfl⟩, Nat.zero_le _⟩
      rcases Flow.andThen_eq_undefined h1 with h2 | ⟨p, sp, hp, h1⟩
      · exact readAtP_ne_undefined _ hinv0 hcap h2
      · split_ifs at h1
        have ip := (readAtP_reading hinv0 hp).1
        have hinv1 : Reading t io.bytes (seekToBegin io).pos p
            { sp with m_nFileBytes := ape_max (declaredFileBytes t p) (seekToBegin io).GetSize } :=
          Reading.congr_reading ip rfl rfl
        rcases Flow.andThen_eq_undefined h1 with h2 | ⟨q, sq, -, h1⟩
        · exact readAtP_ne_undefined _ hinv1 hcap h2
        · split_ifs at h1
    · obtain ⟨⟨q0, i1⟩, -⟩ := readRiffWave_next hio h1
      rcases Flow.andThen_eq_undefined hf with h2 | ⟨p, s2, h2, hf⟩
      · exact readAtP_ne_undefined _ i1 hcap h2
      · have i2 := (readAtP_reading i1 h2).1
        have l2 := (readAtP_reading i1 h2).2.1
        rcases Flow.andThen_eq_undefined hf with h3 | ⟨q, s3, h3, hf⟩
        · exact findChunk_ne_undefined _ _ _ _ hcap _ _ _ i2 h3
        · have i3 := (findChunk_reading _ _ _ _ _ _ _ _ _ i2 l2 h3).1
          rcases Flow.andThen_eq_undefined hf with h4 | ⟨_, _, -, hf⟩
          · exact readAtP_ne_undefined _ i3 hcap h4
          · exact Flow.noConfusion hf
  · obtain ⟨i4, -⟩ := readFormatHeader_next hio hf
    unfold findDataChunk at hc
    dsimp only at hc
    split_ifs at hc
    have key : ∀ sx : CWAVInputSource, sx.m_spIO = s4.m_spIO →
        sx.m_sFullHeader = s4.m_sFullHeader → Reading t io.bytes (seekToBegin io).pos r sx :=
      fun sx e1 e2 => Reading.congr_reading i4 e1 e2
    rcases Flow.andThen_eq_undefined hc with h1 | ⟨_, s5, h1, hc⟩
    · exact readAtP_ne_undefined _ (by exact key _ rfl rfl) hcap h1
    · have i5 := (readAtP_reading (by exact key _ rfl rfl) h1).1
      rcases Flow.andThen_eq_undefined hc with h2 | ⟨q, s6, h2, hc⟩
      · exact readAtP_ne_undefined _ i5 hcap h2
      · exact findChunk_ne_undefined _ _ _ _ hcap _ _ _ (readAtP_reading i5 h2).1 hc

/-- A chunk header the invariant holds for lies in the source, label and all. -/
theorem Reading.label_in_source {t : Target} {B : List Byte} {start : Nat} {q : List Byte}
    {s : CWAVInputSource} {a b c d : Char} (h : Reading t B start q s) (hq : q.length = 8)
    (hl : hasLabel q a b c d = true) :
    ∃ i, i < B.length ∧ hasLabel (B.drop i) a b c d = true := by
  obtain ⟨h1, h2⟩ := h.last_eq
  rw [hq] at h1 h2
  have hlen := congrArg List.length h2
  rw [hq, List.length_take, List.length_drop, List.length_drop] at hlen
  refine ⟨start + (s.m_sFullHeader.length - 8), by omega, ?_⟩
  rw [← hl, h2, List.drop_drop]
  exact (hasLabel_congr _ _ _ _ fun i hi => byteAt_take (by omega)).symm

/-- When the reading part of `AnalyzeSource` falls through, the source holds a chunk header
labelled `fmt ` and one labelled `data`. -/
theorem readHeaders_labels {t : Target} {s s1 : CWAVInputSource} {io : CIO} {q : List Byte}
    (hio : s.m_spIO = some io) (h : readHeaders t s = .next q s1) :
    (∃ i, i < io.bytes.length ∧ hasLabel (io.bytes.drop i) 'f' 'm' 't' ' ' = true) ∧
      ∃ j, j < io.bytes.length ∧ hasLabel (io.bytes.drop j) 'd' 'a' 't' 'a' = true := by
  unfold readHeaders at h
  obtain ⟨⟨n, r⟩, sf, hf, hd⟩ := Flow.andThen_eq_next h
  obtain ⟨i4, -⟩ := readFormatHeader_next hio hf
  obtain ⟨i5, l5, hl, -⟩ := findDataChunk_next i4 hd
  refine ⟨?_, i5.label_in_source l5 hl⟩
  unfold readFormatHeader at hf
  obtain ⟨u, sa, h1, hf⟩ := Flow.andThen_eq_next hf
  obtain ⟨p, sb, h2, hf⟩ := Flow.andThen_eq_next hf
  obtain ⟨q', sc, h3, hf⟩ := Flow.andThen_eq_next hf
  obtain ⟨⟨q0, i1⟩, -⟩ := readRiffWave_next hio h1
  obtain ⟨i2, l2, -⟩ := readAtP_reading i1 h2
  obtain ⟨i3, l3, hl3, -⟩ := findChunk_reading _ _ _ _ _ _ _ _ _ i2 l2 h3
  exact i3.label_in_source l3 hl3

/-- A chunk search that ends with the fuel it has does the same with more. -/
theorem findChunk_more_fuel {t : Target} (a b c d : Char) (k : Nat) :
    ∀ (fuel : Nat) (p : List Byte) (s : CWAVInputSource),
      findChunk t a b c d fuel p s ≠ .outOfFuel →
      findChunk t a b c d (fuel + k) p s = findChunk t a b c d fuel p s
  | 0, _, _, h => absurd rfl h
  | fuel + 1, p, s, h => by
    rw [show fuel + 1 + k = (fuel + k) + 1 by omega]
    unfold findChunk at h ⊢
    by_cases hl : hasLabel p a b c d = true
    · rw [if_pos hl]
      rw [if_pos hl]
    · rw [if_neg hl] at h
      rw [if_neg hl, if_neg hl]
      dsimp only at h ⊢
      cases h1 : readAtP t (toUnsigned 32 (UCHAR_TO_ULONG_LE t.dataModel (p.drop 4))).toNat s with
      | undefined => rfl
      | outOfFuel => rfl
      | ret e s1 => rfl
      | next x s1 =>
        rw [h1, Flow.andThen_next] at h
        rw [Flow.andThen_next, Flow.andThen_next]
        cases h2 : readAtP t 8 s1 with
        | undefined => rfl
        | outOfFuel => rfl
        | ret e s2 => rfl
        | next q s2 =>
          rw [h2, Flow.andThen_next] at h
          rw [Flow.andThen_next, Flow.andThen_next]
          exact findChunk_more_fuel a b c d k fuel q s2 h

/-- The bound on the chunk searches: `AnalyzeSource` never stops for lack of fuel, though each
search loop is given fuel for only `size / 8` iterations and a last test. That is because each
iteration, which skips a chunk body of `n` bytes (`n` may be 0) and reads the next chunk header,
leaves `n + 8` fewer bytes unread, so a search entered with `u` bytes unread is over within
`u / 8` iterations, and more fuel changes nothing. On a source that fits the array
`m_sFullHeader` and holds no chunk header labelled `fmt ` or none labelled `data`,
`AnalyzeSource` returns a failure status. -/
theorem chunk_search_terminates (t : Target) (s : CWAVInputSource) (io : CIO)
    (hio : s.m_spIO = some io) :
    AnalyzeSource t s ≠ .outOfFuel ∧
    (∀ n s0 x s1 q s2, readAtP t n s0 = .next x s1 → readAtP t 8 s1 = .next q s2 →
      unreadBytes s2 + n + 8 = unreadBytes s0) ∧
    (∀ a b c d p s0 k, findChunk t a b c d (unreadBytes s0 / 8 + 1) p s0 ≠ .outOfFuel ∧
      findChunk t a b c d (unreadBytes s0 / 8 + 1 + k) p s0 =
        findChunk t a b c d (unreadBytes s0 / 8 + 1) p s0) ∧
    (io.bytes.length ≤ t.fullHeaderSize →
      ((∀ i, i < io.bytes.length → hasLabel (io.bytes.drop i) 'f' 'm' 't' ' ' = false) ∨
        (∀ i, i < io.bytes.length → hasLabel (io.bytes.drop i) 'd' 'a' 't' 'a' = false)) →
      ∃ c s1, AnalyzeSource t s = .done (c, s1) ∧ c ≠ ERROR_SUCCESS) := by
  refine ⟨AnalyzeSource_ne_outOfFuel t s, fun n s0 x s1 q s2 h1 h2 => ?_,
    fun a b c d p s0 k => ?_, fun hcap hno => ?_⟩
  · have u1 := (readAtP_unread h1).2
    have u2 := (readAtP_unread h2).2
    omega
  · have hne := @findChunk_ne_outOfFuel t a b c d (unreadBytes s0 / 8 + 1) p s0
      (Nat.lt_succ_self _)
    exact ⟨hne, findChunk_more_fuel a b c d k _ p s0 hne⟩
  · have hfuel := AnalyzeSource_ne_outOfFuel t s
    unfold AnalyzeSource at hfuel ⊢
    cases hR : readHeaders t s with
    | undefined => exact absurd hR (readHeaders_ne_undefined hio hcap)
    | outOfFuel => rw [hR] at hfuel; exact absurd rfl hfuel
    | ret e s1 => exact ⟨e, s1, rfl, readHeaders_ret hR⟩
    | next q s1 =>
      exfalso
      obtain ⟨⟨i, hi, hf⟩, ⟨j, hj, hd⟩⟩ := readHeaders_labels hio hR
      rcases hno with hno | hno
      · rw [hno i hi] at hf; exact Bool.false_ne_true hf
      · rw [hno j hj] at hd; exact Bool.false_ne_true hd

set_option maxRecDepth 100000 in
/-- The chunk searches at a 52-byte file without a `data` chunk, whose `fmt ` chunk is followed by
two empty chunks: the search for `data` passes both and ends when the source does. -/
theorem chunk_search_terminates_witness :
    AnalyzeSource (sampleTarget .LP64) (objectOn (fileSource noDataWav)) =
        .done (ERROR_IO_READ,
          (AnalyzeSource (sampleTarget .LP64) (objectOn (fileSource noDataWav))).object) ∧
      ∃ c s1, AnalyzeSource (sampleTarget .LP64) (objectOn (fileSource noDataWav)) =
        .done (c, s1) ∧ c ≠ ERROR_SUCCESS :=
  ⟨by decide,
    (chunk_search_terminates (sampleTarget .LP64) (objectOn (fileSource noDataWav))
      (fileSource noDataWav) rfl).2.2.2 (by decide) (Or.inr (by decide))⟩

/-! ## Chunk headers stored past the end of the array -/

theorem junkChunks_succ (n : Nat) : junkChunks (n + 1) = junkHeader ++ junkChunks n := rfl

theorem junkChunks_length (n : Nat) : (junkChunks n).length = 8 * n := by
  induction n with
  | zero => rfl
  | succ n ih =>
    unfold junkChunks
    rw [List.length_append, ih]
    have : junkHeader.length = 8 := by decide
    omega

theorem junkWav_length (n : Nat) : (junkWav n).length = 12 + 8 * n := by
  unfold junkWav
  rw [List.length_append, junkChunks_length]
  have : (ascii "RIFF" ++ le32 0 ++ ascii "WAVE").length = 12 := by decide
  omega

set_option maxRecDepth 100000 in
/-- No byte of the file is an `f` or a `d`. -/
theorem junkWav_bytes (n : Nat) : ∀ b ∈ junkWav n, b.val ≠ 102 ∧ b.val ≠ 100 := by
  have hJ : ∀ n, ∀ b ∈ junkChunks n, b.val ≠ 102 ∧ b.val ≠ 100 := by
    intro n
    induction n with
    | zero => intro b hb; exact absurd hb (List.not_mem_nil _)
    | succ n ih =>
      intro b hb
      unfold junkChunks at hb
      rcases List.mem_append.mp hb with h | h
      · exact (by decide : ∀ b ∈ junkHeader, b.val ≠ 102 ∧ b.val ≠ 100) b h
      · exact ih b h
  intro b hb
  unfold junkWav at hb
  rcases List.mem_append.mp hb with h | h
  · exact (by decide : ∀ b ∈ ascii "RIFF" ++ le32 0 ++ ascii "WAVE",
      b.val ≠ 102 ∧ b.val ≠ 100) b h
  · exact hJ n b h

theorem fmtJunkWav_length (n : Nat) : (fmtJunkWav n).length = 36 + 8 * n := by
  unfold fmtJunkWav
  rw [List.length_append, junkChunks_length]
  have : (monoWav.take 36).length = 36 := by decide
  omega

set_option maxRecDepth 100000 in
/-- No byte of the file with a `fmt ` chunk is a `d`. -/
theorem fmtJunkWav_bytes (n : Nat) : ∀ b ∈ fmtJunkWav n, b.val ≠ 100 := by
  have hJ : ∀ n, ∀ b ∈ junkChunks n, b.val ≠ 100 := by
    intro n
    induction n with
    | zero => intro b hb; exact absurd hb (List.not_mem_nil _)
    | succ n ih =>
      intro b hb
      unfold junkChunks at hb
      rcases List.mem_append.mp hb with h | h
      · exact (by decide : ∀ b ∈ junkHeader, b.val ≠ 100) b h
      · exact ih b h
  intro b hb
  unfold fmtJunkWav at hb
  rcases List.mem_append.mp hb with h | h
  · exact (by decide : ∀ b ∈ monoWav.take 36, b.val ≠ 100) b h
  · exact hJ n b h

/-- A label is not found where its first byte does not occur. -/
theorem hasLabel_of_first {l : List Byte} {a b c d : Char}
    (h : ∀ x ∈ l, (x.val : Int) ≠ (a.toNat : Int)) (ha : (a.toNat : Int) ≠ 0) (i : Nat) :
    hasLabel (l.drop i) a b c d = false := by
  have h0 : byteAt (l.drop i) 0 ≠ (a.toNat : Int) := by
    rw [byteAt_drop]
    unfold byteAt
    rw [Nat.add_zero, List.getD_eq_getElem?_getD]
    by_cases hi : i < l.length
    · rw [List.getElem?_eq_getElem hi]
      exact h _ (List.getElem_mem hi)
    · rw [List.getElem?_eq_none (by omega)]
      exact fun h1 => ha h1.symm
  unfold hasLabel
  have : (byteAt (l.drop i) 0 == (a.toNat : Int)) = false := by
    rw [beq_eq_false_iff_ne]
    exact h0
  rw [this]
  rfl

/-- No four bytes of the file spell `fmt ` or `data`. -/
theorem junkWav_labels (n i : Nat) :
    hasLabel ((junkWav n).drop i) 'f' 'm' 't' ' ' = false ∧
      hasLabel ((junkWav n).drop i) 'd' 'a' 't' 'a' = false := by
  have h0 : byteAt ((junkWav n).drop i) 0 ≠ 102 ∧ byteAt ((junkWav n).drop i) 0 ≠ 100 := by
    rw [byteAt_drop]
    unfold byteAt
    rw [Nat.add_zero, List.getD_eq_getElem?_getD]
    by_cases hi : i < (junkWav n).length
    · rw [List.getElem?_eq_getElem hi]
      have := junkWav_bytes n _ (List.getElem_mem hi)
      simp only [Option.getD_some]
      omega
    · rw [List.getElem?_eq_none (by omega)]
      simp
  unfold hasLabel
  constructor
  · have : (byteAt ((junkWav n).drop i) 0 == (('f'.toNat : Nat) : Int)) = false := by
      rw [beq_eq_false_iff_ne]
      exact h0.1
    rw [this]
    rfl
  · have : (byteAt ((junkWav n).drop i) 0 == (('d'.toNat : Nat) : Int)) = false := by
      rw [beq_eq_false_iff_ne]
      exact h0.2
    rw [this]
    rfl

/-- The relation looks at the source and the stored bytes only. -/
theorem Remaining.congr_remaining {s s1 : CWAVInputSource} {R : List Byte} {L : Nat}
    (h : Remaining s R L) (h1 : s1.m_spIO = s.m_spIO)
    (h2 : s1.m_sFullHeader = s.m_sFullHeader) : Remaining s1 R L := by
  unfold Remaining at h ⊢
  rw [h1, h2]
  exact h

theorem Remaining.fuel_remaining {s : CWAVInputSource} {R : List Byte} {L : Nat} (h : Remaining s R L) :
    R.length / 8 < loopFuel s := by
  obtain ⟨io, hio, -, hR, -⟩ := h
  unfold loopFuel
  rw [hio]
  dsimp only
  have := congrArg List.length hR
  rw [List.length_drop] at this
  have : R.length ≤ io.bytes.length := by omega
  have := Nat.div_le_div_right (c := 8) this
  omega

/-- A read of the `n` bytes `P` that come next, from a source without scheduled failures: it
stores past the end of the array when fewer than `n` elements are free, and falls through with
`P` otherwise. -/
theorem readAtP_remaining (t : Target) (n : Nat) {s : CWAVInputSource} {P R : List Byte}
    {L : Nat} (h : Remaining s (P ++ R) L) (hn : P.length = n) :
    (t.fullHeaderSize < L + n → readAtP t n s = .undefined) ∧
    (L + n ≤ t.fullHeaderSize →
      ∃ s1, readAtP t n s = .next P s1 ∧ Remaining s1 R (L + n)) := by
  obtain ⟨io, hio, hf, hR, hL⟩ := h
  subst hn
  have hgot : (io.bytes.drop io.pos).take P.length = P := by
    rw [hR, List.take_left]
  rw [readAtP_no_fault hio (by rw [hf]; rfl), hgot, hL]
  refine ⟨fun hc => by rw [if_pos hc], fun hc => ?_⟩
  rw [if_neg (by omega), if_neg (not_not.mpr rfl)]
  refine ⟨_, rfl, _, rfl, by dsimp only; rw [hf]; rfl, ?_, ?_⟩
  · dsimp only
    rw [← List.drop_drop, hR, List.drop_left]
  · dsimp only
    rw [List.length_append, hL]

set_option maxRecDepth 100000 in
theorem junk_facts :
    hasLabel (ascii "RIFF" ++ le32 0) 'R' 'I' 'F' 'F' = true ∧
      hasLabel (ascii "WAVE") 'W' 'A' 'V' 'E' = true ∧
      hasLabel junkHeader 'f' 'm' 't' ' ' = false ∧
      hasLabel junkHeader 'd' 'a' 't' 'a' = false ∧
      (ascii "RIFF" ++ le32 0).length = 8 ∧ (ascii "WAVE").length = 4 ∧
      junkHeader.length = 8 ∧
      ∀ dm, (toUnsigned 32 (UCHAR_TO_ULONG_LE dm (junkHeader.drop 4))).toNat = 0 := by
  refine ⟨by decide, by decide, by decide, by decide, by decide, by decide, by decide, ?_⟩
  intro dm
  cases dm <;> decide

/-- The chunk search on a source of which only empty `junk` chunks are left, too many for the
array: it stores past the end of the array. -/
theorem findChunk_junk_overflow {t : Target} (a b c d : Char)
    (hlab : hasLabel junkHeader a b c d = false) :
    ∀ (j fuel L : Nat) (s : CWAVInputSource), Remaining s (junkChunks j) L →
      t.fullHeaderSize < L + 8 * j → j < fuel →
      findChunk t a b c d fuel junkHeader s = .undefined
  | _, 0, _, _, _, _, hfuel => absurd hfuel (Nat.not_lt_zero _)
  | j, fuel + 1, L, s, h, hcap, hfuel => by
    have hz := junk_facts.2.2.2.2.2.2.2 t.dataModel
    unfold findChunk
    rw [if_neg (by rw [hlab]; exact Bool.false_ne_true)]
    dsimp only
    rw [hz]
    have h0 : Remaining s ([] ++ junkChunks j) L := h
    by_cases c0 : t.fullHeaderSize < L + 0
    · rw [(readAtP_remaining t 0 h0 rfl).1 c0]
      rfl
    · obtain ⟨s1, e1, r1⟩ := (readAtP_remaining t 0 h0 rfl).2 (by omega)
      rw [e1, Flow.andThen_next]
      cases j with
      | zero => exact absurd hcap (by omega)
      | succ j =>
        have r1' : Remaining s1 (junkHeader ++ junkChunks j) (L + 0) := r1
        by_cases c1 : t.fullHeaderSize < L + 0 + 8
        · rw [(readAtP_remaining t 8 r1' junk_facts.2.2.2.2.2.2.1).1 c1]
          rfl
        · obtain ⟨s2, e2, r2⟩ :=
            (readAtP_remaining t 8 r1' junk_facts.2.2.2.2.2.2.1).2 (by omega)
          rw [e2, Flow.andThen_next]
          exact findChunk_junk_overflow a b c d hlab j fuel _ s2 r2 (by omega) (by omega)

set_option maxRecDepth 100000 in
theorem fmt_facts :
    monoWav.take 36 =
        monoWav.take 8 ++ ((monoWav.drop 8).take 4 ++
          ((monoWav.drop 12).take 8 ++ (monoWav.drop 20).take 16)) ∧
      hasLabel (monoWav.take 8) 'R' 'I' 'F' 'F' = true ∧
      hasLabel ((monoWav.drop 8).take 4) 'W' 'A' 'V' 'E' = true ∧
      hasLabel ((monoWav.drop 12).take 8) 'f' 'm' 't' ' ' = true ∧
      (monoWav.take 8).length = 8 ∧ ((monoWav.drop 8).take 4).length = 4 ∧
      ((monoWav.drop 12).take 8).length = 8 ∧ ((monoWav.drop 20).take 16).length = 16 ∧
      UCHAR_TO_USHORT_LE ((monoWav.drop 20).take 16) = 1 ∧
      ∀ dm, toSigned 32
        (toUnsigned 32 (UCHAR_TO_ULONG_LE dm (((monoWav.drop 12).take 8).drop 4)) - 16) = 0 := by
  refine ⟨by decide, by decide, by decide, by decide, by decide, by decide, by decide,
    by decide, by decide, ?_⟩
  intro dm
  cases dm <;> decide

/-- The overflow in the search for the `fmt ` chunk, lines 160-173. -/
theorem fmt_search_overflow (t : Target) :
    AnalyzeSource t (objectOn (fileSource (junkWav (t.fullHeaderSize / 8 + 1)))) =
      .undefined := by
  obtain ⟨hR, hW, hF, -, l8, l4, h8, -⟩ := junk_facts
  have r0 : Remaining
      ⟨some (seekToBegin (fileSource (junkWav (t.fullHeaderSize / 8 + 1)))), [],
        rawObject.m_wfeSource, rawObject.m_nHeaderBytes, rawObject.m_nDataBytes,
        rawObject.m_nTerminatingBytes, rawObject.m_nFileBytes, rawObject.m_bIsValid⟩
      ((ascii "RIFF" ++ le32 0) ++ (ascii "WAVE" ++
        (junkHeader ++ junkChunks (t.fullHeaderSize / 8)))) 0 := by
    refine ⟨_, rfl, ?_, ?_, rfl⟩
    · rw [seekToBegin_eq]; rfl
    · rw [seekToBegin_eq]
      show List.drop 0 (junkWav (t.fullHeaderSize / 8 + 1)) = _
      rw [List.drop_zero]
      unfold junkWav
      rw [junkChunks_succ]
      simp only [List.append_assoc]
  unfold AnalyzeSource readHeaders readFormatHeader readRiffWave
  dsimp only [objectOn]
  by_cases c1 : t.fullHeaderSize < 0 + 8
  · rw [(readAtP_remaining t 8 r0 l8).1 c1]
    rfl
  · obtain ⟨s1, e1, r1⟩ := (readAtP_remaining t 8 r0 l8).2 (by omega)
    rw [e1]
    simp only [Flow.andThen_next]
    rw [if_neg (by rw [hR]; decide)]
    have r1' : Remaining
        { s1 with
          m_nFileBytes :=
            ape_max (declaredFileBytes t (ascii "RIFF" ++ le32 0))
              (seekToBegin (fileSource (junkWav (t.fullHeaderSize / 8 + 1)))).GetSize }
        (ascii "WAVE" ++ (junkHeader ++ junkChunks (t.fullHeaderSize / 8))) (0 + 8) :=
      r1.congr_remaining rfl rfl
    by_cases c2 : t.fullHeaderSize < 0 + 8 + 4
    · rw [(readAtP_remaining t 4 r1' l4).1 c2]
      rfl
    · obtain ⟨s2, e2, r2⟩ := (readAtP_remaining t 4 r1' l4).2 (by omega)
      rw [e2]
      simp only [Flow.andThen_next]
      rw [if_neg (by rw [hW]; decide)]
      simp only [Flow.andThen_next]
      by_cases c3 : t.fullHeaderSize < 0 + 8 + 4 + 8
      · rw [(readAtP_remaining t 8 r2 h8).1 c3]
        rfl
      · obtain ⟨s3, e3, r3⟩ := (readAtP_remaining t 8 r2 h8).2 (by omega)
        rw [e3]
        simp only [Flow.andThen_next]
        have hfuel := r3.fuel_remaining
        rw [junkChunks_length] at hfuel
        rw [findChunk_junk_overflow _ _ _ _ hF (t.fullHeaderSize / 8) (loopFuel s3) _ s3 r3
          (by omega) (by omega)]
        rfl

/-- Lines 181-213 after a format header with the PCM tag in a `fmt ` chunk of 16 bytes: nothing
is left of the chunk to skip, and the search for the `data` chunk starts with the next chunk
header. -/
theorem findDataChunk_plain (t : Target) (f : Int × List Byte) (s : CWAVInputSource)
    (htag : UCHAR_TO_USHORT_LE f.2 = 1) (hextra : toSigned 32 (f.1 - 16) = 0) :
    findDataChunk t f s =
      (readAtP t 0
        { s with
          m_wfeSource :=
            FillWaveFormatEx (toSigned 32 (UCHAR_TO_ULONG_LE t.dataModel (f.2.drop 4)))
              (UCHAR_TO_USHORT_LE (f.2.drop 14)) (UCHAR_TO_USHORT_LE (f.2.drop 2)) }).andThen
        fun _ s2 => (readAtP t 8 s2).andThen fun q s3 =>
          findChunk t 'd' 'a' 't' 'a' (loopFuel s3) q s3 := by
  unfold findDataChunk
  dsimp only
  rw [if_neg (by rw [htag]; decide), hextra, if_neg (by decide)]
  rfl

/-- The overflow in the search for the `data` chunk, lines 200-213. -/
theorem data_search_overflow (t : Target) :
    AnalyzeSource t (objectOn (fileSource (fmtJunkWav (t.fullHeaderSize / 8 + 1)))) =
      .undefined := by
  obtain ⟨-, -, -, hD, -, -, h8, -⟩ := junk_facts
  obtain ⟨hsplit, hR, hW, hF, l8, l4, f8, l16, htag, hextra⟩ := fmt_facts
  have r0 : Remaining
      ⟨some (seekToBegin (fileSource (fmtJunkWav (t.fullHeaderSize / 8 + 1)))), [],
        rawObject.m_wfeSource, rawObject.m_nHeaderBytes, rawObject.m_nDataBytes,
        rawObject.m_nTerminatingBytes, rawObject.m_nFileBytes, rawObject.m_bIsValid⟩
      (monoWav.take 8 ++ ((monoWav.drop 8).take 4 ++ ((monoWav.drop 12).take 8 ++
        ((monoWav.drop 20).take 16 ++ ([] ++
          (junkHeader ++ junkChunks (t.fullHeaderSize / 8))))))) 0 := by
    refine ⟨_, rfl, ?_, ?_, rfl⟩
    · rw [seekToBegin_eq]; rfl
    · rw [seekToBegin_eq]
      show List.drop 0 (fmtJunkWav (t.fullHeaderSize / 8 + 1)) = _
      rw [List.drop_zero]
      unfold fmtJunkWav
      rw [junkChunks_succ, hsplit]
      simp only [List.append_assoc, List.nil_append]
  unfold AnalyzeSource readHeaders readFormatHeader readRiffWave
  dsimp only [objectOn]
  by_cases c1 : t.fullHeaderSize < 0 + 8
  · rw [(readAtP_remaining t 8 r0 l8).1 c1]
    rfl
  · obtain ⟨s1, e1, r1⟩ := (readAtP_remaining t 8 r0 l8).2 (by omega)
    rw [e1]
    simp only [Flow.andThen_next]
    rw [if_neg (by rw [hR]; decide)]
    have r1' := fun x => @Remaining.congr_remaining s1 { s1 with m_nFileBytes := x } _ _ r1 rfl rfl
    by_cases c2 : t.fullHeaderSize < 0 + 8 + 4
    · rw [(readAtP_remaining t 4 (r1' _) l4).1 c2]
      rfl
    · obtain ⟨s2, e2, r2⟩ := (readAtP_remaining t 4 (r1' _) l4).2 (by omega)
      rw [e2]
      simp only [Flow.andThen_next]
      rw [if_neg (by rw [hW]; decide)]
      simp only [Flow.andThen_next]
      by_cases c3 : t.fullHeaderSize < 0 + 8 + 4 + 8
      · rw [(readAtP_remaining t 8 r2 f8).1 c3]
        rfl
      · obtain ⟨s3, e3, r3⟩ := (readAtP_remaining t 8 r2 f8).2 (by omega)
        rw [e3]
        simp only [Flow.andThen_next]
        have hfuel3 : loopFuel s3 = (loopFuel s3 - 1) + 1 := by
          have := r3.fuel_remaining
          omega
        rw [hfuel3]
        unfold findChunk
        rw [if_pos hF]
        simp only [Flow.andThen_next]
        by_cases c4 : t.fullHeaderSize < 0 + 8 + 4 + 8 + 16
        · rw [(readAtP_remaining t 16 r3 l16).1 c4]
          rfl
        · obtain ⟨s4, e4, r4⟩ := (readAtP_remaining t 16 r3 l16).2 (by omega)
          rw [e4, Flow.andThen_next, Flow.andThen_next]
          rw [findDataChunk_plain t
            (toUnsigned 32 (UCHAR_TO_ULONG_LE t.dataModel (((monoWav.drop 12).take 8).drop 4)),
              (monoWav.drop 20).take 16) s4 htag (hextra t.dataModel)]
          have r4' := fun x =>
            @Remaining.congr_remaining s4 { s4 with m_wfeSource := x } _ _ r4 rfl rfl
          by_cases c5 : t.fullHeaderSize < 0 + 8 + 4 + 8 + 16 + 0
          · rw [(readAtP_remaining t 0 (r4' _) rfl).1 c5]
            rfl
          · obtain ⟨s5, e5, r5⟩ := (readAtP_remaining t 0 (r4' _) rfl).2 (by omega)
            rw [e5, Flow.andThen_next]
            by_cases c6 : t.fullHeaderSize < 0 + 8 + 4 + 8 + 16 + 0 + 8
            · rw [(readAtP_remaining t 8 r5 h8).1 c6]
              rfl
            · obtain ⟨s6, e6, r6⟩ := (readAtP_remaining t 8 r5 h8).2 (by omega)
              rw [e6, Flow.andThen_next]
              have hfuel := r6.fuel_remaining
              rw [junkChunks_length] at hfuel
              rw [findChunk_junk_overflow _ _ _ _ hD (t.fullHeaderSize / 8) (loopFuel s6) _ s6
                r6 (by omega) (by omega)]
              rfl

/-- C17, for an array `m_sFullHeader` of any size `N`. The file made of `RIFF`, a size, `WAVE`
and `N / 8 + 1` empty chunks labelled `junk` holds no `fmt ` and no `data` label, and the search
for the `fmt ` chunk (lines 160-173) stores its chunk headers past the end of the array. The
file made of the first 36 bytes of the well-formed mono file, which end with its `fmt ` chunk,
and `N / 8 + 1` empty `junk` chunks holds no `data` label, and the search for the `data` chunk
(lines 200-213) stores past the end of the array. On both `AnalyzeSource` has undefined
behaviour where the claim has it return an error. -/
theorem header_array_overflow (t : Target) :
    ((∀ i, hasLabel ((junkWav (t.fullHeaderSize / 8 + 1)).drop i) 'f' 'm' 't' ' ' = false ∧
        hasLabel ((junkWav (t.fullHeaderSize / 8 + 1)).drop i) 'd' 'a' 't' 'a' = false) ∧
      (junkWav (t.fullHeaderSize / 8 + 1)).length = 12 + 8 * (t.fullHeaderSize / 8 + 1) ∧
      AnalyzeSource t (objectOn (fileSource (junkWav (t.fullHeaderSize / 8 + 1)))) =
        .undefined) ∧
    ((∀ i, hasLabel ((fmtJunkWav (t.fullHeaderSize / 8 + 1)).drop i) 'd' 'a' 't' 'a' = false) ∧
      (fmtJunkWav (t.fullHeaderSize / 8 + 1)).length = 36 + 8 * (t.fullHeaderSize / 8 + 1) ∧
      AnalyzeSource t (objectOn (fileSource (fmtJunkWav (t.fullHeaderSize / 8 + 1)))) =
        .undefined) :=
  ⟨⟨fun i => junkWav_labels _ i, junkWav_length _, fmt_search_overflow t⟩,
    fun i => hasLabel_of_first (fun x hx => by
      have := fmtJunkWav_bytes _ x hx
      show (x.val : Int) ≠ (('d'.toNat : Nat) : Int)
      have h100 : 'd'.toNat = 100 := by decide
      rw [h100]
      omega) (by decide) i,
    fmtJunkWav_length _, data_search_overflow t⟩

/-! ## The byte counts on each data model -/

/-- An `int64` value converts to `int64` unchanged. -/
theorem toSigned_64_of_range {x : Int} (h1 : -9223372036854775808 ≤ x)
    (h2 : x < 9223372036854775808) : toSigned 64 x = x := by
  unfold toSigned
  norm_num
  omega

theorem le_ape_max_right (a b : Int) : b ≤ ape_max a b := by
  unfold ape_max
  split_ifs <;> omega

/-- Where `unsigned long` has 32 bits the decoder gives a value below `2 ^ 32`. -/
theorem UCHAR_TO_ULONG_LE_range_32 (dm : DataModel) (h : dm.ulongBits = 32) (buf : List Byte) :
    0 ≤ UCHAR_TO_ULONG_LE dm buf ∧ UCHAR_TO_ULONG_LE dm buf < 4294967296 := by
  rw [UCHAR_TO_ULONG_LE_exact_32 dm h buf]
  have b0 := byteAt_nonneg buf 0
  have b1 := byteAt_nonneg buf 1
  have b2 := byteAt_nonneg buf 2
  have b3 := byteAt_nonneg buf 3
  have c0 := byteAt_lt buf 0
  have c1 := byteAt_lt buf 1
  have c2 := byteAt_lt buf 2
  have c3 := byteAt_lt buf 3
  constructor <;> omega

/-- Where `unsigned long` has 32 bits the clamped data count is not negative when the file size
is not below the header count. -/
theorem dataBytes_nonneg_32 (t : Target) (h32 : t.dataModel.ulongBits = 32) (q : List Byte)
    (nFileBytes nHeader : Int) (h : nHeader ≤ nFileBytes) :
    0 ≤ dataBytes t q nFileBytes nHeader := by
  obtain ⟨r1, r2⟩ := UCHAR_TO_ULONG_LE_range_32 t.dataModel h32 (q.drop 4)
  unfold dataBytes
  dsimp only
  generalize UCHAR_TO_ULONG_LE t.dataModel (q.drop 4) = v at r1 r2 ⊢
  rw [toSigned_64_of_range (by omega) (by omega)]
  split_ifs <;> omega

/-- Where `unsigned long` has 32 bits the counts of a successful `AnalyzeSource` are as lines
215-227 mean them: the data count lies between 0 and what the file size leaves after the
header, the terminating count is not negative, and the three counts add up to the file size. -/
theorem byte_counts_32 {t : Target} {s s1 : CWAVInputSource} {io : CIO}
    (h32 : t.dataModel.ulongBits = 32) (hio : s.m_spIO = some io)
    (h : AnalyzeSource t s = .done (ERROR_SUCCESS, s1)) :
    0 ≤ s1.m_nDataBytes ∧ s1.m_nDataBytes ≤ s1.m_nFileBytes - s1.m_nHeaderBytes ∧
      0 ≤ s1.m_nTerminatingBytes ∧
      s1.m_nHeaderBytes + s1.m_nDataBytes + s1.m_nTerminatingBytes = s1.m_nFileBytes := by
  obtain ⟨q, hR, -, -, -, -, hF, hH, hD, -, -, hT, -⟩ := AnalyzeSource_success hio h
  obtain ⟨⟨io1, -, hb, hpos⟩, hh, -, -⟩ := hR
  have hlen : s1.m_sFullHeader.length ≤ io.bytes.length := by
    have := congrArg List.length hh
    rw [List.length_take, List.length_drop] at this
    omega
  have hsize : (io.bytes.length : Int) ≤ s1.m_nFileBytes := by
    rw [hF]
    exact le_ape_max_right _ _
  have hle := dataBytes_le t q s1.m_nFileBytes s1.m_nHeaderBytes
  rw [← hD] at hle
  have hHF : s1.m_nHeaderBytes ≤ s1.m_nFileBytes := by
    rw [hH]
    exact le_trans (Int.ofNat_le.mpr hlen) hsize
  have h0 : 0 ≤ s1.m_nDataBytes := by
    rw [hD]
    exact dataBytes_nonneg_32 t h32 q _ _ hHF
  clear hF hD hsize hh hpos hb
  refine ⟨h0, hle, by omega, by omega⟩

set_option maxRecDepth 100000 in
/-- C18, evaluated. On a 48-byte 16-bit mono file whose `data` chunk declares `0x80000000`
bytes, built for LP64, `AnalyzeSource` succeeds with `m_nDataBytes = -2147483648`: the decoder
sign-extends the declared size, the negative count passes the clamp of line 219 untouched, and
`m_nTerminatingBytes` comes out as `2147483652` on a file of 48 bytes. With a 32-bit
`unsigned long` the same file gives 4 data bytes and no terminating bytes. On a 48-byte file
whose RIFF header declares `0xFFFFFFF8` bytes, `m_nFileBytes` is the declared size plus 8,
`4294967296`, on LLP64 only; on ILP32 the 32-bit sum wraps to 0 and on LP64 the sign-extended
size plus 8 is 0 as an `int64`, so `m_nFileBytes` is the real size 48. -/
theorem data_bytes_negative :
    (∃ s1, AnalyzeSource (sampleTarget .LP64) (objectOn (fileSource hugeDataWav)) =
        .done (ERROR_SUCCESS, s1) ∧
      s1.m_nFileBytes = 48 ∧ s1.m_nHeaderBytes = 44 ∧ s1.m_nDataBytes = -2147483648 ∧
      s1.m_nTerminatingBytes = 2147483652 ∧ ¬ 0 ≤ s1.m_nDataBytes) ∧
    (∃ s1, AnalyzeSource (sampleTarget .LLP64) (objectOn (fileSource hugeDataWav)) =
        .done (ERROR_SUCCESS, s1) ∧
      s1.m_nFileBytes = 48 ∧ s1.m_nHeaderBytes = 44 ∧ s1.m_nDataBytes = 4 ∧
      s1.m_nTerminatingBytes = 0) ∧
    (∃ s1, AnalyzeSource (sampleTarget .LLP64) (objectOn (fileSource wrappingRiffWav)) =
        .done (ERROR_SUCCESS, s1) ∧ s1.m_nFileBytes = 4294967288 + 8) ∧
    (∃ s1, AnalyzeSource (sampleTarget .ILP32) (objectOn (fileSource wrappingRiffWav)) =
        .done (ERROR_SUCCESS, s1) ∧ s1.m_nFileBytes = 48 ∧
      s1.m_nFileBytes ≠ max (4294967288 + 8) (fileSource wrappingRiffWav).GetSize) ∧
    (∃ s1, AnalyzeSource (sampleTarget .LP64) (objectOn (fileSource wrappingRiffWav)) =
        .done (ERROR_SUCCESS, s1) ∧ s1.m_nFileBytes = 48 ∧
      s1.m_nFileBytes ≠ max (4294967288 + 8) (fileSource wrappingRiffWav).GetSize) :=
  ⟨⟨(AnalyzeSource (sampleTarget .LP64) (objectOn (fileSource hugeDataWav))).object,
      by decide, by decide, by decide, by decide, by decide, by decide⟩,
    ⟨(AnalyzeSource (sampleTarget .LLP64) (objectOn (fileSource hugeDataWav))).object,
      by decide, by decide, by decide, by decide, by decide⟩,
    ⟨(AnalyzeSource (sampleTarget .LLP64) (objectOn (fileSource wrappingRiffWav))).object,
      by decide, by decide⟩,
    ⟨(AnalyzeSource (sampleTarget .ILP32) (objectOn (fileSource wrappingRiffWav))).object,
      by decide, by decide, by decide⟩,
    ⟨(AnalyzeSource (sampleTarget .LP64) (objectOn (fileSource wrappingRiffWav))).object,
      by decide, by decide, by decide⟩⟩

/-! ## The size of the `fmt ` chunk -/

/-- What the shared tail of the constructors leaves in the caller's parameters. -/
theorem analyzeAndReport_outputs {t : Target} {s inst : CWAVInputSource} {o o1 : OutParams}
    {io : CIO} (hv : s.m_bIsValid = false) (hio : s.m_spIO = some io)
    (h : analyzeAndReport t s o = .done (inst, o1)) :
    ∃ c, o1.pErrorCode = store o.pErrorCode c ∧
      (c ≠ ERROR_SUCCESS →
        o1.pwfeSource = o.pwfeSource ∧ o1.pTotalBlocks = o.pTotalBlocks ∧
        o1.pHeaderBytes = o.pHeaderBytes ∧ o1.pTerminatingBytes = o.pTerminatingBytes ∧
        inst.m_bIsValid = false) ∧
      (c = ERROR_SUCCESS →
        o1.pwfeSource = store o.pwfeSource inst.m_wfeSource ∧
        o1.pTotalBlocks = store o.pTotalBlocks
          (toSigned 32 (inst.m_nDataBytes.tdiv inst.m_wfeSource.nBlockAlign)) ∧
        o1.pHeaderBytes = store o.pHeaderBytes inst.m_nHeaderBytes ∧
        o1.pTerminatingBytes = store o.pTerminatingBytes inst.m_nTerminatingBytes ∧
        inst.m_bIsValid = true ∧ inst.m_wfeSource.nBlockAlign ≠ 0) := by
  unfold analyzeAndReport at h
  cases hA : AnalyzeSource t s with
  | undefined => rw [hA] at h; simp at h
  | outOfFuel => rw [hA] at h; simp at h
  | done r =>
    obtain ⟨c, s1⟩ := r
    rw [hA] at h
    dsimp only at h
    have hv1 : s1.m_bIsValid = false := (AnalyzeSource_valid hA).trans hv
    split_ifs at h with hc hz
    · simp only [Run.done.injEq, Prod.mk.injEq] at h
      obtain ⟨rfl, rfl⟩ := h
      subst hc
      have hne := (AnalyzeSource_whole_blocks hio hA).1
      exact ⟨ERROR_SUCCESS, rfl, fun hh => absurd rfl hh,
        fun _ => ⟨rfl, rfl, rfl, rfl, rfl, hne⟩⟩
    · simp only [Run.done.injEq, Prod.mk.injEq] at h
      obtain ⟨rfl, rfl⟩ := h
      exact ⟨c, rfl, fun _ => ⟨rfl, rfl, rfl, rfl, hv1⟩, fun hh => absurd hh hc⟩

theorem analyzeAndReport_ne_outOfFuel (t : Target) (s : CWAVInputSource) (o : OutParams) :
    analyzeAndReport t s o ≠ .outOfFuel := by
  unfold analyzeAndReport
  cases hA : AnalyzeSource t s with
  | undefined => exact fun hc => Run.noConfusion hc
  | outOfFuel => exact absurd hA (AnalyzeSource_ne_outOfFuel t s)
  | done r =>
    dsimp only
    split_ifs <;> exact fun hc => Run.noConfusion hc

/-- C20: for both constructors, with `c` the status stored through `pErrorCode` when that is not
NULL. When `c` is not `ERROR_SUCCESS`, `pwfeSource`, `pTotalBlocks`, `pHeaderBytes` and
`pTerminatingBytes` point at what they pointed at before and the object is invalid. When `c` is
`ERROR_SUCCESS`, each of the four that is not NULL has received, in this order, `m_wfeSource`,
the quotient `m_nDataBytes / nBlockAlign` converted to the `int` it is stored in, `m_nHeaderBytes`
and `m_nTerminatingBytes`; the object is valid and the divisor is not zero. Neither constructor
stops for lack of fuel. -/
theorem constructor_outputs (t : Target) (fs : String → Option CIO) :
    (∀ mem pIO o inst o1, CWAVInputSource.fromIO t mem pIO o = .done (inst, o1) →
      ∃ c, o1.pErrorCode = store o.pErrorCode c ∧
        (c ≠ ERROR_SUCCESS →
          o1.pwfeSource = o.pwfeSource ∧ o1.pTotalBlocks = o.pTotalBlocks ∧
          o1.pHeaderBytes = o.pHeaderBytes ∧ o1.pTerminatingBytes = o.pTerminatingBytes ∧
          inst.m_bIsValid = false) ∧
        (c = ERROR_SUCCESS →
          o1.pwfeSource = store o.pwfeSource inst.m_wfeSource ∧
          o1.pTotalBlocks = store o.pTotalBlocks
            (toSigned 32 (inst.m_nDataBytes.tdiv inst.m_wfeSource.nBlockAlign)) ∧
          o1.pHeaderBytes = store o.pHeaderBytes inst.m_nHeaderBytes ∧
          o1.pTerminatingBytes = store o.pTerminatingBytes inst.m_nTerminatingBytes ∧
          inst.m_bIsValid = true ∧ inst.m_wfeSource.nBlockAlign ≠ 0)) ∧
    (∀ mem pSourceName o inst o1,
      CWAVInputSource.fromName t fs mem pSourceName o = .done (inst, o1) →
      ∃ c, o1.pErrorCode = store o.pErrorCode c ∧
        (c ≠ ERROR_SUCCESS →
          o1.pwfeSource = o.pwfeSource ∧ o1.pTotalBlocks = o.pTotalBlocks ∧
          o1.pHeaderBytes = o.pHeaderBytes ∧ o1.pTerminatingBytes = o.pTerminatingBytes ∧
          inst.m_bIsValid = false) ∧
        (c = ERROR_SUCCESS →
          o1.pwfeSource = store o.pwfeSource inst.m_wfeSource ∧
          o1.pTotalBlocks = store o.pTotalBlocks
            (toSigned 32 (inst.m_nDataBytes.tdiv inst.m_wfeSource.nBlockAlign)) ∧
          o1.pHeaderBytes = store o.pHeaderBytes inst.m_nHeaderBytes ∧
          o1.pTerminatingBytes = store o.pTerminatingBytes inst.m_nTerminatingBytes ∧
          inst.m_bIsValid = true ∧ inst.m_wfeSource.nBlockAlign ≠ 0)) ∧
    (∀ mem pIO o, CWAVInputSource.fromIO t mem pIO o ≠ .outOfFuel) ∧
    (∀ mem pSourceName o, CWAVInputSource.fromName t fs mem pSourceName o ≠ .outOfFuel) := by
  refine ⟨fun mem pIO o inst o1 h => ?_, fun mem pSourceName o inst o1 h => ?_,
    fun mem pIO o => ?_, fun mem pSourceName o => ?_⟩
  · unfold CWAVInputSource.fromIO at h
    dsimp only at h
    split_ifs at h with hp
    · simp only [Run.done.injEq, Prod.mk.injEq] at h
      obtain ⟨rfl, rfl⟩ := h
      exact ⟨ERROR_BAD_PARAMETER, rfl, fun _ => ⟨rfl, rfl, rfl, rfl, rfl⟩,
        fun hh => absurd hh (by decide)⟩
    · cases pIO with
      | none => exact absurd (Or.inl rfl) hp
      | some io => exact @analyzeAndReport_outputs t _ _ _ _ io rfl rfl h
  · unfold CWAVInputSource.fromName at h
    cases pSourceName with
    | none =>
      simp only [Run.done.injEq, Prod.mk.injEq] at h
      obtain ⟨rfl, rfl⟩ := h
      exact ⟨ERROR_BAD_PARAMETER, rfl, fun _ => ⟨rfl, rfl, rfl, rfl, rfl⟩,
        fun hh => absurd hh (by decide)⟩
    | some name =>
      dsimp only at h
      split_ifs at h with hp
      · simp only [Run.done.injEq, Prod.mk.injEq] at h
        obtain ⟨rfl, rfl⟩ := h
        exact ⟨ERROR_BAD_PARAMETER, rfl, fun _ => ⟨rfl, rfl, rfl, rfl, rfl⟩,
        fun hh => absurd hh (by decide)⟩
      · cases hO : openSource fs name with
        | none =>
          rw [hO] at h
          simp only [Run.done.injEq, Prod.mk.injEq] at h
          obtain ⟨rfl, rfl⟩ := h
          exact ⟨ERROR_INVALID_INPUT_FILE, rfl, fun _ => ⟨rfl, rfl, rfl, rfl, rfl⟩,
            fun hh => absurd hh (by decide)⟩
        | some io =>
          rw [hO] at h
          exact @analyzeAndReport_outputs t _ _ _ _ io rfl rfl h
  · unfold CWAVInputSource.fromIO
    dsimp only
    split_ifs
    · exact fun hc => Run.noConfusion hc
    · exact analyzeAndReport_ne_outOfFuel _ _ _
  · unfold CWAVInputSource.fromName
    cases pSourceName with
    | none => exact fun hc => Run.noConfusion hc
    | some name =>
      dsimp only
      split_ifs
      · exact fun hc => Run.noConfusion hc
      · cases hO : openSource fs name with
        | none => exact fun hc => Run.noConfusion hc
        | some io => exact analyzeAndReport_ne_outOfFuel _ _ _

set_option maxRecDepth 100000 in
/-- C20 at the file with a two-byte trailer, where the constructor stores the wave format, 2
blocks, 44 header bytes and 2 terminating bytes, and at a source that is not a WAV file, where
it stores the status only. -/
theorem constructor_outputs_witness :
    reportedOn .LP64 (fileSource trailerWav) =
        ⟨some ⟨1, 1, 44100, 88200, 2, 16, 0⟩, some 2, some 44, some 2, some ERROR_SUCCESS⟩ ∧
      reportedOn .LP64 (fileSource (ascii "RIFX" ++ le32 4 ++ ascii "WAVE")) =
        { allOutputs with pErrorCode := some ERROR_INVALID_INPUT_FILE } ∧
      (∃ c, (reportedOn .LP64 (fileSource trailerWav)).pErrorCode = store allOutputs.pErrorCode c ∧
        (c ≠ ERROR_SUCCESS →
          (reportedOn .LP64 (fileSource trailerWav)).pwfeSource = allOutputs.pwfeSource ∧
          (reportedOn .LP64 (fileSource trailerWav)).pTotalBlocks = allOutputs.pTotalBlocks ∧
          (reportedOn .LP64 (fileSource trailerWav)).pHeaderBytes = allOutputs.pHeaderBytes ∧
          (reportedOn .LP64 (fileSource trailerWav)).pTerminatingBytes =
            allOutputs.pTerminatingBytes ∧
          (builtOn .LP64 (fileSource trailerWav)).m_bIsValid = false) ∧
        (c = ERROR_SUCCESS →
          (reportedOn .LP64 (fileSource trailerWav)).pwfeSource =
            store allOutputs.pwfeSource (builtOn .LP64 (fileSource trailerWav)).m_wfeSource ∧
          (reportedOn .LP64 (fileSource trailerWav)).pTotalBlocks =
            store allOutputs.pTotalBlocks
              (toSigned 32 ((builtOn .LP64 (fileSource trailerWav)).m_nDataBytes.tdiv
                (builtOn .LP64 (fileSource trailerWav)).m_wfeSource.nBlockAlign)) ∧
          (reportedOn .LP64 (fileSource trailerWav)).pHeaderBytes =
            store allOutputs.pHeaderBytes (builtOn .LP64 (fileSource trailerWav)).m_nHeaderBytes ∧
          (reportedOn .LP64 (fileSource trailerWav)).pTerminatingBytes =
            store allOutputs.pTerminatingBytes
              (builtOn .LP64 (fileSource trailerWav)).m_nTerminatingBytes ∧
          (builtOn .LP64 (fileSource trailerWav)).m_bIsValid = true ∧
          (builtOn .LP64 (fileSource trailerWav)).m_wfeSource.nBlockAlign ≠ 0)) :=
  ⟨by decide, by decide,
    (constructor_outputs (sampleTarget .LP64) noFiles).1 rawObject (some (fileSource trailerWav))
      allOutputs (builtOn .LP64 (fileSource trailerWav)) (reportedOn .LP64 (fileSource trailerWav))
      (by decide)⟩

/-! ## The decompressor's range window -/

theorem range'_split (s : Nat) {k n : Nat} (h : k ≤ n) :
    List.range' s n = List.range' s k ++ List.range' (s + k) (n - k) := by
  rw [List.range'_append_1, Nat.sub_add_cancel h]

/-- The first `k` of consecutive blocks and the rest are consecutive blocks. -/
theorem indices_take_drop {l : List DecodedBlock} {s k : Nat}
    (h : l.map (fun b => b.index) = List.range' s l.length) (hk : k ≤ l.length) :
    (l.take k).map (fun b => b.index) = List.range' s k ∧
      (l.drop k).map (fun b => b.index) = List.range' (s + k) (l.length - k) := by
  have hs := range'_split s hk
  constructor
  · rw [List.map_take, h, hs, List.take_left' (List.length_range' _ _ _)]
  · rw [List.map_drop, h, hs, List.drop_left' (List.length_range' _ _ _)]

theorem DecodeBlocksToFrameBuffer_indices (st : CompressedStream) (f first : Nat) :
    (DecodeBlocksToFrameBuffer st f first).length =
        min ((f + 1) * st.descriptor.nBlocksPerFrame) st.descriptor.nTotalBlocks - first ∧
      (DecodeBlocksToFrameBuffer st f first).map (fun b => b.index) =
        List.range' first (DecodeBlocksToFrameBuffer st f first).length := by
  unfold DecodeBlocksToFrameBuffer
  dsimp only
  refine ⟨by rw [List.length_map, List.length_range'], ?_⟩
  rw [List.map_map, List.length_map, List.length_range']
  exact List.map_id _

/-- Filling the frame buffer when blocks are left in the window: the byte source fails on the
frame owning the current block, or the buffer holds blocks afterwards and nothing else about the
standing of the instance has changed. -/
theorem FillFrameBuffer_spec {d : CAPEDecompress} (hw : d.InWindow)
    (hlt : d.m_nCurrentBlock < d.m_nFinishBlock) :
    (d.FillFrameBuffer = none ∧
      d.m_spAPEInfo.fate (d.m_nCurrentBlock / d.m_spAPEInfo.descriptor.nBlocksPerFrame) =
        .unreadable) ∨
    ∃ d1, d.FillFrameBuffer = some d1 ∧ d1.InWindow ∧ 0 < d1.m_cbFrameBuffer.length ∧
      d1.m_nCurrentBlock = d.m_nCurrentBlock ∧ d1.m_nStartBlock = d.m_nStartBlock ∧
      d1.m_nFinishBlock = d.m_nFinishBlock ∧ d1.m_spAPEInfo = d.m_spAPEInfo := by
  obtain ⟨hb, h1, h2, h3, h4⟩ := hw
  unfold CAPEDecompress.FillFrameBuffer
  by_cases he : d.m_cbFrameBuffer.isEmpty = true
  · rw [if_pos ⟨he, hlt⟩]
    dsimp only
    have hidx := DecodeBlocksToFrameBuffer_indices d.m_spAPEInfo
      (d.m_nCurrentBlock / d.m_spAPEInfo.descriptor.nBlocksPerFrame) d.m_nCurrentBlock
    have hpos : 0 < (DecodeBlocksToFrameBuffer d.m_spAPEInfo
        (d.m_nCurrentBlock / d.m_spAPEInfo.descriptor.nBlocksPerFrame) d.m_nCurrentBlock).length := by
      rw [hidx.1]
      have := @Nat.lt_div_mul_add d.m_nCurrentBlock _ hb
      have e : (d.m_nCurrentBlock / d.m_spAPEInfo.descriptor.nBlocksPerFrame + 1) *
          d.m_spAPEInfo.descriptor.nBlocksPerFrame =
          d.m_nCurrentBlock / d.m_spAPEInfo.descriptor.nBlocksPerFrame *
            d.m_spAPEInfo.descriptor.nBlocksPerFrame +
            d.m_spAPEInfo.descriptor.nBlocksPerFrame := Nat.succ_mul _ _
      rw [e]
      omega
    cases hf : d.m_spAPEInfo.fate
        (d.m_nCurrentBlock / d.m_spAPEInfo.descriptor.nBlocksPerFrame) with
    | unreadable => exact Or.inl ⟨rfl, rfl⟩
    | corrupt =>
      exact Or.inr ⟨_, rfl, ⟨hb, h1, h2, h3, hidx.2⟩, hpos, rfl, rfl, rfl, rfl⟩
    | sound =>
      exact Or.inr ⟨_, rfl, ⟨hb, h1, h2, h3, hidx.2⟩, hpos, rfl, rfl, rfl, rfl⟩
  · rw [if_neg (fun hc => he hc.1)]
    refine Or.inr ⟨d, rfl, ⟨hb, h1, h2, h3, h4⟩, ?_, rfl, rfl, rfl, rfl⟩
    cases hl : d.m_cbFrameBuffer with
    | nil => rw [hl] at he; exact absurd rfl he
    | cons a l => exact Nat.succ_pos _

/-- The loop of `GetData`, asked for `left` blocks that the window still holds: the byte source
fails, or exactly the next `left` blocks of the stream are handed out and the cursor has moved
past them. -/
theorem drain_spec : ∀ (fuel : Nat) (d : CAPEDecompress) (left : Nat) (out : List DecodedBlock),
    d.InWindow → d.m_nCurrentBlock + left ≤ d.m_nFinishBlock → left < fuel →
    d.drain fuel left out = .done none ∨
    ∃ d1 blocks, d.drain fuel left out = .done (some (d1, out ++ blocks)) ∧ d1.InWindow ∧
      blocks.map (fun b => b.index) = List.range' d.m_nCurrentBlock left ∧
      d1.m_nCurrentBlock = d.m_nCurrentBlock + left ∧ d1.m_nStartBlock = d.m_nStartBlock ∧
      d1.m_nFinishBlock = d.m_nFinishBlock ∧ d1.m_spAPEInfo = d.m_spAPEInfo
  | 0, _, _, _, _, _, h => absurd h (Nat.not_lt_zero _)
  | fuel + 1, d, left, out, hw, hle, hfuel => by
    unfold CAPEDecompress.drain
    by_cases h0 : left = 0
    · rw [if_pos h0]
      subst h0
      exact Or.inr ⟨d, [], by rw [List.append_nil], hw, rfl, rfl, rfl, rfl, rfl⟩
    · rw [if_neg h0]
      rcases FillFrameBuffer_spec hw (by omega) with ⟨hn, -⟩ | ⟨d1, hd1, hw1, hpos, e1, e2, e3, e4⟩
      · rw [hn]
        exact Or.inl rfl
      · rw [hd1]
        dsimp only
        have hk : min left d1.m_cbFrameBuffer.length ≠ 0 := by omega
        rw [if_neg hk]
        obtain ⟨hb, h1, h2, h3, h4⟩ := hw1
        obtain ⟨t1, t2⟩ := indices_take_drop h4 (Nat.min_le_right left d1.m_cbFrameBuffer.length)
        have hw2 : CAPEDecompress.InWindow
            { d1 with
              m_cbFrameBuffer := d1.m_cbFrameBuffer.drop (min left d1.m_cbFrameBuffer.length)
              m_nCurrentBlock := d1.m_nCurrentBlock + min left d1.m_cbFrameBuffer.length } := by
          refine ⟨hb, ?_, ?_, h3, ?_⟩
          · dsimp only; omega
          · dsimp only; omega
          · dsimp only
            rw [t2, List.length_drop]
        rcases drain_spec fuel _ (left - min left d1.m_cbFrameBuffer.length)
            (out ++ d1.m_cbFrameBuffer.take (min left d1.m_cbFrameBuffer.length)) hw2
            (by dsimp only; omega) (by omega) with hn | ⟨d2, blocks, hd2, hw3, i2, c2, s2, f2, a2⟩
        · exact Or.inl hn
        · refine Or.inr ⟨d2, d1.m_cbFrameBuffer.take (min left d1.m_cbFrameBuffer.length) ++ blocks,
            ?_, hw3, ?_, ?_, ?_, ?_, ?_⟩
          · rw [hd2, List.append_assoc]
          · dsimp only at i2
            rw [List.map_append, t1, i2, e1, List.range'_append_1]
            congr 1
            omega
          · rw [c2]; dsimp only; omega
          · rw [s2]; exact e2
          · rw [f2]; exact e3
          · rw [a2]; exact e4

/-- One call of `GetData` on an instance in good standing. The call returns. When the byte
source fails, the status is the I/O failure status, nothing is handed out and the instance is
as it was. Otherwise the status is `ERROR_SUCCESS` and the blocks handed out are the next
`min(nBlocks, m_nFinishBlock - m_nCurrentBlock)` blocks of the stream from the current block
on; the cursor has moved past them and the instance is in good standing with the same window. -/
theorem GetData_spec (d : CAPEDecompress) (nBlocks : Int) (hw : d.InWindow) :
    d.GetData nBlocks = .done (ERROR_IO_READ, d, []) ∨
    ∃ d1 out, d.GetData nBlocks = .done (ERROR_SUCCESS, d1, out) ∧ d1.InWindow ∧
      out.map (fun b => b.index) = List.range' d.m_nCurrentBlock
        (min nBlocks.toNat (d.m_nFinishBlock - d.m_nCurrentBlock)) ∧
      d1.m_nCurrentBlock = d.m_nCurrentBlock + out.length ∧
      d1.m_nStartBlock = d.m_nStartBlock ∧ d1.m_nFinishBlock = d.m_nFinishBlock ∧
      d1.m_spAPEInfo = d.m_spAPEInfo := by
  unfold CAPEDecompress.GetData
  dsimp only
  rcases drain_spec (min nBlocks.toNat (d.m_nFinishBlock - d.m_nCurrentBlock) + 1) d
      (min nBlocks.toNat (d.m_nFinishBlock - d.m_nCurrentBlock)) [] hw
      (by have := hw.2.2.1; omega) (Nat.lt_succ_self _) with
    hn | ⟨d1, blocks, hd, hw1, i1, c1, s1, f1, a1⟩
  · rw [hn]
    exact Or.inl rfl
  · rw [hd]
    refine Or.inr ⟨d1, [] ++ blocks, rfl, hw1, ?_, ?_, s1, f1, a1⟩
    · rw [List.nil_append]; exact i1
    · have hl := congrArg List.length i1
      rw [List.length_map, List.length_range'] at hl
      rw [List.nil_append, hl]
      exact c1

/-- What construction leaves: an instance standing at its start block, with the window asked
for. -/
theorem create_spec {st : CompressedStream} {nStartBlock nFinishBlock : Int}
    {d : CAPEDecompress}
    (hc : CAPEDecompress.create st nStartBlock nFinishBlock = (ERROR_SUCCESS, some d))
    (hf : 0 < st.descriptor.nBlocksPerFrame) :
    d.InWindow ∧ d.m_nCurrentBlock = d.m_nStartBlock ∧ d.m_spAPEInfo = st ∧
      (d.m_nStartBlock : Int) = (if nStartBlock < 0 then 0 else nStartBlock) ∧
      (d.m_nFinishBlock : Int) =
        (if nFinishBlock < 0 then (st.descriptor.nTotalBlocks : Int) else nFinishBlock) := by
  unfold CAPEDecompress.create at hc
  dsimp only at hc
  have hs0 : (0 : Int) ≤ (if nStartBlock < 0 then 0 else nStartBlock) := by
    split_ifs <;> omega
  generalize (if nStartBlock < 0 then (0 : Int) else nStartBlock) = start at hc hs0 ⊢
  generalize (if nFinishBlock < 0 then (st.descriptor.nTotalBlocks : Int) else nFinishBlock) =
    finish at hc ⊢
  by_cases hg : start > finish ∨ finish > (st.descriptor.nTotalBlocks : Int)
  · rw [if_pos hg] at hc
    exact absurd (congrArg Prod.snd hc) (fun h => Option.noConfusion h)
  · rw [if_neg hg] at hc
    have hd := Option.some.inj (congrArg Prod.snd hc)
    subst hd
    refine ⟨⟨hf, le_refl _, ?_, ?_, rfl⟩, rfl, rfl, ?_, ?_⟩ <;> dsimp only <;> omega

/-- Successive calls of `GetData` on an instance in good standing all return; each hands out
blocks of the window only, with `ERROR_SUCCESS`, or nothing with the I/O failure status. -/
theorem getAll_spec : ∀ (ns : List Int) (d : CAPEDecompress), d.InWindow →
    ∃ rs d1, d.getAll ns = .done (rs, d1) ∧ d1.InWindow ∧
      d1.m_nStartBlock = d.m_nStartBlock ∧ d1.m_nFinishBlock = d.m_nFinishBlock ∧
      ∀ r ∈ rs, (r.1 = ERROR_SUCCESS ∨ (r.1 = ERROR_IO_READ ∧ r.2 = [])) ∧
        ∀ b ∈ r.2, d.m_nStartBlock ≤ b.index ∧ b.index < d.m_nFinishBlock
  | [], d, hw => ⟨[], d, rfl, hw, rfl, rfl, fun r hr => absurd hr (List.not_mem_nil _)⟩
  | n :: ns, d, hw => by
    unfold CAPEDecompress.getAll
    rcases GetData_spec d n hw with hn | ⟨d1, out, hd, hw1, i1, -, s1, f1, -⟩
    · rw [hn]
      obtain ⟨rs, d2, h2, hw2, s2, f2, hr⟩ := getAll_spec ns d hw
      dsimp only
      rw [h2]
      refine ⟨_, d2, rfl, hw2, s2, f2, fun r hr' => ?_⟩
      rcases List.mem_cons.mp hr' with e | e
      · rw [e]
        exact ⟨Or.inr ⟨rfl, rfl⟩, fun b hb => absurd hb (List.not_mem_nil _)⟩
      · exact hr r e
    · rw [hd]
      obtain ⟨rs, d2, h2, hw2, s2, f2, hr⟩ := getAll_spec ns d1 hw1
      dsimp only
      rw [h2]
      refine ⟨_, d2, rfl, hw2, s2.trans s1, f2.trans f1, fun r hr' => ?_⟩
      rcases List.mem_cons.mp hr' with e | e
      · rw [e]
        refine ⟨Or.inl rfl, fun b hb => ?_⟩
        have hm : b.index ∈ out.map (fun b => b.index) := List.mem_map_of_mem _ hb
        rw [i1, List.mem_range'_1] at hm
        have := hw.2.1
        have := hw.2.2.1
        omega
      · have := hr r e
        rw [s1, f1] at this
        exact this

set_option maxRecDepth 1000000 in
/-- C14 fails as stated, in its example. On a mono 16-bit stream of 1000 blocks in frames of 256,
decompressed without a range, five `GetData(100)` calls return 100 blocks each and the sixth
call, asking for 600, returns the 500 blocks that are left, not 400; every status is
`ERROR_SUCCESS`. -/
theorem sixth_call_returns_500 :
    CAPEDecompress.create (monoStream 1000 256 []) (-1) (-1) =
        (ERROR_SUCCESS, some ⟨monoStream 1000 256 [], 0, 1000, 0, 0, [], false⟩) ∧
      (Run.get ([], ⟨monoStream 1000 256 [], 0, 1000, 0, 0, [], false⟩)
        (CAPEDecompress.getAll ⟨monoStream 1000 256 [], 0, 1000, 0, 0, [], false⟩
          [100, 100, 100, 100, 100, 600])).1.map (fun r => (r.1, r.2.length)) =
        [(ERROR_SUCCESS, 100), (ERROR_SUCCESS, 100), (ERROR_SUCCESS, 100), (ERROR_SUCCESS, 100),
          (ERROR_SUCCESS, 100), (ERROR_SUCCESS, 500)] ∧
      (500 : Nat) ≠ 400 := by
  decide

set_option maxRecDepth 1000000 in
/-- C14, amended. For an instance constructed with a range window on a stream whose frames hold
at least one block: any sequence of `GetData` calls returns, each call handing out blocks of the
window only, with `ERROR_SUCCESS`, or nothing with the I/O failure status. Call by call, on any
instance in good standing: when the byte source fails, the status is the I/O failure status,
nothing is handed out and the instance is as it was; otherwise the status is `ERROR_SUCCESS`,
the blocks handed out are consecutive blocks of the stream from the current block on, their
number is the smaller of the number asked for and the number left before `m_nFinishBlock`, the
cursor moves past them, and if they are fewer than asked for the cursor is at the end of the
window. On the mono 16-bit stream of 1000 blocks in frames of 256, five calls for 100 blocks
return 100 each and a sixth for 600 returns 500. -/
theorem range_window_enforced (st : CompressedStream) (nStartBlock nFinishBlock : Int)
    (d : CAPEDecompress)
    (hc : CAPEDecompress.create st nStartBlock nFinishBlock = (ERROR_SUCCESS, some d))
    (hf : 0 < st.descriptor.nBlocksPerFrame) :
    (∀ ns, ∃ rs d1, d.getAll ns = .done (rs, d1) ∧ d1.InWindow ∧
      ∀ r ∈ rs, (r.1 = ERROR_SUCCESS ∨ (r.1 = ERROR_IO_READ ∧ r.2 = [])) ∧
        ∀ b ∈ r.2, d.m_nStartBlock ≤ b.index ∧ b.index < d.m_nFinishBlock) ∧
    (d.InWindow ∧ d.m_nCurrentBlock = d.m_nStartBlock) ∧
    (∀ e : CAPEDecompress, e.InWindow → ∀ nBlocks : Int,
      e.GetData nBlocks = .done (ERROR_IO_READ, e, []) ∨
      ∃ e1 out, e.GetData nBlocks = .done (ERROR_SUCCESS, e1, out) ∧ e1.InWindow ∧
        e1.m_nStartBlock = e.m_nStartBlock ∧ e1.m_nFinishBlock = e.m_nFinishBlock ∧
        out.map (fun b => b.index) = List.range' e.m_nCurrentBlock out.length ∧
        out.length = min nBlocks.toNat (e.m_nFinishBlock - e.m_nCurrentBlock) ∧
        e1.m_nCurrentBlock = e.m_nCurrentBlock + out.length ∧
        ((out.length : Int) < nBlocks → e1.m_nCurrentBlock = e.m_nFinishBlock)) ∧
    (Run.get ([], ⟨monoStream 1000 256 [], 0, 1000, 0, 0, [], false⟩)
      (CAPEDecompress.getAll ⟨monoStream 1000 256 [], 0, 1000, 0, 0, [], false⟩
        [100, 100, 100, 100, 100, 600])).1.map (fun r => (r.1, r.2.length)) =
      [(ERROR_SUCCESS, 100), (ERROR_SUCCESS, 100), (ERROR_SUCCESS, 100), (ERROR_SUCCESS, 100),
        (ERROR_SUCCESS, 100), (ERROR_SUCCESS, 500)] := by
  obtain ⟨hw, hcur, -⟩ := create_spec hc hf
  refine ⟨fun ns => ?_, ⟨hw, hcur⟩, fun e he nBlocks => ?_, by decide⟩
  · obtain ⟨rs, d1, h1, hw1, -, -, hr⟩ := getAll_spec ns d hw
    exact ⟨rs, d1, h1, hw1, hr⟩
  · rcases GetData_spec e nBlocks he with hn | ⟨e1, out, h1, hw1, i1, c1, s1, f1, -⟩
    · exact Or.inl hn
    · have hl := congrArg List.length i1
      rw [List.length_map, List.length_range'] at hl
      refine Or.inr ⟨e1, out, h1, hw1, s1, f1, by rw [i1, hl], hl, c1, fun hlt => ?_⟩
      have := he.2.2.1
      omega

set_option maxRecDepth 1000000 in
/-- C14, amended, at the same stream decompressed with the range window `[300, 700)`, its
second frame corrupt: four calls for 100 blocks return 100 each, and then nothing is left. -/
theorem range_window_enforced_witness :
    (Run.get ([], ⟨monoStream 1000 256 [.sound, .corrupt], 300, 700, 300, 1, [], false⟩)
        (CAPEDecompress.getAll ⟨monoStream 1000 256 [.sound, .corrupt], 300, 700, 300, 1, [], false⟩
          [100, 100, 100, 100, 100, 600])).1.map (fun r => (r.1, r.2.length)) =
        [(ERROR_SUCCESS, 100), (ERROR_SUCCESS, 100), (ERROR_SUCCESS, 100), (ERROR_SUCCESS, 100),
          (ERROR_SUCCESS, 0), (ERROR_SUCCESS, 0)] ∧
      CAPEDecompress.InWindow
        ⟨monoStream 1000 256 [.sound, .corrupt], 300, 700, 300, 1, [], false⟩ :=
  ⟨by decide,
    (range_window_enforced (monoStream 1000 256 [.sound, .corrupt]) 300 700
      ⟨monoStream 1000 256 [.sound, .corrupt], 300, 700, 300, 1, [], false⟩
      (by decide) (by decide)).2.1.1⟩

/-! ## Seeking in the range window -/

set_option maxRecDepth 1000000 in
/-- C15 fails as stated, in its second half. On the mono 16-bit stream of 1000 blocks in frames
of 256 whose first frame the byte source fails on, decompressed without a range, the window is
`[0, 1000)` and offset 10 lies inside it; `Seek` returns the I/O failure status, not
`ERROR_SUCCESS`, and leaves the instance as it was. -/
theorem Seek_inside_window_fails :
    CAPEDecompress.create (monoStream 1000 256 [.unreadable]) (-1) (-1) =
        (ERROR_SUCCESS, some ⟨monoStream 1000 256 [.unreadable], 0, 1000, 0, 0, [], false⟩) ∧
      (0 : Int) ≤ 10 ∧ ((0 : Nat) : Int) + 10 < ((1000 : Nat) : Int) ∧
      CAPEDecompress.Seek ⟨monoStream 1000 256 [.unreadable], 0, 1000, 0, 0, [], false⟩ 10 =
        (ERROR_IO_READ, ⟨monoStream 1000 256 [.unreadable], 0, 1000, 0, 0, [], false⟩) ∧
      ERROR_IO_READ ≠ ERROR_SUCCESS := by
  decide

/-- C15, amended: block offsets count from `m_nStartBlock`. For an offset outside the range
window (negative, or at or past `m_nFinishBlock - m_nStartBlock`) `Seek` returns the
bad-parameter status and leaves the instance, and with it the current block, as it was. For an
offset inside the window `Seek` returns `ERROR_SUCCESS`, with the current block at the offset,
the window as before, and an instance in good standing if it was in good standing, unless the
byte source fails on the frame owning the block; in that case `Seek` returns the I/O failure
status and leaves the instance as it was. -/
theorem Seek_window (d : CAPEDecompress) (nBlockOffset : Int) :
    (nBlockOffset < 0 ∨ (d.m_nFinishBlock : Int) ≤ (d.m_nStartBlock : Int) + nBlockOffset →
      d.Seek nBlockOffset = (ERROR_BAD_PARAMETER, d)) ∧
    (0 ≤ nBlockOffset → (d.m_nStartBlock : Int) + nBlockOffset < (d.m_nFinishBlock : Int) →
      d.m_spAPEInfo.fate ((d.m_nStartBlock + nBlockOffset.toNat) /
        d.m_spAPEInfo.descriptor.nBlocksPerFrame) ≠ .unreadable →
      ∃ d1, d.Seek nBlockOffset = (ERROR_SUCCESS, d1) ∧
        (d1.m_nCurrentBlock : Int) = (d.m_nStartBlock : Int) + nBlockOffset ∧
        d1.m_nStartBlock = d.m_nStartBlock ∧ d1.m_nFinishBlock = d.m_nFinishBlock ∧
        (d.InWindow → d1.InWindow)) ∧
    (0 ≤ nBlockOffset → (d.m_nStartBlock : Int) + nBlockOffset < (d.m_nFinishBlock : Int) →
      d.m_spAPEInfo.fate ((d.m_nStartBlock + nBlockOffset.toNat) /
        d.m_spAPEInfo.descriptor.nBlocksPerFrame) = .unreadable →
      d.Seek nBlockOffset = (ERROR_IO_READ, d)) := by
  refine ⟨fun hout => ?_, fun h0 hin hfate => ?_, fun h0 hin hfate => ?_⟩
  · unfold CAPEDecompress.Seek
    rw [if_pos (by omega)]
  · have hfill : CAPEDecompress.FillFrameBuffer
        { d with m_nCurrentBlock := d.m_nStartBlock + nBlockOffset.toNat, m_cbFrameBuffer := [] } =
        some { d with
          m_nCurrentBlock := d.m_nStartBlock + nBlockOffset.toNat
          m_nCurrentFrame := (d.m_nStartBlock + nBlockOffset.toNat) /
            d.m_spAPEInfo.descriptor.nBlocksPerFrame
          m_bErrorDecodingCurrentFrame := d.m_spAPEInfo.fate ((d.m_nStartBlock + nBlockOffset.toNat) /
            d.m_spAPEInfo.descriptor.nBlocksPerFrame) == .corrupt
          m_cbFrameBuffer := DecodeBlocksToFrameBuffer d.m_spAPEInfo
            ((d.m_nStartBlock + nBlockOffset.toNat) / d.m_spAPEInfo.descriptor.nBlocksPerFrame)
            (d.m_nStartBlock + nBlockOffset.toNat) } := by
      unfold CAPEDecompress.FillFrameBuffer
      rw [if_pos ⟨rfl, by dsimp only; omega⟩]
      dsimp only
      cases hx : d.m_spAPEInfo.fate ((d.m_nStartBlock + nBlockOffset.toNat) /
          d.m_spAPEInfo.descriptor.nBlocksPerFrame) with
      | unreadable => exact absurd hx hfate
      | corrupt => rfl
      | sound => rfl
    unfold CAPEDecompress.Seek
    rw [if_neg (by omega)]
    dsimp only
    rw [hfill]
    refine ⟨_, rfl, ?_, rfl, rfl, fun hw => ?_⟩
    · dsimp only
      omega
    · obtain ⟨hb, h1, h2, h3, -⟩ := hw
      refine ⟨hb, ?_, ?_, h3, (DecodeBlocksToFrameBuffer_indices _ _ _).2⟩
      · dsimp only; omega
      · dsimp only; omega
  · unfold CAPEDecompress.Seek
    rw [if_neg (by omega)]
    dsimp only
    unfold CAPEDecompress.FillFrameBuffer
    rw [if_pos ⟨rfl, by dsimp only; omega⟩]
    dsimp only
    rw [hfate]

set_option maxRecDepth 1000000 in
/-- C15, amended, at the 1000-block stream decompressed with the range window `[300, 700)`:
offsets `-1` and 400 are refused, offset 399 is accepted and puts the current block at 699; and
with the second frame unreadable offset 10, in that frame, gives the I/O failure status. -/
theorem Seek_window_witness :
    (CAPEDecompress.Seek ⟨monoStream 1000 256 [], 300, 700, 300, 1, [], false⟩ (-1)).1 =
        ERROR_BAD_PARAMETER ∧
      CAPEDecompress.Seek ⟨monoStream 1000 256 [], 300, 700, 300, 1, [], false⟩ 400 =
        (ERROR_BAD_PARAMETER, ⟨monoStream 1000 256 [], 300, 700, 300, 1, [], false⟩) ∧
      (CAPEDecompress.Seek ⟨monoStream 1000 256 [], 300, 700, 300, 1, [], false⟩ 399).2.m_nCurrentBlock
        = 699 ∧
      (∃ d1, CAPEDecompress.Seek ⟨monoStream 1000 256 [], 300, 700, 300, 1, [], false⟩ 399 =
          (ERROR_SUCCESS, d1) ∧
        (d1.m_nCurrentBlock : Int) =
          ((⟨monoStream 1000 256 [], 300, 700, 300, 1, [], false⟩ : CAPEDecompress).m_nStartBlock :
            Int) + 399 ∧
        d1.m_nStartBlock =
          (⟨monoStream 1000 256 [], 300, 700, 300, 1, [], false⟩ : CAPEDecompress).m_nStartBlock ∧
        d1.m_nFinishBlock =
          (⟨monoStream 1000 256 [], 300, 700, 300, 1, [], false⟩ : CAPEDecompress).m_nFinishBlock ∧
        (CAPEDecompress.InWindow ⟨monoStream 1000 256 [], 300, 700, 300, 1, [], false⟩ →
          d1.InWindow)) ∧
      CAPEDecompress.Seek
          ⟨monoStream 1000 256 [.sound, .unreadable], 300, 700, 300, 1, [], false⟩ 10 =
        (ERROR_IO_READ,
          ⟨monoStream 1000 256 [.sound, .unreadable], 300, 700, 300, 1, [], false⟩) :=
  ⟨by decide,
    (Seek_window ⟨monoStream 1000 256 [], 300, 700, 300, 1, [], false⟩ 400).1
      (Or.inr (by decide)),
    by decide,
    (Seek_window ⟨monoStream 1000 256 [], 300, 700, 300, 1, [], false⟩ 399).2.1
      (by decide) (by decide) (by decide),
    (Seek_window ⟨monoStream 1000 256 [.sound, .unreadable], 300, 700, 300, 1, [], false⟩
      10).2.2 (by decide) (by decide) (by decide)⟩

end APE
